import Mathlib

/-
Verification of the Domino module-data definition library
(src/classes.ts): a bidirectional mapper between an XML document and a
typed in-memory tree.

Shallow embedding conventions:
* JS numbers are modelled as rationals (every JS double is a rational;
  the idealisation is noted where it matters).
* JS strings are Lean Strings.
* An XML attribute value after parsing with nativeTypeAttributes is
  either a number or a string; we model it as the sum type AttrValue.
* Throwing a DominoError is modelled as Except.error carrying the
  message string.
* The generic XML collaborator (js2xml / xml2js from deps.ts, which is
  not part of src/) is modelled from the spec, section 6: serialising a
  tree to text and re-parsing it with attribute type coercion maps each
  numeric attribute to itself and coerces each numeric-looking string
  attribute to its numeric value; empty text nodes disappear.  This
  composite is the function rtNode below.

The file is organised as: all definitions first, then all theorems.
-/

deriving instance DecidableEq for Except

namespace Domino

/-- Value of an XML attribute after xml2js parsing with
nativeTypeAttributes: either a JS number (modelled as a rational) or a
string. -/
inductive AttrValue where
  | num (q : ℚ)
  | str (s : String)
deriving DecidableEq

/-- Generic element tree node, mirroring the Element union type of
src/classes.ts (ElementElement and TextElement). -/
inductive XNode where
  | elem (name : String) (attrs : List (String × AttrValue)) (children : List XNode)
  | text (s : String)

/-- Document object produced by xml2js / consumed by js2xml (the XmlJs
type of src/classes.ts): an optional declaration with attributes and a
list of top-level nodes. -/
structure XmlJs where
  declaration : Option (List (String × AttrValue))
  elements : List XNode

/-- Attribute lookup in a JS attribute object, modelled as first-match
lookup in an association list. -/
def alookup (k : String) : List (String × AttrValue) → Option AttrValue
  | [] => none
  | (k2, v) :: r => if k = k2 then some v else alookup k r

/-- Attribute emission: js2xml omits attributes whose value is
undefined, so an optional attribute contributes either nothing or one
key/value pair. -/
def optAttr (k : String) : Option AttrValue → List (String × AttrValue)
  | none => []
  | some v => [(k, v)]

/-! Digit and number rendering machinery.

JS renders numbers into decimal strings and coerces decimal strings
back to numbers; the Tempo entity additionally renders through
toFixed(3).  We build a small executable decimal renderer and parser
(kernel-reducible, by fuelled structural recursion) and later prove
they are inverse where the round-trip proofs need it. -/

/-- Character of a single decimal digit. -/
def digitChar (d : Nat) : Char := Char.ofNat (48 + d)

/-- Numeric value of a decimal digit character. -/
def digitVal (c : Char) : Nat := c.toNat - 48

/-- Decimal digits of n, least significant first, by fuelled structural
recursion (kernel-reducible, unlike Nat.digits). -/
def natDigitsRev : Nat → Nat → List Nat
  | 0, _ => []
  | fuel + 1, n => if n = 0 then [] else n % 10 :: natDigitsRev fuel (n / 10)

/-- Decimal string of a natural number, mirroring JS String(n). -/
def natToStr (n : Nat) : String :=
  if n = 0 then "0" else String.mk ((natDigitsRev n n).reverse.map digitChar)

/-- Decimal string of an integer, mirroring JS String(i). -/
def intToStr (i : Int) : String :=
  if i < 0 then "-" ++ natToStr i.natAbs else natToStr i.natAbs

/-- Value of a list of decimal digit characters, most significant
first. -/
def parseNatL (cs : List Char) : Nat := cs.foldl (fun a c => 10 * a + digitVal c) 0

/-- Recogniser for the optional fractional part of a decimal literal:
either nothing, or a dot followed by at least one digit. -/
def fracOk : List Char → Bool
  | [] => true
  | '.' :: frac => !frac.isEmpty && frac.all Char.isDigit
  | _ => false

/-- Recogniser for an unsigned decimal literal: at least one leading
digit, then an optional dot-and-digits fractional part. -/
def numericCore (cs : List Char) : Bool :=
  !(cs.takeWhile Char.isDigit).isEmpty && fracOk (cs.dropWhile Char.isDigit)

/-- Recogniser for a signed decimal literal. -/
def looksNumericL : List Char → Bool
  | [] => false
  | c :: rest => if c = '-' then numericCore rest else numericCore (c :: rest)

/-- Modelled from the spec, section 6: the collaborator coerces
numeric-looking attribute values to numbers.  We take numeric-looking
to mean a signed decimal literal (digits with an optional fractional
part). -/
def looksNumeric (s : String) : Bool := looksNumericL s.data

/-- Value of an unsigned decimal literal. -/
def parseCore (cs : List Char) : ℚ :=
  match cs.dropWhile Char.isDigit with
  | '.' :: frac =>
    (parseNatL (cs.takeWhile Char.isDigit) : ℚ) + (parseNatL frac : ℚ) / (10 : ℚ) ^ frac.length
  | _ => (parseNatL (cs.takeWhile Char.isDigit) : ℚ)

/-- Value of a signed decimal literal. -/
def strToNumL : List Char → ℚ
  | [] => parseCore []
  | c :: rest => if c = '-' then -(parseCore rest) else parseCore (c :: rest)

/-- Numeric value the collaborator assigns to a numeric-looking
attribute string (JS Number coercion on the fragment recognised by
looksNumeric). -/
def strToNum (s : String) : ℚ := strToNumL s.data

/-- Fuelled p-adic valuation: how often p divides n. -/
def padicFuel (p : Nat) : Nat → Nat → Nat
  | 0, _ => 0
  | fuel + 1, n => if 1 < p ∧ n ≠ 0 ∧ n % p = 0 then padicFuel p fuel (n / p) + 1 else 0

/-- Smallest k with d dividing 10^k, if any (some k exactly when d has
no prime factors besides 2 and 5). -/
def decExp (d : Nat) : Option Nat :=
  let a := padicFuel 2 d d
  let b := padicFuel 5 d d
  if 2 ^ a * 5 ^ b = d then some (max a b) else none

/-- Zero-padded k-digit decimal rendering of r (most significant
first). -/
def padDigits (k r : Nat) : List Char :=
  (List.range k).reverse.map (fun i => digitChar (r / 10 ^ i % 10))

/-- Decimal string of a JS number, mirroring JS String(q).  Every value
a JS double can hold has a denominator that is a power of two and hence
a finite decimal expansion, rendered here with no trailing zeros as JS
does; the fraction-notation fallback for other rationals is outside the
image of JS doubles and is never evaluated by any theorem below. -/
def numToStr (q : ℚ) : String :=
  if q.den = 1 then intToStr q.num
  else
    match decExp q.den with
    | some k =>
      let m := q.num.natAbs * 10 ^ k / q.den
      (if q.num < 0 then "-" else "") ++ natToStr (m / 10 ^ k) ++ "." ++
        String.mk (padDigits k (m % 10 ^ k))
    | none => intToStr q.num ++ "/" ++ natToStr q.den

/-- JS string conversion of an attribute value (the String(x) calls in
the decoders). -/
def attrToString : AttrValue → String
  | .num q => numToStr q
  | .str s => s

/-- Scaled magnitude used by toFixed(3): the integer nearest |q| * 1000,
ties rounded up, as ECMA-262 toFixed specifies for the magnitude. -/
def quantNat3 (q : ℚ) : Nat := (Int.floor (|q| * 1000 + 1 / 2)).toNat

/-- Quantisation of a number to three decimal places: the value that
the string produced by toFixed(3) denotes.  (For values a JS double can
hold, exact ties at the third decimal are impossible, so the tie
direction is immaterial.) -/
def quant3 (q : ℚ) : ℚ := (if q < 0 then -1 else 1) * (quantNat3 q : ℚ) / 1000

/-- Rendering of tempo.toFixed(3) in Tempo.toXMLElement: sign, integer
part, dot, exactly three fractional digits. -/
def toFixed3Str (q : ℚ) : String :=
  (if q < 0 then "-" else "") ++ natToStr (quantNat3 q / 1000) ++ "." ++
    String.mk (padDigits 3 (quantNat3 q % 1000))

/-! The collaborator round trip: serialise with js2xml, re-parse with
xml2js (nativeTypeAttributes on).  Modelled from the spec, sections 2
and 6: numbers survive unchanged, numeric-looking strings come back as
numbers, other strings survive, empty text nodes disappear, structure
and order are preserved. -/

/-- Round trip of one attribute value through the collaborator. -/
def rtVal : AttrValue → AttrValue
  | .num q => .num q
  | .str s => if looksNumeric s then .num (strToNum s) else .str s

/-- Round trip of an attribute list through the collaborator. -/
def rtAttrs (l : List (String × AttrValue)) : List (String × AttrValue) :=
  l.map (fun kv => (kv.1, rtVal kv.2))

mutual

/-- Round trip of a node through the collaborator: attribute values are
coerced, empty text nodes disappear. -/
def rtNode : XNode → Option XNode
  | .elem n a c => some (.elem n (rtAttrs a) (rtChildren c))
  | .text s => if s = "" then none else some (.text s)

/-- Round trip of a child list: each node individually, dropped nodes
omitted (List.filterMap rtNode written recursively). -/
def rtChildren : List XNode → List XNode
  | [] => []
  | x :: xs =>
    match rtNode x with
    | some y => y :: rtChildren xs
    | none => rtChildren xs

end

/-- Round trip of a whole document through the collaborator. -/
def rtDoc (d : XmlJs) : XmlJs :=
  { declaration := d.declaration.map rtAttrs
    elements := rtChildren d.elements }

/-! Entity data model, one Lean structure per class of src/classes.ts.
String unions of the TS source are modelled as Lean enumerations with
their exact emission strings. -/

/-- RhythmTrackDefault: one required numeric Gate attribute. -/
structure RhythmTrackDefault where
  gate : ℚ
deriving DecidableEq

/-- ExclusiveEventDefault: one required string Data attribute. -/
structure ExclusiveEventDefault where
  data : String
deriving DecidableEq

/-- ProgramChangeEventPropertyDlg: one required numeric AutoPreviewDelay
attribute. -/
structure ProgramChangeEventPropertyDlg where
  autoPreviewDelay : ℚ
deriving DecidableEq

/-- ControlChangeEventDefault: one required numeric ID attribute. -/
structure ControlChangeEventDefault where
  id : ℚ
deriving DecidableEq

/-- Tone: name and key. -/
structure Tone where
  name : String
  key : ℚ
deriving DecidableEq

/-- Bank: name with optional lsb and msb. -/
structure Bank where
  name : String
  lsb : Option ℚ
  msb : Option ℚ
deriving DecidableEq

/-- DrumBank: a Bank that additionally owns an ordered list of Tones. -/
structure DrumBank where
  name : String
  lsb : Option ℚ
  msb : Option ℚ
  tones : List Tone
deriving DecidableEq

/-- InstrumentPC: the PC class instantiated at Bank.  The TS constructor
type [T, ...T+] forces at least one bank; in this model that invariant
is carried as a hypothesis where needed. -/
structure InstrumentPC where
  name : String
  pc : ℚ
  banks : List Bank
deriving DecidableEq

/-- DrumPC: the PC class instantiated at DrumBank. -/
structure DrumPC where
  name : String
  pc : ℚ
  banks : List DrumBank
deriving DecidableEq

/-- InstrumentMap: named ordered list of InstrumentPC. -/
structure InstrumentMap where
  name : String
  pcs : List InstrumentPC
deriving DecidableEq

/-- DrumMap: named ordered list of DrumPC. -/
structure DrumMap where
  name : String
  pcs : List DrumPC
deriving DecidableEq

/-- InstrumentList: ordered list of InstrumentMap. -/
structure InstrumentList where
  maps : List InstrumentMap
deriving DecidableEq

/-- DrumSetList: ordered list of DrumMap. -/
structure DrumSetList where
  maps : List DrumMap
deriving DecidableEq

/-- Entry: label/value pair. -/
structure Entry where
  label : String
  value : ℚ
deriving DecidableEq

/-- Type attribute of Value, a closed string union with sole member
"Key". -/
inductive ValueType where
  | key
deriving DecidableEq

/-- Value (and Gate, which is Value renamed on emission): seven optional
attributes plus an optional list of entries. -/
structure Value where
  dflt : Option ℚ
  min : Option ℚ
  max : Option ℚ
  offset : Option ℚ
  name : Option String
  type : Option ValueType
  tableId : Option ℚ
  tags : Option (List Entry)
deriving DecidableEq

/-- Data: raw text payload of a CCM. -/
structure Data where
  text : String
deriving DecidableEq

/-- Table: required numeric id plus an ordered list of entries. -/
structure Table where
  id : ℚ
  tags : List Entry
deriving DecidableEq

/-- Sync attribute of CCM, the closed string union Last or
LastEachGate. -/
inductive Sync where
  | last
  | lastEachGate
deriving DecidableEq

/-- Scalar attributes of CCM. -/
structure CCMParam where
  id : ℚ
  name : String
  color : Option String
  sync : Option Sync
deriving DecidableEq

/-- One entry of the CCM tags object.  The JS object has at most one
entry per key (value, gate, data, memo); iteration order is key
insertion order, so the object is modelled as an ordered list of
entries with pairwise distinct keys. -/
inductive CCMSub where
  | value (v : Value)
  | gate (v : Value)
  | data (d : Data)
  | memo (s : String)
deriving DecidableEq

/-- Scalar attributes of CCMFolder. -/
structure FolderParam where
  name : String
  id : Option ℚ
deriving DecidableEq

/-- CCMFolderLink: name, required id, optional value and gate. -/
structure CCMFolderLink where
  name : String
  id : ℚ
  value : Option ℚ
  gate : Option ℚ
deriving DecidableEq

/-- CCMLink: required id, optional value and gate. -/
structure CCMLink where
  id : ℚ
  value : Option ℚ
  gate : Option ℚ
deriving DecidableEq

/-- Tagged union of the children a CCMFolder (and the top-level
ControlChangeMacroList) may hold.  A memo is a bare string in the TS
source; the TS type of ControlChangeMacroList.tags excludes memos at
top level, which theorems below carry as a hypothesis. -/
inductive CCMTag where
  | folder (param : FolderParam) (tags : List CCMTag)
  | folderLink (l : CCMFolderLink)
  | ccm (param : CCMParam) (tags : List CCMSub)
  | ccmLink (l : CCMLink)
  | table (t : Table)
  | memo (s : String)

/-- ControlChangeMacroList: ordered heterogeneous list of macro-tree
roots. -/
structure ControlChangeMacroList where
  tags : List CCMTag

/-- Memo element of a Template (a first-class class there, unlike the
bare-string memos of the macro tree). -/
structure Memo where
  text : String
deriving DecidableEq

/-- CC: required id, optional value and gate. -/
structure CC where
  id : ℚ
  value : Option ℚ
  gate : Option ℚ
deriving DecidableEq

/-- Mode attribute of the template/default-data PC events, the closed
string union Drumset or Auto. -/
inductive PCMode where
  | drumset
  | auto
deriving DecidableEq

/-- TemplatePC: all-optional program-change description inside a
Template. -/
structure TemplatePC where
  pc : Option ℚ
  msb : Option ℚ
  lsb : Option ℚ
  mode : Option PCMode
deriving DecidableEq

/-- Comment: optional text attribute. -/
structure Comment where
  text : Option String
deriving DecidableEq

/-- Scalar attributes of Template. -/
structure TemplateParam where
  id : Option ℚ
  name : String
deriving DecidableEq

/-- Tagged union of the children of a Template. -/
inductive TmplChild where
  | memo (m : Memo)
  | cc (c : CC)
  | pc (p : TemplatePC)
  | comment (c : Comment)
deriving DecidableEq

/-- Tagged union of the children of the template tree: folders nest
folders and templates. -/
inductive TemplateTag where
  | folder (name : String) (tags : List TemplateTag)
  | template (param : TemplateParam) (tags : List TmplChild)

/-- TemplateList: ordered list of template-tree roots. -/
structure TemplateList where
  tags : List TemplateTag

/-- Mark of DefaultData: required measure, optional name. -/
structure Mark where
  meas : ℚ
  name : Option String
deriving DecidableEq

/-- Mode attribute of Track, the closed string union Conductor or
Rhythm. -/
inductive TrackMode where
  | conductor
  | rhythm
deriving DecidableEq

/-- Mark event inside a Track (DefaultDataTrackMark class). -/
structure DefaultDataTrackMark where
  name : Option String
  tick : Option ℚ
  step : Option ℚ
deriving DecidableEq

/-- Tempo event: required tempo, optional tick and step.  Encoding
renders tempo through toFixed(3). -/
structure Tempo where
  tempo : ℚ
  tick : Option ℚ
  step : Option ℚ
deriving DecidableEq

/-- TimeSignature event: required text, optional tick and step. -/
structure TimeSignature where
  timeSignature : String
  tick : Option ℚ
  step : Option ℚ
deriving DecidableEq

/-- KeySignature event: required text, optional tick and step. -/
structure KeySignature where
  keySignature : String
  tick : Option ℚ
  step : Option ℚ
deriving DecidableEq

/-- Control-change event inside a Track (DefaultDataCC class). -/
structure DefaultDataCC where
  id : ℚ
  value : Option ℚ
  gate : Option ℚ
  tick : Option ℚ
  step : Option ℚ
deriving DecidableEq

/-- Program-change event inside a Track (DefaultDataPC class). -/
structure DefaultDataPC where
  pc : Option ℚ
  msb : Option ℚ
  lsb : Option ℚ
  mode : Option PCMode
  tick : Option ℚ
  step : Option ℚ
deriving DecidableEq

/-- Comment event inside a Track (DefaultDataComment class). -/
structure DefaultDataComment where
  text : Option String
  tick : Option ℚ
  step : Option ℚ
deriving DecidableEq

/-- Template-reference event inside a Track (DefaultDataTemplate
class). -/
structure DefaultDataTemplate where
  id : Option ℚ
  tick : Option ℚ
  step : Option ℚ
deriving DecidableEq

/-- End-of-track event. -/
structure EOT where
  tick : Option ℚ
deriving DecidableEq

/-- Tagged union of the nine event kinds a Track may hold, in stream
order. -/
inductive TrackEvent where
  | mark (m : DefaultDataTrackMark)
  | tempo (t : Tempo)
  | timeSignature (t : TimeSignature)
  | keySignature (k : KeySignature)
  | cc (c : DefaultDataCC)
  | pc (p : DefaultDataPC)
  | comment (c : DefaultDataComment)
  | template (t : DefaultDataTemplate)
  | eot (e : EOT)
deriving DecidableEq

/-- Track: optional scalars plus the ordered event stream. -/
structure Track where
  name : Option String
  ch : Option ℚ
  mode : Option TrackMode
  current : Option ℚ
  tags : List TrackEvent
deriving DecidableEq

/-- Tagged union of the children of DefaultData. -/
inductive DefaultDataTag where
  | mark (m : Mark)
  | track (t : Track)
deriving DecidableEq

/-- DefaultData: ordered list of marks and tracks. -/
structure DefaultData where
  tags : List DefaultDataTag
deriving DecidableEq

/-- One entry of the ModuleData tags object.  As with CCMSub, the JS
object holds at most one entry per key and iterates in key insertion
order, so it is modelled as an ordered list of entries with pairwise
distinct keys. -/
inductive ModuleTag where
  | rhythmTrackDefault (v : RhythmTrackDefault)
  | exclusiveEventDefault (v : ExclusiveEventDefault)
  | programChangeEventPropertyDlg (v : ProgramChangeEventPropertyDlg)
  | controlChangeEventDefault (v : ControlChangeEventDefault)
  | instrumentList (v : InstrumentList)
  | drumSetList (v : DrumSetList)
  | controlChangeMacroList (v : ControlChangeMacroList)
  | templateList (v : TemplateList)
  | defaultData (v : DefaultData)

/-- Scalar attributes of ModuleData. -/
structure ModuleDataParam where
  name : String
  folder : Option String
  priority : Option ℚ
  fileCreator : Option String
  fileVersion : Option String
  website : Option String
deriving DecidableEq

/-- ModuleData: required name, optional metadata, and the tags object
of up to nine optional sub-trees. -/
structure ModuleData where
  param : ModuleDataParam
  tags : List ModuleTag

/-- File: the document envelope; its xmlVersion and xmlEncoding are the
fixed constants "1.0" and "Shift_JIS". -/
structure File where
  moduleData : ModuleData

/-! Validation (the check methods).  A throw of DominoError is an
Except.error carrying the exact message string; checks that cannot fail
return ok. -/

/-- Rendering of a possibly-undefined number inside a template
literal (JS prints the string "undefined" for an undefined value). -/
def showOptNum : Option ℚ → String
  | none => "undefined"
  | some q => numToStr q

/-- PC.check: program number between 1 and 128. -/
def pcCheck (name : String) (pc : ℚ) : Except String Unit :=
  if pc < 1 ∨ 128 < pc then
    .error ("PC must be between 1 and 128. Received: " ++ numToStr pc ++ "," ++ name)
  else .ok ()

def InstrumentPC.check (p : InstrumentPC) : Except String Unit := pcCheck p.name p.pc

def DrumPC.check (p : DrumPC) : Except String Unit := pcCheck p.name p.pc

/-- Bank.check: lsb and msb each between 0 and 255 when present. -/
def bankCheck (lsb msb : Option ℚ) : Except String Unit := do
  match lsb with
  | some l =>
    if l < 0 ∨ 255 < l then
      throw ("LSB must be between 0 and 255. Received: " ++ numToStr l)
    else pure ()
  | none => pure ()
  match msb with
  | some m =>
    if m < 0 ∨ 255 < m then
      throw ("MSB must be between 0 and 255. Received: " ++ numToStr m)
    else pure ()
  | none => pure ()

def Bank.check (b : Bank) : Except String Unit := bankCheck b.lsb b.msb

def DrumBank.check (b : DrumBank) : Except String Unit := bankCheck b.lsb b.msb

/-- Tone.check: key between 0 and 127. -/
def Tone.check (t : Tone) : Except String Unit :=
  if t.key < 0 ∨ 127 < t.key then
    .error ("Key must be between 0 and 127. Received: " ++ numToStr t.key)
  else .ok ()

/-- CCM.check: id between 0 and 1300, and color (when present) starting
with a hash sign. -/
def CCMParam.check (p : CCMParam) : Except String Unit := do
  if p.id < 0 ∨ 1300 < p.id then
    throw ("CCM ID must be between 0 and 1300. Received: " ++ numToStr p.id)
  match p.color with
  | some c =>
    if c.startsWith "#" then pure ()
    else throw ("CCM Color must start with #. Received: " ++ c)
  | none => pure ()

/-- One step of Value.check: does this entry value violate the declared
window?  Each bound is tested independently, exactly as in the
source. -/
def entryViolates (mn mx : Option ℚ) (v : ℚ) : Bool :=
  (match mn with | some m => decide (v < m) | none => false) ||
  (match mx with | some m => decide (m < v) | none => false)

/-- Loop body of Value.check over the entry list. -/
def valueEntriesCheck (mn mx : Option ℚ) : List Entry → Except String Unit
  | [] => .ok ()
  | e :: r =>
    if entryViolates mn mx e.value then
      .error ("Entry Value must be between " ++ showOptNum mn ++ " and " ++ showOptNum mx ++
        ". Received " ++ numToStr e.value)
    else valueEntriesCheck mn mx r

/-- Value.check: every entry value within the declared window; a Value
with no entry list checks nothing. -/
def Value.check (v : Value) : Except String Unit :=
  match v.tags with
  | none => .ok ()
  | some l => valueEntriesCheck v.min v.max l

/-- Table.check: id at least 0. -/
def Table.check (t : Table) : Except String Unit :=
  if t.id < 0 then
    .error ("Table ID must be 0 or more. Received: " ++ numToStr t.id)
  else .ok ()

/-- Template.check: id at least 0 when present. -/
def TemplateParam.check (p : TemplateParam) : Except String Unit :=
  match p.id with
  | some i =>
    if i < 0 then
      .error ("Template ID must be 0 or more. Received: " ++ numToStr i)
    else .ok ()
  | none => .ok ()

/-- Mark.check: measure at least 1. -/
def Mark.check (m : Mark) : Except String Unit :=
  if m.meas ≤ 0 then
    .error ("Mark Meas must be 1 or more. Received: " ++ numToStr m.meas)
  else .ok ()

/-- Track.check: channel between 1 and 16 when present. -/
def Track.check (t : Track) : Except String Unit :=
  match t.ch with
  | some c =>
    if c ≤ 0 ∨ 16 < c then
      .error ("Track Ch must be 1 or more and 16 or less. Received: " ++ numToStr c)
    else .ok ()
  | none => .ok ()

/-- TimeSignature.check: the text split at every slash must consist of
nonempty all-digit pieces. -/
def TimeSignature.check (t : TimeSignature) : Except String Unit :=
  if (t.timeSignature.splitOn "/").all (fun s => !s.isEmpty && s.data.all Char.isDigit) then
    .ok ()
  else
    .error ("TimeSignature TimeSignature does not follow format. Received: " ++ t.timeSignature)

/-- TemplatePC.check: program number between 1 and 128 when present
(the source tests pc <= 0 or pc >= 129). -/
def TemplatePC.check (p : TemplatePC) : Except String Unit :=
  match p.pc with
  | some q =>
    if q ≤ 0 ∨ 129 ≤ q then
      .error ("PC PC must be 1 or more less than 128. Received: " ++ numToStr q)
    else .ok ()
  | none => .ok ()

/-- DefaultDataPC.check: program number between 1 and 128 when
present. -/
def DefaultDataPC.check (p : DefaultDataPC) : Except String Unit :=
  match p.pc with
  | some q =>
    if q ≤ 0 ∨ 128 < q then
      .error ("DefaultData PC PC must be 1 or more and 128 or less. Received: " ++ numToStr q)
    else .ok ()
  | none => .ok ()

/-! Encoding (the toXMLElement methods).  Each encoder runs the
entity's check first and then builds the element; attribute emission
order follows the source's object literals, with undefined attributes
omitted (optAttr).  Checks that are empty in the source are simply not
run. -/

def Sync.toStr : Sync → String
  | .last => "Last"
  | .lastEachGate => "LastEachGate"

def PCMode.toStr : PCMode → String
  | .drumset => "Drumset"
  | .auto => "Auto"

def TrackMode.toStr : TrackMode → String
  | .conductor => "Conductor"
  | .rhythm => "Rhythm"

def ValueType.toStr : ValueType → String
  | .key => "Key"

def RhythmTrackDefault.toXMLElement (t : RhythmTrackDefault) : Except String XNode :=
  .ok (.elem "RhythmTrackDefault" (optAttr "Gate" (some (.num t.gate))) [])

def ExclusiveEventDefault.toXMLElement (t : ExclusiveEventDefault) : Except String XNode :=
  .ok (.elem "ExclusiveEventDefault" (optAttr "Data" (some (.str t.data))) [])

def ProgramChangeEventPropertyDlg.toXMLElement (t : ProgramChangeEventPropertyDlg) :
    Except String XNode :=
  .ok (.elem "ProgramChangeEventPropertyDlg"
    (optAttr "AutoPreviewDelay" (some (.num t.autoPreviewDelay))) [])

def ControlChangeEventDefault.toXMLElement (t : ControlChangeEventDefault) :
    Except String XNode :=
  .ok (.elem "ControlChangeEventDefault" (optAttr "ID" (some (.num t.id))) [])

def Tone.toXMLElement (t : Tone) : Except String XNode := do
  Tone.check t
  .ok (.elem "Tone" (optAttr "Name" (some (.str t.name)) ++ optAttr "Key" (some (.num t.key))) [])

def Bank.toXMLElement (b : Bank) : Except String XNode := do
  Bank.check b
  .ok (.elem "Bank" (optAttr "Name" (some (.str b.name)) ++ optAttr "LSB" (b.lsb.map .num) ++
    optAttr "MSB" (b.msb.map .num)) [])

def DrumBank.toXMLElement (b : DrumBank) : Except String XNode := do
  DrumBank.check b
  let tones ← b.tones.mapM Tone.toXMLElement
  .ok (.elem "Bank" (optAttr "Name" (some (.str b.name)) ++ optAttr "LSB" (b.lsb.map .num) ++
    optAttr "MSB" (b.msb.map .num)) tones)

def InstrumentPC.toXMLElement (p : InstrumentPC) : Except String XNode := do
  InstrumentPC.check p
  let banks ← p.banks.mapM Bank.toXMLElement
  .ok (.elem "PC" (optAttr "Name" (some (.str p.name)) ++ optAttr "PC" (some (.num p.pc))) banks)

def DrumPC.toXMLElement (p : DrumPC) : Except String XNode := do
  DrumPC.check p
  let banks ← p.banks.mapM DrumBank.toXMLElement
  .ok (.elem "PC" (optAttr "Name" (some (.str p.name)) ++ optAttr "PC" (some (.num p.pc))) banks)

def InstrumentMap.toXMLElement (m : InstrumentMap) : Except String XNode := do
  let pcs ← m.pcs.mapM InstrumentPC.toXMLElement
  .ok (.elem "Map" (optAttr "Name" (some (.str m.name))) pcs)

def DrumMap.toXMLElement (m : DrumMap) : Except String XNode := do
  let pcs ← m.pcs.mapM DrumPC.toXMLElement
  .ok (.elem "Map" (optAttr "Name" (some (.str m.name))) pcs)

def InstrumentList.toXMLElement (l : InstrumentList) : Except String XNode := do
  let maps ← l.maps.mapM InstrumentMap.toXMLElement
  .ok (.elem "InstrumentList" [] maps)

def DrumSetList.toXMLElement (l : DrumSetList) : Except String XNode := do
  let maps ← l.maps.mapM DrumMap.toXMLElement
  .ok (.elem "DrumSetList" [] maps)

def Entry.toXMLElement (e : Entry) : Except String XNode :=
  .ok (.elem "Entry" (optAttr "Label" (some (.str e.label)) ++
    optAttr "Value" (some (.num e.value))) [])

/-- Shared emission of Value and Gate (Value.toXMLElement in the
source); the caller supplies the element name. -/
def valueToXMLNamed (nm : String) (v : Value) : Except String XNode := do
  Value.check v
  let entries ← (match v.tags with
    | some l => l.mapM Entry.toXMLElement
    | none => pure [])
  .ok (.elem nm (optAttr "Default" (v.dflt.map .num) ++ optAttr "Min" (v.min.map .num) ++
    optAttr "Max" (v.max.map .num) ++ optAttr "Offset" (v.offset.map .num) ++
    optAttr "Name" (v.name.map .str) ++ optAttr "Type" (v.type.map (fun t => .str t.toStr)) ++
    optAttr "TableID" (v.tableId.map .num)) entries)

def Value.toXMLElement (v : Value) : Except String XNode := valueToXMLNamed "Value" v

/-- Gate extends Value and only renames the emitted element. -/
def Gate.toXMLElement (v : Value) : Except String XNode := valueToXMLNamed "Gate" v

def Data.toXMLElement (d : Data) : Except String XNode :=
  .ok (.elem "Data" [] [.text d.text])

def Table.toXMLElement (t : Table) : Except String XNode := do
  Table.check t
  let entries ← t.tags.mapM Entry.toXMLElement
  .ok (.elem "Table" (optAttr "ID" (some (.num t.id))) entries)

def CCMFolderLink.toXMLElement (l : CCMFolderLink) : Except String XNode :=
  .ok (.elem "FolderLink" (optAttr "Name" (some (.str l.name)) ++
    optAttr "ID" (some (.num l.id)) ++ optAttr "Value" (l.value.map .num) ++
    optAttr "Gate" (l.gate.map .num)) [])

def CCMLink.toXMLElement (l : CCMLink) : Except String XNode :=
  .ok (.elem "CCMLink" (optAttr "ID" (some (.num l.id)) ++ optAttr "Value" (l.value.map .num) ++
    optAttr "Gate" (l.gate.map .num)) [])

/-- Emission of one CCM tags-object entry (the Object.values loop of
CCM.toXMLElement): a memo string becomes a Memo element, the others
defer to their own encoders. -/
def CCMSub.toXMLElement : CCMSub → Except String XNode
  | .value v => Value.toXMLElement v
  | .gate v => Gate.toXMLElement v
  | .data d => Data.toXMLElement d
  | .memo s => .ok (.elem "Memo" [] [.text s])

def Memo.toXMLElement (m : Memo) : Except String XNode :=
  .ok (.elem "Memo" [] [.text m.text])

def CC.toXMLElement (c : CC) : Except String XNode :=
  .ok (.elem "CC" (optAttr "ID" (some (.num c.id)) ++ optAttr "Value" (c.value.map .num) ++
    optAttr "Gate" (c.gate.map .num)) [])

def TemplatePC.toXMLElement (p : TemplatePC) : Except String XNode := do
  TemplatePC.check p
  .ok (.elem "PC" (optAttr "PC" (p.pc.map .num) ++ optAttr "MSB" (p.msb.map .num) ++
    optAttr "LSB" (p.lsb.map .num) ++ optAttr "Mode" (p.mode.map (fun m => .str m.toStr))) [])

def Comment.toXMLElement (c : Comment) : Except String XNode :=
  .ok (.elem "Comment" (optAttr "Text" (c.text.map .str)) [])

def TmplChild.toXMLElement : TmplChild → Except String XNode
  | .memo m => Memo.toXMLElement m
  | .cc c => CC.toXMLElement c
  | .pc p => TemplatePC.toXMLElement p
  | .comment c => Comment.toXMLElement c

def Template.toXMLElementCore (p : TemplateParam) (tags : List TmplChild) :
    Except String XNode := do
  TemplateParam.check p
  let children ← tags.mapM TmplChild.toXMLElement
  .ok (.elem "Template" (optAttr "ID" (p.id.map .num) ++
    optAttr "Name" (some (.str p.name))) children)

def Mark.toXMLElement (m : Mark) : Except String XNode := do
  Mark.check m
  .ok (.elem "Mark" (optAttr "Meas" (some (.num m.meas)) ++
    optAttr "Name" (m.name.map .str)) [])

def DefaultDataTrackMark.toXMLElement (m : DefaultDataTrackMark) : Except String XNode :=
  .ok (.elem "Mark" (optAttr "Name" (m.name.map .str) ++ optAttr "Tick" (m.tick.map .num) ++
    optAttr "Step" (m.step.map .num)) [])

/-- Tempo.toXMLElement renders the tempo through toFixed(3), so the
Tempo attribute is emitted as a string. -/
def Tempo.toXMLElement (t : Tempo) : Except String XNode :=
  .ok (.elem "Tempo" (optAttr "Tempo" (some (.str (toFixed3Str t.tempo))) ++
    optAttr "Tick" (t.tick.map .num) ++ optAttr "Step" (t.step.map .num)) [])

def TimeSignature.toXMLElement (t : TimeSignature) : Except String XNode := do
  TimeSignature.check t
  .ok (.elem "TimeSignature" (optAttr "TimeSignature" (some (.str t.timeSignature)) ++
    optAttr "Tick" (t.tick.map .num) ++ optAttr "Step" (t.step.map .num)) [])

def KeySignature.toXMLElement (k : KeySignature) : Except String XNode :=
  .ok (.elem "KeySignature" (optAttr "KeySignature" (some (.str k.keySignature)) ++
    optAttr "Tick" (k.tick.map .num) ++ optAttr "Step" (k.step.map .num)) [])

def DefaultDataCC.toXMLElement (c : DefaultDataCC) : Except String XNode :=
  .ok (.elem "CC" (optAttr "ID" (some (.num c.id)) ++ optAttr "Value" (c.value.map .num) ++
    optAttr "Gate" (c.gate.map .num) ++ optAttr "Tick" (c.tick.map .num) ++
    optAttr "Step" (c.step.map .num)) [])

def DefaultDataPC.toXMLElement (p : DefaultDataPC) : Except String XNode := do
  DefaultDataPC.check p
  .ok (.elem "PC" (optAttr "PC" (p.pc.map .num) ++ optAttr "MSB" (p.msb.map .num) ++
    optAttr "LSB" (p.lsb.map .num) ++ optAttr "Mode" (p.mode.map (fun m => .str m.toStr)) ++
    optAttr "Tick" (p.tick.map .num) ++ optAttr "Step" (p.step.map .num)) [])

def DefaultDataComment.toXMLElement (c : DefaultDataComment) : Except String XNode :=
  .ok (.elem "Comment" (optAttr "Text" (c.text.map .str) ++ optAttr "Tick" (c.tick.map .num) ++
    optAttr "Step" (c.step.map .num)) [])

def DefaultDataTemplate.toXMLElement (t : DefaultDataTemplate) : Except String XNode :=
  .ok (.elem "Template" (optAttr "ID" (t.id.map .num) ++ optAttr "Tick" (t.tick.map .num) ++
    optAttr "Step" (t.step.map .num)) [])

def EOT.toXMLElement (e : EOT) : Except String XNode :=
  .ok (.elem "EOT" (optAttr "Tick" (e.tick.map .num)) [])

def TrackEvent.toXMLElement : TrackEvent → Except String XNode
  | .mark m => DefaultDataTrackMark.toXMLElement m
  | .tempo t => Tempo.toXMLElement t
  | .timeSignature t => TimeSignature.toXMLElement t
  | .keySignature k => KeySignature.toXMLElement k
  | .cc c => DefaultDataCC.toXMLElement c
  | .pc p => DefaultDataPC.toXMLElement p
  | .comment c => DefaultDataComment.toXMLElement c
  | .template t => DefaultDataTemplate.toXMLElement t
  | .eot e => EOT.toXMLElement e

def Track.toXMLElement (t : Track) : Except String XNode := do
  Track.check t
  let events ← t.tags.mapM TrackEvent.toXMLElement
  .ok (.elem "Track" (optAttr "Name" (t.name.map .str) ++ optAttr "Ch" (t.ch.map .num) ++
    optAttr "Mode" (t.mode.map (fun m => .str m.toStr)) ++
    optAttr "Current" (t.current.map .num)) events)

def DefaultDataTag.toXMLElement : DefaultDataTag → Except String XNode
  | .mark m => Mark.toXMLElement m
  | .track t => Track.toXMLElement t

def DefaultData.toXMLElement (d : DefaultData) : Except String XNode := do
  let children ← d.tags.mapM DefaultDataTag.toXMLElement
  .ok (.elem "DefaultData" [] children)

mutual

/-- Emission of one macro-tree node.  A folder maps its children,
turning bare-string memos into Memo elements exactly as
CCMFolder.toXMLElement does; CCM runs its check and then emits its
tags-object entries in insertion order. -/
def CCMTag.toXMLElement : CCMTag → Except String XNode
  | .folder p tags => do
    let children ← ccmTagsToXML tags
    .ok (.elem "Folder" (optAttr "Name" (some (.str p.name)) ++
      optAttr "ID" (p.id.map .num)) children)
  | .folderLink l => CCMFolderLink.toXMLElement l
  | .ccm p tags => do
    CCMParam.check p
    let children ← ccmSubsToXML tags
    .ok (.elem "CCM" (optAttr "ID" (some (.num p.id)) ++ optAttr "Name" (some (.str p.name)) ++
      optAttr "Color" (p.color.map .str) ++
      optAttr "Sync" (p.sync.map (fun s => .str s.toStr))) children)
  | .ccmLink l => CCMLink.toXMLElement l
  | .table t => Table.toXMLElement t
  | .memo s => .ok (.elem "Memo" [] [.text s])

def ccmTagsToXML : List CCMTag → Except String (List XNode)
  | [] => .ok []
  | t :: ts => do
    let x ← CCMTag.toXMLElement t
    let r ← ccmTagsToXML ts
    .ok (x :: r)

def ccmSubsToXML : List CCMSub → Except String (List XNode)
  | [] => .ok []
  | t :: ts => do
    let x ← CCMSub.toXMLElement t
    let r ← ccmSubsToXML ts
    .ok (x :: r)

end

def ControlChangeMacroList.toXMLElement (l : ControlChangeMacroList) : Except String XNode := do
  let children ← ccmTagsToXML l.tags
  .ok (.elem "ControlChangeMacroList" [] children)

mutual

/-- Emission of one template-tree node. -/
def TemplateTag.toXMLElement : TemplateTag → Except String XNode
  | .folder name tags => do
    let children ← templateTagsToXML tags
    .ok (.elem "Folder" (optAttr "Name" (some (.str name))) children)
  | .template p tags => Template.toXMLElementCore p tags

def templateTagsToXML : List TemplateTag → Except String (List XNode)
  | [] => .ok []
  | t :: ts => do
    let x ← TemplateTag.toXMLElement t
    let r ← templateTagsToXML ts
    .ok (x :: r)

end

def TemplateList.toXMLElement (l : TemplateList) : Except String XNode := do
  let children ← templateTagsToXML l.tags
  .ok (.elem "TemplateList" [] children)

/-- Emission of one ModuleData tags-object entry (the Object.values
loop of ModuleData.toXMLElement). -/
def ModuleTag.toXMLElement : ModuleTag → Except String XNode
  | .rhythmTrackDefault v => RhythmTrackDefault.toXMLElement v
  | .exclusiveEventDefault v => ExclusiveEventDefault.toXMLElement v
  | .programChangeEventPropertyDlg v => ProgramChangeEventPropertyDlg.toXMLElement v
  | .controlChangeEventDefault v => ControlChangeEventDefault.toXMLElement v
  | .instrumentList v => InstrumentList.toXMLElement v
  | .drumSetList v => DrumSetList.toXMLElement v
  | .controlChangeMacroList v => ControlChangeMacroList.toXMLElement v
  | .templateList v => TemplateList.toXMLElement v
  | .defaultData v => DefaultData.toXMLElement v

/-- ModuleData.toXMLElement: attributes in the fixed literal order,
children in tags-object insertion order.  The consistency pass
(ModuleData.check in the source) only logs and never affects the
returned element; it is modelled separately as ModuleData.checkLogs. -/
def ModuleData.toXMLElement (m : ModuleData) : Except String XNode := do
  let children ← m.tags.mapM ModuleTag.toXMLElement
  .ok (.elem "ModuleData" (optAttr "Name" (some (.str m.param.name)) ++
    optAttr "Folder" (m.param.folder.map .str) ++
    optAttr "Priority" (m.param.priority.map .num) ++
    optAttr "FileCreator" (m.param.fileCreator.map .str) ++
    optAttr "FileVersion" (m.param.fileVersion.map .str) ++
    optAttr "WebSite" (m.param.website.map .str)) children)

/-- File.toXML up to the external serializer: the document object that
is handed to js2xml, with the fixed declaration. -/
def File.toXML (f : File) : Except String XmlJs := do
  let el ← f.moduleData.toXMLElement
  .ok { declaration := some [("version", .str "1.0"), ("encoding", .str "Shift_JIS")]
        elements := [el] }

/-! Decoding (the fromXMLElement methods).  Each source idiom for
reading an attribute becomes one helper:

* getStringy: x === undefined throws, then String(x) converts;
* optStringy: x !== undefined yields String(x), no error possible;
* getNum: typeof x !== "number" throws (covers undefined);
* optNum: x defined but not a number throws, undefined is fine;
* getStr: x undefined or not a string throws;
* optStr: x defined but not a string throws;
* optEnum: x defined but not one of the allowed literals throws.

Decoders take an XNode; the text case is unreachable in the source
because the TS signature only admits ElementElement, and is mapped to a
generic error. -/

def getStringy (v : Option AttrValue) (msg : String) : Except String String :=
  match v with
  | none => .error msg
  | some a => .ok (attrToString a)

def optStringy (v : Option AttrValue) : Option String := v.map attrToString

def getNum (v : Option AttrValue) (msg : String) : Except String ℚ :=
  match v with
  | some (.num q) => .ok q
  | _ => .error msg

def optNum (v : Option AttrValue) (msg : String) : Except String (Option ℚ) :=
  match v with
  | none => .ok none
  | some (.num q) => .ok (some q)
  | some (.str _) => .error msg

def getStr (v : Option AttrValue) (msg : String) : Except String String :=
  match v with
  | some (.str s) => .ok s
  | _ => .error msg

def optStr (v : Option AttrValue) (msg : String) : Except String (Option String) :=
  match v with
  | none => .ok none
  | some (.str s) => .ok (some s)
  | some (.num _) => .error msg

def optEnum {α : Type} (parse : String → Option α) (v : Option AttrValue) (msg : String) :
    Except String (Option α) :=
  match v with
  | none => .ok none
  | some (.str s) =>
    match parse s with
    | some x => .ok (some x)
    | none => .error msg
  | some (.num _) => .error msg

def Sync.ofStr : String → Option Sync
  | "Last" => some .last
  | "LastEachGate" => some .lastEachGate
  | _ => none

def PCMode.ofStr : String → Option PCMode
  | "Drumset" => some .drumset
  | "Auto" => some .auto
  | _ => none

def TrackMode.ofStr : String → Option TrackMode
  | "Conductor" => some .conductor
  | "Rhythm" => some .rhythm
  | _ => none

def ValueType.ofStr : String → Option ValueType
  | "Key" => some .key
  | _ => none

/-- Text of the first child if it is a text node, else the empty string
(the textElement?.type === "text" idiom). -/
def firstText : List XNode → String
  | .text s :: _ => s
  | _ => ""

/-- Filter predicate for children of a given element name (the
e.type === "element" and e.name === nm filters). -/
def isElemNamed (nm : String) : XNode → Bool
  | .elem n _ _ => n = nm
  | .text _ => false

def RhythmTrackDefault.fromXMLElement : XNode → Except String RhythmTrackDefault
  | .text _ => .error "Invalid XML: Not an element"
  | .elem _ attrs _ => do
    let gate ← getNum (alookup "Gate" attrs) "Invalid XML: Not found RhythmTrackDefault Gate"
    .ok ⟨gate⟩

def ExclusiveEventDefault.fromXMLElement : XNode → Except String ExclusiveEventDefault
  | .text _ => .error "Invalid XML: Not an element"
  | .elem _ attrs _ => do
    let data ← getStr (alookup "Data" attrs) "Invalid XML: Not found ExclusiveEventDefault Data"
    .ok ⟨data⟩

def ProgramChangeEventPropertyDlg.fromXMLElement :
    XNode → Except String ProgramChangeEventPropertyDlg
  | .text _ => .error "Invalid XML: Not an element"
  | .elem _ attrs _ => do
    let d ← getNum (alookup "AutoPreviewDelay" attrs)
      "Invalid XML: Not found ProgramChangeEventPropertyDlg AutoPreviewDelay"
    .ok ⟨d⟩

def ControlChangeEventDefault.fromXMLElement : XNode → Except String ControlChangeEventDefault
  | .text _ => .error "Invalid XML: Not an element"
  | .elem _ attrs _ => do
    let i ← getNum (alookup "ID" attrs) "Invalid XML: Not found ControlChangeEventDefault ID"
    .ok ⟨i⟩

def Tone.fromXMLElement : XNode → Except String Tone
  | .text _ => .error "Invalid XML: Not an element"
  | .elem _ attrs _ => do
    let name ← getStringy (alookup "Name" attrs) "Invalid XML: Not found Tone Name"
    let key ← getNum (alookup "Key" attrs) "Invalid XML: Not found Tone Key"
    .ok ⟨name, key⟩

/-- Bank.fromXMLElementBase: shared attribute reading of Bank and
DrumBank. -/
def bankFromAttrs (attrs : List (String × AttrValue)) :
    Except String (String × Option ℚ × Option ℚ) := do
  let name ← getStringy (alookup "Name" attrs) "Invalid XML: Not found Name"
  let lsb ← optNum (alookup "LSB" attrs) "Invalid XML: Not found Bank LSB"
  let msb ← optNum (alookup "MSB" attrs) "Invalid XML: Not found Bank MSB"
  .ok (name, lsb, msb)

def Bank.fromXMLElement : XNode → Except String Bank
  | .text _ => .error "Invalid XML: Not an element"
  | .elem _ attrs _ => do
    let (name, lsb, msb) ← bankFromAttrs attrs
    .ok ⟨name, lsb, msb⟩

def DrumBank.fromXMLElement : XNode → Except String DrumBank
  | .text _ => .error "Invalid XML: Not an element"
  | .elem _ attrs children => do
    let (name, lsb, msb) ← bankFromAttrs attrs
    let tones ← (children.filter (isElemNamed "Tone")).mapM Tone.fromXMLElement
    .ok ⟨name, lsb, msb, tones⟩

/-- PC.fromXMLElementBase: shared attribute reading and bank-children
extraction, including the empty-bank-list error. -/
def pcFromBase (attrs : List (String × AttrValue)) (children : List XNode) :
    Except String (String × ℚ × List XNode) := do
  let name ← getStringy (alookup "Name" attrs) "Invalid XML: Not Found PC Name"
  let pc ← getNum (alookup "PC" attrs) "Invalid XML: Not found PC"
  let bankElements := children.filter (isElemNamed "Bank")
  if bankElements.isEmpty then
    throw "Invalid XML: Not found Bank"
  else
    .ok (name, pc, bankElements)

def InstrumentPC.fromXMLElement : XNode → Except String InstrumentPC
  | .text _ => .error "Invalid XML: Not an element"
  | .elem _ attrs children => do
    let (name, pc, bankElements) ← pcFromBase attrs children
    let banks ← bankElements.mapM Bank.fromXMLElement
    .ok ⟨name, pc, banks⟩

def DrumPC.fromXMLElement : XNode → Except String DrumPC
  | .text _ => .error "Invalid XML: Not an element"
  | .elem _ attrs children => do
    let (name, pc, bankElements) ← pcFromBase attrs children
    let banks ← bankElements.mapM DrumBank.fromXMLElement
    .ok ⟨name, pc, banks⟩

/-- Map.fromXMLElementBase: name plus the PC-named children. -/
def mapFromBase (attrs : List (String × AttrValue)) (children : List XNode) :
    Except String (String × List XNode) := do
  let name ← getStringy (alookup "Name" attrs) "Invalid XML: Not Found Map Name"
  .ok (name, children.filter (isElemNamed "PC"))

def InstrumentMap.fromXMLElement : XNode → Except String InstrumentMap
  | .text _ => .error "Invalid XML: Not an element"
  | .elem _ attrs children => do
    let (name, pcElements) ← mapFromBase attrs children
    let pcs ← pcElements.mapM InstrumentPC.fromXMLElement
    .ok ⟨name, pcs⟩

def DrumMap.fromXMLElement : XNode → Except String DrumMap
  | .text _ => .error "Invalid XML: Not an element"
  | .elem _ attrs children => do
    let (name, pcElements) ← mapFromBase attrs children
    let pcs ← pcElements.mapM DrumPC.fromXMLElement
    .ok ⟨name, pcs⟩

def InstrumentList.fromXMLElement : XNode → Except String InstrumentList
  | .text _ => .error "Invalid XML: Not an element"
  | .elem _ _ children => do
    let maps ← (children.filter (isElemNamed "Map")).mapM InstrumentMap.fromXMLElement
    .ok ⟨maps⟩

def DrumSetList.fromXMLElement : XNode → Except String DrumSetList
  | .text _ => .error "Invalid XML: Not an element"
  | .elem _ _ children => do
    let maps ← (children.filter (isElemNamed "Map")).mapM DrumMap.fromXMLElement
    .ok ⟨maps⟩

def Entry.fromXMLElement : XNode → Except String Entry
  | .text _ => .error "Invalid XML: Not an element"
  | .elem _ attrs _ => do
    let label ← getStringy (alookup "Label" attrs) "Invalid XML: Not found Entry Label"
    let value ← getNum (alookup "Value" attrs) "Invalid XML: Not found Entry Value"
    .ok ⟨label, value⟩

/-- Value.fromXMLElement (also used, via inheritance, as
Gate.fromXMLElement): seven optional attributes, then every element
child — regardless of its name — decoded as an Entry. -/
def Value.fromXMLElement : XNode → Except String Value
  | .text _ => .error "Invalid XML: Not an element"
  | .elem _ attrs children => do
    let dflt ← optNum (alookup "Default" attrs) "Invalid XML: Not found Value Default"
    let mn ← optNum (alookup "Min" attrs) "Invalid XML: Not found Value Min"
    let mx ← optNum (alookup "Max" attrs) "Invalid XML: Not found Value Max"
    let offset ← optNum (alookup "Offset" attrs) "Invalid XML: Not found Value Offset"
    let name := optStringy (alookup "Name" attrs)
    let type ← optEnum ValueType.ofStr (alookup "Type" attrs) "Invalid XML: Not found Value Type"
    let tableId ← optNum (alookup "TableID" attrs) "Invalid XML: Not found Value TableID"
    let entries ← (children.filter (fun e => match e with
      | .elem _ _ _ => true
      | .text _ => false)).mapM Entry.fromXMLElement
    .ok ⟨dflt, mn, mx, offset, name, type, tableId, some entries⟩

/-- Table.fromXMLElement: required numeric ID, then every element child
decoded as an Entry. -/
def Table.fromXMLElement : XNode → Except String Table
  | .text _ => .error "Invalid XML: Not an element"
  | .elem _ attrs children => do
    let i ← getNum (alookup "ID" attrs) "Invalid XML: Not found Table ID"
    let entries ← (children.filter (fun e => match e with
      | .elem _ _ _ => true
      | .text _ => false)).mapM Entry.fromXMLElement
    .ok ⟨i, entries⟩

def CCMFolderLink.fromXMLElement : XNode → Except String CCMFolderLink
  | .text _ => .error "Invalid XML: Not an element"
  | .elem _ attrs _ => do
    let name ← getStringy (alookup "Name" attrs) "Invalid XML: Not found FolderLink Name"
    let i ← getNum (alookup "ID" attrs) "Invalid XML: Not found FolderLink ID"
    let value ← optNum (alookup "Value" attrs) "Invalid XML: Not found FolderLink Value"
    let gate ← optNum (alookup "Gate" attrs) "Invalid XML: Not found FolderLink Gate"
    .ok ⟨name, i, value, gate⟩

def CCMLink.fromXMLElement : XNode → Except String CCMLink
  | .text _ => .error "Invalid XML: Not an element"
  | .elem _ attrs _ => do
    let i ← getNum (alookup "ID" attrs) "Invalid XML: Not found CCMLink ID"
    let value ← optNum (alookup "Value" attrs) "Invalid XML: Not found CCMLink Value"
    let gate ← optNum (alookup "Gate" attrs) "Invalid XML: Not found CCMLink Gate"
    .ok ⟨i, value, gate⟩

/-- Key of a CCM tags-object entry. -/
def CCMSub.key : CCMSub → Nat
  | .value _ => 0
  | .gate _ => 1
  | .data _ => 2
  | .memo _ => 3

/-- JS object assignment tags.k = v: replace the entry at the existing
position of key k, or append a new entry. -/
def upsertSub : List CCMSub → CCMSub → List CCMSub
  | [], t => [t]
  | h :: r, t => if h.key = t.key then t :: r else h :: upsertSub r t

/-- Loop of CCM.fromXMLElement over the children, building the tags
object. -/
def ccmSubsFrom : List XNode → List CCMSub → Except String (List CCMSub)
  | [], acc => .ok acc
  | .text _ :: xs, acc => ccmSubsFrom xs acc
  | .elem n a c :: xs, acc =>
    match n with
    | "Value" => do
      let v ← Value.fromXMLElement (.elem n a c)
      ccmSubsFrom xs (upsertSub acc (.value v))
    | "Gate" => do
      let v ← Value.fromXMLElement (.elem n a c)
      ccmSubsFrom xs (upsertSub acc (.gate v))
    | "Data" => ccmSubsFrom xs (upsertSub acc (.data ⟨firstText c⟩))
    | "Memo" => ccmSubsFrom xs (upsertSub acc (.memo (firstText c)))
    | _ => ccmSubsFrom xs acc

def CCM.fromXMLElement : XNode → Except String CCMTag
  | .text _ => .error "Invalid XML: Not an element"
  | .elem _ attrs children => do
    let i ← getNum (alookup "ID" attrs) "Invalid XML: Not found CCM ID"
    let name ← getStringy (alookup "Name" attrs) "Invalid XML: Not found CCM Name"
    let color ← optStr (alookup "Color" attrs) "Invalid XML: Not found CCM Color"
    let sync ← optEnum Sync.ofStr (alookup "Sync" attrs) "Invalid XML: Not found CCM Sync"
    let tags ← ccmSubsFrom children []
    .ok (.ccm ⟨i, name, color, sync⟩ tags)

mutual

/-- CCMFolder.fromXMLElement: name, optional id, then the recursive
children loop. -/
def CCMFolder.fromXMLElement : XNode → Except String CCMTag
  | .text _ => .error "Invalid XML: Not an element"
  | .elem _ attrs children => do
    let name ← getStringy (alookup "Name" attrs) "Invalid XML: Not found Folder Name"
    let i ← optNum (alookup "ID" attrs) "Invalid XML: Not found Folder ID"
    let tags ← ccmFolderTags children
    .ok (.folder ⟨name, i⟩ tags)

/-- Loop of CCMFolder.fromXMLElement over its children: dispatch by
element name, skip unknown names and text nodes. -/
def ccmFolderTags : List XNode → Except String (List CCMTag)
  | [] => .ok []
  | .text _ :: xs => ccmFolderTags xs
  | .elem n a c :: xs =>
    match n with
    | "Folder" => do
      let t ← CCMFolder.fromXMLElement (.elem n a c)
      let r ← ccmFolderTags xs
      .ok (t :: r)
    | "FolderLink" => do
      let l ← CCMFolderLink.fromXMLElement (.elem n a c)
      let r ← ccmFolderTags xs
      .ok (.folderLink l :: r)
    | "CCM" => do
      let t ← CCM.fromXMLElement (.elem n a c)
      let r ← ccmFolderTags xs
      .ok (t :: r)
    | "CCMLink" => do
      let l ← CCMLink.fromXMLElement (.elem n a c)
      let r ← ccmFolderTags xs
      .ok (.ccmLink l :: r)
    | "Table" => do
      let t ← Table.fromXMLElement (.elem n a c)
      let r ← ccmFolderTags xs
      .ok (.table t :: r)
    | "Memo" => do
      let r ← ccmFolderTags xs
      .ok (.memo (firstText c) :: r)
    | _ => ccmFolderTags xs

end

/-- ControlChangeMacroList.fromXMLElement: same dispatch as the folder
loop but with no Memo case (unknown names, including Memo, are
skipped). -/
def ccmListTags : List XNode → Except String (List CCMTag)
  | [] => .ok []
  | .text _ :: xs => ccmListTags xs
  | .elem n a c :: xs =>
    match n with
    | "Folder" => do
      let t ← CCMFolder.fromXMLElement (.elem n a c)
      let r ← ccmListTags xs
      .ok (t :: r)
    | "FolderLink" => do
      let l ← CCMFolderLink.fromXMLElement (.elem n a c)
      let r ← ccmListTags xs
      .ok (.folderLink l :: r)
    | "CCM" => do
      let t ← CCM.fromXMLElement (.elem n a c)
      let r ← ccmListTags xs
      .ok (t :: r)
    | "CCMLink" => do
      let l ← CCMLink.fromXMLElement (.elem n a c)
      let r ← ccmListTags xs
      .ok (.ccmLink l :: r)
    | "Table" => do
      let t ← Table.fromXMLElement (.elem n a c)
      let r ← ccmListTags xs
      .ok (.table t :: r)
    | _ => ccmListTags xs

def ControlChangeMacroList.fromXMLElement : XNode → Except String ControlChangeMacroList
  | .text _ => .error "Invalid XML: Not an element"
  | .elem _ _ children => do
    let tags ← ccmListTags children
    .ok ⟨tags⟩

def Memo.fromXMLElement : XNode → Except String Memo
  | .text _ => .error "Invalid XML: Not an element"
  | .elem _ _ children => .ok ⟨firstText children⟩

def CC.fromXMLElement : XNode → Except String CC
  | .text _ => .error "Invalid XML: Not an element"
  | .elem _ attrs _ => do
    let i ← getNum (alookup "ID" attrs) "Invalid XML: Not found CC ID"
    let value ← optNum (alookup "Value" attrs) "Invalid XML: Not found CC Value"
    let gate ← optNum (alookup "Gate" attrs) "Invalid XML: Not found CC Gate"
    .ok ⟨i, value, gate⟩

def TemplatePC.fromXMLElement : XNode → Except String TemplatePC
  | .text _ => .error "Invalid XML: Not an element"
  | .elem _ attrs _ => do
    let pc ← optNum (alookup "PC" attrs) "Invalid XML: Not found PC PC"
    let msb ← optNum (alookup "MSB" attrs) "Invalid XML: Not found PC MSB"
    let lsb ← optNum (alookup "LSB" attrs) "Invalid XML: Not found PC LSB"
    let mode ← optEnum PCMode.ofStr (alookup "Mode" attrs)
      "Invalid XML: PC Mode is not Drumset or Auto"
    .ok ⟨pc, msb, lsb, mode⟩

def Comment.fromXMLElement : XNode → Except String Comment
  | .text _ => .error "Invalid XML: Not an element"
  | .elem _ attrs _ => .ok ⟨optStringy (alookup "Text" attrs)⟩

/-- Loop of Template.fromXMLElement over the children. -/
def templateChildren : List XNode → Except String (List TmplChild)
  | [] => .ok []
  | .text _ :: xs => templateChildren xs
  | .elem n a c :: xs =>
    match n with
    | "CC" => do
      let v ← CC.fromXMLElement (.elem n a c)
      let r ← templateChildren xs
      .ok (.cc v :: r)
    | "Memo" => do
      let v ← Memo.fromXMLElement (.elem n a c)
      let r ← templateChildren xs
      .ok (.memo v :: r)
    | "PC" => do
      let v ← TemplatePC.fromXMLElement (.elem n a c)
      let r ← templateChildren xs
      .ok (.pc v :: r)
    | "Comment" => do
      let v ← Comment.fromXMLElement (.elem n a c)
      let r ← templateChildren xs
      .ok (.comment v :: r)
    | _ => templateChildren xs

def Template.fromXMLElement : XNode → Except String TemplateTag
  | .text _ => .error "Invalid XML: Not an element"
  | .elem _ attrs children => do
    let name ← getStringy (alookup "Name" attrs) "Invalid XML: Not found Template Name"
    let i ← optNum (alookup "ID" attrs) "Invalid XML: Not found Template ID"
    let tags ← templateChildren children
    .ok (.template ⟨i, name⟩ tags)

mutual

def TemplateFolder.fromXMLElement : XNode → Except String TemplateTag
  | .text _ => .error "Invalid XML: Not an element"
  | .elem _ attrs children => do
    let name ← getStringy (alookup "Name" attrs) "Invalid XML: Not found Folder Name"
    let tags ← templateFolderTags children
    .ok (.folder name tags)

def templateFolderTags : List XNode → Except String (List TemplateTag)
  | [] => .ok []
  | .text _ :: xs => templateFolderTags xs
  | .elem n a c :: xs =>
    match n with
    | "Template" => do
      let t ← Template.fromXMLElement (.elem n a c)
      let r ← templateFolderTags xs
      .ok (t :: r)
    | "Folder" => do
      let t ← TemplateFolder.fromXMLElement (.elem n a c)
      let r ← templateFolderTags xs
      .ok (t :: r)
    | _ => templateFolderTags xs

end

/-- Loop of TemplateList.fromXMLElement over the children. -/
def templateListTags : List XNode → Except String (List TemplateTag)
  | [] => .ok []
  | .text _ :: xs => templateListTags xs
  | .elem n a c :: xs =>
    match n with
    | "Folder" => do
      let t ← TemplateFolder.fromXMLElement (.elem n a c)
      let r ← templateListTags xs
      .ok (t :: r)
    | "Template" => do
      let t ← Template.fromXMLElement (.elem n a c)
      let r ← templateListTags xs
      .ok (t :: r)
    | _ => templateListTags xs

def TemplateList.fromXMLElement : XNode → Except String TemplateList
  | .text _ => .error "Invalid XML: Not an element"
  | .elem _ _ children => do
    let tags ← templateListTags children
    .ok ⟨tags⟩

def Mark.fromXMLElement : XNode → Except String Mark
  | .text _ => .error "Invalid XML: Not an element"
  | .elem _ attrs _ => do
    let meas ← getNum (alookup "Meas" attrs) "Invalid XML: Not found Mark Meas"
    .ok ⟨meas, optStringy (alookup "Name" attrs)⟩

/-- DefaultDataTrackMark.fromXMLElement; the source reuses the
TimeSignature wording in this class's tick and step error messages. -/
def DefaultDataTrackMark.fromXMLElement : XNode → Except String DefaultDataTrackMark
  | .text _ => .error "Invalid XML: Not an element"
  | .elem _ attrs _ => do
    let tick ← optNum (alookup "Tick" attrs) "Invalid XML: Not found TimeSignature Tick"
    let step ← optNum (alookup "Step" attrs) "Invalid XML: Not found TimeSignature Step"
    .ok ⟨optStringy (alookup "Name" attrs), tick, step⟩

def Tempo.fromXMLElement : XNode → Except String Tempo
  | .text _ => .error "Invalid XML: Not an element"
  | .elem _ attrs _ => do
    let tempo ← getNum (alookup "Tempo" attrs) "Invalid XML: Not found Tempo Tempo"
    let tick ← optNum (alookup "Tick" attrs) "Invalid XML: Not found Tempo Tick"
    let step ← optNum (alookup "Step" attrs) "Invalid XML: Not found Tempo Step"
    .ok ⟨tempo, tick, step⟩

def TimeSignature.fromXMLElement : XNode → Except String TimeSignature
  | .text _ => .error "Invalid XML: Not an element"
  | .elem _ attrs _ => do
    let ts ← getStr (alookup "TimeSignature" attrs)
      "Invalid XML: Not found TimeSignature TimeSignature"
    let tick ← optNum (alookup "Tick" attrs) "Invalid XML: Not found TimeSignature Tick"
    let step ← optNum (alookup "Step" attrs) "Invalid XML: Not found TimeSignature Step"
    .ok ⟨ts, tick, step⟩

def KeySignature.fromXMLElement : XNode → Except String KeySignature
  | .text _ => .error "Invalid XML: Not an element"
  | .elem _ attrs _ => do
    let ks ← getStr (alookup "KeySignature" attrs)
      "Invalid XML: Not found KeySignature KeySignature"
    let tick ← optNum (alookup "Tick" attrs) "Invalid XML: Not found KeySignature Tick"
    let step ← optNum (alookup "Step" attrs) "Invalid XML: Not found KeySignature Step"
    .ok ⟨ks, tick, step⟩

/-- DefaultDataCC.fromXMLElement; the source's message for a bad ID
reads CC Name. -/
def DefaultDataCC.fromXMLElement : XNode → Except String DefaultDataCC
  | .text _ => .error "Invalid XML: Not an element"
  | .elem _ attrs _ => do
    let i ← getNum (alookup "ID" attrs) "Invalid XML: Not found DefaultData CC Name"
    let value ← optNum (alookup "Value" attrs) "Invalid XML: Not found DefaultData CC Value"
    let gate ← optNum (alookup "Gate" attrs) "Invalid XML: Not found DefaultData CC Gate"
    let tick ← optNum (alookup "Tick" attrs) "Invalid XML: Not found DefaultData CC Tick"
    let step ← optNum (alookup "Step" attrs) "Invalid XML: Not found DefaultData CC Step"
    .ok ⟨i, value, gate, tick, step⟩

def DefaultDataPC.fromXMLElement : XNode → Except String DefaultDataPC
  | .text _ => .error "Invalid XML: Not an element"
  | .elem _ attrs _ => do
    let pc ← optNum (alookup "PC" attrs) "Invalid XML: Not found DefaultData PC PC"
    let msb ← optNum (alookup "MSB" attrs) "Invalid XML: Not found DefaultData PC MSB"
    let lsb ← optNum (alookup "LSB" attrs) "Invalid XML: Not found DefaultData PC LSB"
    let mode ← optEnum PCMode.ofStr (alookup "Mode" attrs)
      "Invalid XML: Not found DefaultData PC Mode"
    let tick ← optNum (alookup "Tick" attrs) "Invalid XML: Not found DefaultData PC Tick"
    let step ← optNum (alookup "Step" attrs) "Invalid XML: Not found DefaultData PC Step"
    .ok ⟨pc, msb, lsb, mode, tick, step⟩

def DefaultDataComment.fromXMLElement : XNode → Except String DefaultDataComment
  | .text _ => .error "Invalid XML: Not an element"
  | .elem _ attrs _ => do
    let tick ← optNum (alookup "Tick" attrs) "Invalid XML: Not found DefaultData Comment Tick"
    let step ← optNum (alookup "Step" attrs) "Invalid XML: Not found DefaultData Comment Step"
    .ok ⟨optStringy (alookup "Text" attrs), tick, step⟩

def DefaultDataTemplate.fromXMLElement : XNode → Except String DefaultDataTemplate
  | .text _ => .error "Invalid XML: Not an element"
  | .elem _ attrs _ => do
    let i ← optNum (alookup "ID" attrs) "Invalid XML: Not found DefaultData Template ID"
    let tick ← optNum (alookup "Tick" attrs) "Invalid XML: Not found DefaultData Template Tick"
    let step ← optNum (alookup "Step" attrs) "Invalid XML: Not found DefaultData Template Step"
    .ok ⟨i, tick, step⟩

/-- EOT.fromXMLElement; the source reuses the DefaultData Template
wording in this class's tick error message. -/
def EOT.fromXMLElement : XNode → Except String EOT
  | .text _ => .error "Invalid XML: Not an element"
  | .elem _ attrs _ => do
    let tick ← optNum (alookup "Tick" attrs) "Invalid XML: Not found DefaultData Template Tick"
    .ok ⟨tick⟩

/-- Loop of Track.fromXMLElement over the children: the nine-way event
dispatch, unknown names skipped. -/
def trackEvents : List XNode → Except String (List TrackEvent)
  | [] => .ok []
  | .text _ :: xs => trackEvents xs
  | .elem n a c :: xs =>
    match n with
    | "Mark" => do
      let v ← DefaultDataTrackMark.fromXMLElement (.elem n a c)
      let r ← trackEvents xs
      .ok (.mark v :: r)
    | "Tempo" => do
      let v ← Tempo.fromXMLElement (.elem n a c)
      let r ← trackEvents xs
      .ok (.tempo v :: r)
    | "TimeSignature" => do
      let v ← TimeSignature.fromXMLElement (.elem n a c)
      let r ← trackEvents xs
      .ok (.timeSignature v :: r)
    | "KeySignature" => do
      let v ← KeySignature.fromXMLElement (.elem n a c)
      let r ← trackEvents xs
      .ok (.keySignature v :: r)
    | "CC" => do
      let v ← DefaultDataCC.fromXMLElement (.elem n a c)
      let r ← trackEvents xs
      .ok (.cc v :: r)
    | "PC" => do
      let v ← DefaultDataPC.fromXMLElement (.elem n a c)
      let r ← trackEvents xs
      .ok (.pc v :: r)
    | "Comment" => do
      let v ← DefaultDataComment.fromXMLElement (.elem n a c)
      let r ← trackEvents xs
      .ok (.comment v :: r)
    | "Template" => do
      let v ← DefaultDataTemplate.fromXMLElement (.elem n a c)
      let r ← trackEvents xs
      .ok (.template v :: r)
    | "EOT" => do
      let v ← EOT.fromXMLElement (.elem n a c)
      let r ← trackEvents xs
      .ok (.eot v :: r)
    | _ => trackEvents xs

def Track.fromXMLElement : XNode → Except String Track
  | .text _ => .error "Invalid XML: Not an element"
  | .elem _ attrs children => do
    let ch ← optNum (alookup "Ch" attrs) "Invalid XML: Not found Track Ch"
    let mode ← optEnum TrackMode.ofStr (alookup "Mode" attrs) "Invalid XML: Not found Track Mode"
    let current ← optNum (alookup "Current" attrs) "Invalid XML: Not found Track Current"
    let tags ← trackEvents children
    .ok ⟨optStringy (alookup "Name" attrs), ch, mode, current, tags⟩

/-- Loop of DefaultData.fromXMLElement over the children. -/
def defaultDataTags : List XNode → Except String (List DefaultDataTag)
  | [] => .ok []
  | .text _ :: xs => defaultDataTags xs
  | .elem n a c :: xs =>
    match n with
    | "Mark" => do
      let v ← Mark.fromXMLElement (.elem n a c)
      let r ← defaultDataTags xs
      .ok (.mark v :: r)
    | "Track" => do
      let v ← Track.fromXMLElement (.elem n a c)
      let r ← defaultDataTags xs
      .ok (.track v :: r)
    | _ => defaultDataTags xs

def DefaultData.fromXMLElement : XNode → Except String DefaultData
  | .text _ => .error "Invalid XML: Not an element"
  | .elem _ _ children => do
    let tags ← defaultDataTags children
    .ok ⟨tags⟩

/-- Key of a ModuleData tags-object entry. -/
def ModuleTag.key : ModuleTag → Nat
  | .rhythmTrackDefault _ => 0
  | .exclusiveEventDefault _ => 1
  | .programChangeEventPropertyDlg _ => 2
  | .controlChangeEventDefault _ => 3
  | .instrumentList _ => 4
  | .drumSetList _ => 5
  | .controlChangeMacroList _ => 6
  | .templateList _ => 7
  | .defaultData _ => 8

/-- JS object assignment tags.k = v on the ModuleData tags object. -/
def upsertModule : List ModuleTag → ModuleTag → List ModuleTag
  | [], t => [t]
  | h :: r, t => if h.key = t.key then t :: r else h :: upsertModule r t

/-- Loop of ModuleData.fromXMLElement over the children: the nine-way
sub-tree dispatch, unknown names skipped, later duplicates overwriting
in place. -/
def moduleTags : List XNode → List ModuleTag → Except String (List ModuleTag)
  | [], acc => .ok acc
  | .text _ :: xs, acc => moduleTags xs acc
  | .elem n a c :: xs, acc =>
    match n with
    | "RhythmTrackDefault" => do
      let v ← RhythmTrackDefault.fromXMLElement (.elem n a c)
      moduleTags xs (upsertModule acc (.rhythmTrackDefault v))
    | "ExclusiveEventDefault" => do
      let v ← ExclusiveEventDefault.fromXMLElement (.elem n a c)
      moduleTags xs (upsertModule acc (.exclusiveEventDefault v))
    | "ProgramChangeEventPropertyDlg" => do
      let v ← ProgramChangeEventPropertyDlg.fromXMLElement (.elem n a c)
      moduleTags xs (upsertModule acc (.programChangeEventPropertyDlg v))
    | "ControlChangeEventDefault" => do
      let v ← ControlChangeEventDefault.fromXMLElement (.elem n a c)
      moduleTags xs (upsertModule acc (.controlChangeEventDefault v))
    | "InstrumentList" => do
      let v ← InstrumentList.fromXMLElement (.elem n a c)
      moduleTags xs (upsertModule acc (.instrumentList v))
    | "DrumSetList" => do
      let v ← DrumSetList.fromXMLElement (.elem n a c)
      moduleTags xs (upsertModule acc (.drumSetList v))
    | "ControlChangeMacroList" => do
      let v ← ControlChangeMacroList.fromXMLElement (.elem n a c)
      moduleTags xs (upsertModule acc (.controlChangeMacroList v))
    | "TemplateList" => do
      let v ← TemplateList.fromXMLElement (.elem n a c)
      moduleTags xs (upsertModule acc (.templateList v))
    | "DefaultData" => do
      let v ← DefaultData.fromXMLElement (.elem n a c)
      moduleTags xs (upsertModule acc (.defaultData v))
    | _ => moduleTags xs acc

def ModuleData.fromXMLElement : XNode → Except String ModuleData
  | .text _ => .error "Invalid XML: Not an element"
  | .elem _ attrs children => do
    let name ← getStringy (alookup "Name" attrs) "Invalid XML: Not found ModuleData Name"
    let folder := optStringy (alookup "Folder" attrs)
    let priority ← optNum (alookup "Priority" attrs) "Invalid XML: Not found ModuleData Priority"
    let fileCreator := optStringy (alookup "FileCreator" attrs)
    let fileVersion := optStringy (alookup "FileVersion" attrs)
    let website := optStringy (alookup "WebSite" attrs)
    let tags ← moduleTags children []
    .ok ⟨⟨name, folder, priority, fileCreator, fileVersion, website⟩, tags⟩

/-- File.fromXML after the external parser: requires a declaration, the
Shift_JIS encoding label, and a first top-level element, then delegates
to ModuleData.fromXMLElement and rebuilds the File. -/
def File.fromXML (doc : XmlJs) : Except String File :=
  match doc.declaration with
  | none => .error "Invalid XML"
  | some decl =>
    if alookup "encoding" decl ≠ some (.str "Shift_JIS") then .error "Invalid encoding"
    else
      match doc.elements with
      | .elem n a c :: _ => do
        let md ← ModuleData.fromXMLElement (.elem n a c)
        .ok ⟨md⟩
      | _ => .error "Invalid XML: Not found ModuleData"

/-! Consistency Checker (ModuleData.check).  The pass only writes to
the log collaborator and never influences the returned element or
raises, so it is modelled as a pure function from the module data to
the list of emitted log messages. -/

/-- One message sent to the logging collaborator, at one of the two
severities the checker uses. -/
inductive LogMsg where
  | error (s : String)
  | info (s : String)
deriving DecidableEq

/-- Identifier of a macro-tree node (tag.param.id); memo strings have
none, and so do folders without an id. -/
def CCMTag.tagId : CCMTag → Option ℚ
  | .folder p _ => p.id
  | .folderLink l => some l.id
  | .ccm p _ => some p.id
  | .ccmLink l => some l.id
  | .table t => some t.id
  | .memo _ => none

/-- Type name selected by the instanceof chains of checkDuplicate and
outputUsedId. -/
def CCMTag.typeName : CCMTag → String
  | .folder _ _ => "Folder"
  | .ccm _ _ => "CCM"
  | _ => "Table"

mutual

/-- flatFn: a folder contributes itself followed by the flattening of
its children; every other tag contributes itself. -/
def flatFn : CCMTag → List CCMTag
  | .folder p tags => .folder p tags :: flatList tags
  | .folderLink l => [.folderLink l]
  | .ccm p tags => [.ccm p tags]
  | .ccmLink l => [.ccmLink l]
  | .table t => [.table t]
  | .memo s => [.memo s]

def flatList : List CCMTag → List CCMTag
  | [] => []
  | t :: ts => flatFn t ++ flatList ts

end

/-- Comparison induced by sortFn, (a.param.id ?? Infinity) -
(b.param.id ?? Infinity): ids ascending, missing ids last.  Two missing
ids compare as a tie (the comparator yields NaN, which the sort treats
as zero), so a stable sort leaves their relative order unchanged. -/
def idLe (a b : CCMTag) : Bool :=
  match a.tagId, b.tagId with
  | some x, some y => decide (x ≤ y)
  | some _, none => true
  | none, none => true
  | none, some _ => false

/-- Stable insertion used to model Array.prototype.sort, which ES2019
requires to be stable; for the total preorder idLe the stable result is
unique, so insertion sort reproduces it. -/
def insertSorted (t : CCMTag) : List CCMTag → List CCMTag
  | [] => [t]
  | h :: r => if idLe t h then t :: h :: r else h :: insertSorted t r

def sortTags : List CCMTag → List CCMTag
  | [] => []
  | t :: ts => insertSorted t (sortTags ts)

/-- Loop of checkDuplicate, threading the previous identifier, which
starts at -1; tags without an id are skipped without updating it. -/
def checkDuplicateGo (prevId : ℚ) : List CCMTag → List LogMsg
  | [] => []
  | t :: r =>
    match t.tagId with
    | none => checkDuplicateGo prevId r
    | some i =>
      (if i = prevId then
        [.error ("Duplicate " ++ t.typeName ++ " tag ID: " ++ numToStr i)]
      else []) ++ checkDuplicateGo i r

/-- checkDuplicate of ModuleData.check. -/
def checkDuplicate (l : List CCMTag) : List LogMsg := checkDuplicateGo (-1) l

/-- Inner loop of outputUsedId: starting from the id prev already
consumed, keep consuming while the next tag has an id less than 2 away,
tracking the last id consumed; stops (leaving the offending tag in the
remainder) at a missing id or a gap of 2 or more. -/
def scanRange (prev : ℚ) (endAcc : Option ℚ) : List CCMTag → Option ℚ × List CCMTag
  | [] => (endAcc, [])
  | t :: rest =>
    match t.tagId with
    | none => (endAcc, t :: rest)
    | some next =>
      if 2 ≤ next - prev then (endAcc, t :: rest)
      else scanRange next (some next) rest

/-- Outer loop of outputUsedId, building the compressed-range string;
fuelled by the list length (each outer step consumes at least one
element, so the fuel never runs out). -/
def buildRangesF : Nat → List CCMTag → String
  | 0, _ => ""
  | fuel + 1, l =>
    match l with
    | [] => ""
    | t :: rest =>
      match t.tagId with
      | none => ""
      | some start =>
        let pr := scanRange start none rest
        let piece :=
          match pr.1 with
          | none => numToStr start ++ " "
          | some en =>
            if start = en then numToStr start ++ " "
            else numToStr start ++ "-" ++ numToStr en ++ " "
        piece ++ buildRangesF fuel pr.2

/-- Compressed-range content of one usage report (the str variable of
outputUsedId), including the space the source appends after every
range. -/
def buildRanges (l : List CCMTag) : String := buildRangesF l.length l

/-- outputUsedId of ModuleData.check: nothing for an empty list or one
whose first entry has no id, else one info message. -/
def outputUsedId (l : List CCMTag) : List LogMsg :=
  match l with
  | [] => []
  | t :: _ =>
    match t.tagId with
    | none => []
    | some _ => [.info ("Used Ids (" ++ t.typeName ++ "): " ++ buildRanges l)]

/-- JS property read tags.controlChangeMacroList on the ModuleData tags
object. -/
def findControlChangeMacroList : List ModuleTag → Option ControlChangeMacroList
  | [] => none
  | .controlChangeMacroList v :: _ => some v
  | _ :: r => findControlChangeMacroList r

def isCCMTagCCM : CCMTag → Bool
  | .ccm _ _ => true
  | _ => false

def isCCMTagFolder : CCMTag → Bool
  | .folder _ _ => true
  | _ => false

def isCCMTagTable : CCMTag → Bool
  | .table _ => true
  | _ => false

def isCCMTagMemo : CCMTag → Bool
  | .memo _ => true
  | _ => false

/-- ModuleData.check as the list of log messages it emits: flatten the
macro tree, partition by kind in order, sort each kind stably by id,
report adjacent duplicates, then report the compressed id ranges.  With
no ControlChangeMacroList present every partition is empty and nothing
is logged, as in the source. -/
def ModuleData.checkLogs (m : ModuleData) : List LogMsg :=
  let flat :=
    match findControlChangeMacroList m.tags with
    | none => []
    | some l => flatList l.tags
  let ccmS := sortTags (flat.filter isCCMTagCCM)
  let folderS := sortTags (flat.filter isCCMTagFolder)
  let tableS := sortTags (flat.filter isCCMTagTable)
  checkDuplicate ccmS ++ checkDuplicate folderS ++ checkDuplicate tableS ++
    outputUsedId ccmS ++ outputUsedId folderS ++ outputUsedId tableS

/-! Round-trip normalisation.  Encoding followed by decoding is not the
identity on two counts: a Tempo value comes back quantised to three
decimals (toFixed(3)), and a Value or Gate holding no entry list comes
back holding an empty one (Value.fromXMLElement always builds the
list).  The normalise functions apply exactly these two changes. -/

def Value.normalize (v : Value) : Value := { v with tags := some (v.tags.getD []) }

def CCMSub.normalize : CCMSub → CCMSub
  | .value v => .value v.normalize
  | .gate v => .gate v.normalize
  | .data d => .data d
  | .memo s => .memo s

mutual

def CCMTag.normalize : CCMTag → CCMTag
  | .folder p tags => .folder p (ccmTagsNormalize tags)
  | .folderLink l => .folderLink l
  | .ccm p tags => .ccm p (tags.map CCMSub.normalize)
  | .ccmLink l => .ccmLink l
  | .table t => .table t
  | .memo s => .memo s

def ccmTagsNormalize : List CCMTag → List CCMTag
  | [] => []
  | t :: ts => t.normalize :: ccmTagsNormalize ts

end

def TrackEvent.normalize : TrackEvent → TrackEvent
  | .tempo t => .tempo { t with tempo := quant3 t.tempo }
  | e => e

def Track.normalize (t : Track) : Track := { t with tags := t.tags.map TrackEvent.normalize }

def DefaultDataTag.normalize : DefaultDataTag → DefaultDataTag
  | .mark m => .mark m
  | .track t => .track t.normalize

def ModuleTag.normalize : ModuleTag → ModuleTag
  | .controlChangeMacroList v => .controlChangeMacroList ⟨ccmTagsNormalize v.tags⟩
  | .defaultData v => .defaultData ⟨v.tags.map DefaultDataTag.normalize⟩
  | t => t

def ModuleData.normalize (m : ModuleData) : ModuleData :=
  { m with tags := m.tags.map ModuleTag.normalize }

def File.normalize (f : File) : File := ⟨f.moduleData.normalize⟩

/-! Well-formedness.  Three kinds of side condition that the round trip
needs and that the source keeps outside the runtime checks:

* no string-valued attribute may be numeric-looking, else the
  collaborator's attribute coercion turns it into a number (the
  amendment hypothesis of the round-trip claim);
* the TS type system enforces a nonempty bank list on PC and the
  absence of bare memo strings at ControlChangeMacroList top level;
* a JS object cannot hold two entries with the same key (the tags
  objects of ModuleData and CCM). -/

def strOkOpt : Option String → Bool
  | none => true
  | some s => !looksNumeric s

def Tone.wf (t : Tone) : Bool := !looksNumeric t.name

def Bank.wf (b : Bank) : Bool := !looksNumeric b.name

def DrumBank.wf (b : DrumBank) : Bool := !looksNumeric b.name && b.tones.all Tone.wf

def InstrumentPC.wf (p : InstrumentPC) : Bool :=
  !looksNumeric p.name && !p.banks.isEmpty && p.banks.all Bank.wf

def DrumPC.wf (p : DrumPC) : Bool :=
  !looksNumeric p.name && !p.banks.isEmpty && p.banks.all DrumBank.wf

def InstrumentMap.wf (m : InstrumentMap) : Bool :=
  !looksNumeric m.name && m.pcs.all InstrumentPC.wf

def DrumMap.wf (m : DrumMap) : Bool := !looksNumeric m.name && m.pcs.all DrumPC.wf

def InstrumentList.wf (l : InstrumentList) : Bool := l.maps.all InstrumentMap.wf

def DrumSetList.wf (l : DrumSetList) : Bool := l.maps.all DrumMap.wf

def Entry.wf (e : Entry) : Bool := !looksNumeric e.label

def Value.wf (v : Value) : Bool := strOkOpt v.name && (v.tags.getD []).all Entry.wf

def Table.wf (t : Table) : Bool := t.tags.all Entry.wf

def CCMSub.wf : CCMSub → Bool
  | .value v => v.wf
  | .gate v => v.wf
  | .data _ => true
  | .memo _ => true

def CCMParam.wf (p : CCMParam) : Bool := !looksNumeric p.name && strOkOpt p.color

def CCMFolderLink.wf (l : CCMFolderLink) : Bool := !looksNumeric l.name

mutual

def CCMTag.wf : CCMTag → Bool
  | .folder p tags => !looksNumeric p.name && ccmTagsWf tags
  | .folderLink l => l.wf
  | .ccm p tags =>
    p.wf && tags.all CCMSub.wf && decide (tags.map CCMSub.key).Nodup
  | .ccmLink _ => true
  | .table t => t.wf
  | .memo _ => true

def ccmTagsWf : List CCMTag → Bool
  | [] => true
  | t :: ts => t.wf && ccmTagsWf ts

end

def ControlChangeMacroList.wf (l : ControlChangeMacroList) : Bool :=
  ccmTagsWf l.tags && l.tags.all (fun t => !isCCMTagMemo t)

def Memo.wf (_ : Memo) : Bool := true

def Comment.wf (c : Comment) : Bool := strOkOpt c.text

def TmplChild.wf : TmplChild → Bool
  | .memo _ => true
  | .cc _ => true
  | .pc _ => true
  | .comment c => c.wf

def TemplateParam.wf (p : TemplateParam) : Bool := !looksNumeric p.name

mutual

def TemplateTag.wf : TemplateTag → Bool
  | .folder name tags => !looksNumeric name && templateTagsWf tags
  | .template p tags => p.wf && tags.all TmplChild.wf

def templateTagsWf : List TemplateTag → Bool
  | [] => true
  | t :: ts => t.wf && templateTagsWf ts

end

def TemplateList.wf (l : TemplateList) : Bool := templateTagsWf l.tags

def Mark.wf (m : Mark) : Bool := strOkOpt m.name

def TrackEvent.wf : TrackEvent → Bool
  | .mark m => strOkOpt m.name
  | .tempo _ => true
  | .timeSignature t => !looksNumeric t.timeSignature
  | .keySignature k => !looksNumeric k.keySignature
  | .cc _ => true
  | .pc _ => true
  | .comment c => strOkOpt c.text
  | .template _ => true
  | .eot _ => true

def Track.wf (t : Track) : Bool := strOkOpt t.name && t.tags.all TrackEvent.wf

def DefaultDataTag.wf : DefaultDataTag → Bool
  | .mark m => m.wf
  | .track t => t.wf

def DefaultData.wf (d : DefaultData) : Bool := d.tags.all DefaultDataTag.wf

def ModuleTag.wf : ModuleTag → Bool
  | .rhythmTrackDefault _ => true
  | .exclusiveEventDefault v => !looksNumeric v.data
  | .programChangeEventPropertyDlg _ => true
  | .controlChangeEventDefault _ => true
  | .instrumentList v => v.wf
  | .drumSetList v => v.wf
  | .controlChangeMacroList v => v.wf
  | .templateList v => v.wf
  | .defaultData v => v.wf

def ModuleDataParam.wf (p : ModuleDataParam) : Bool :=
  !looksNumeric p.name && strOkOpt p.folder && strOkOpt p.fileCreator &&
    strOkOpt p.fileVersion && strOkOpt p.website

def ModuleData.wf (m : ModuleData) : Bool :=
  m.param.wf && m.tags.all ModuleTag.wf && decide (m.tags.map ModuleTag.key).Nodup

def File.wf (f : File) : Bool := f.moduleData.wf

/-- Name of a node (the element name, or the empty string for a text
node); used to state facts about child ordering. -/
def XNode.nodeName : XNode → String
  | .elem n _ _ => n
  | .text _ => ""

/-- Element name each ModuleData tags-object entry is emitted under. -/
def ModuleTag.elemName : ModuleTag → String
  | .rhythmTrackDefault _ => "RhythmTrackDefault"
  | .exclusiveEventDefault _ => "ExclusiveEventDefault"
  | .programChangeEventPropertyDlg _ => "ProgramChangeEventPropertyDlg"
  | .controlChangeEventDefault _ => "ControlChangeEventDefault"
  | .instrumentList _ => "InstrumentList"
  | .drumSetList _ => "DrumSetList"
  | .controlChangeMacroList _ => "ControlChangeMacroList"
  | .templateList _ => "TemplateList"
  | .defaultData _ => "DefaultData"

/-! Concrete example values used by the claim theorems below. -/

/-- Well-formed example file: a name, two scalar attributes and two
sub-trees, no numeric-looking string anywhere. -/
def c1File : File :=
  ⟨⟨⟨"Demo", some "Dir", some 5, none, none, none⟩,
    [.rhythmTrackDefault ⟨10⟩, .exclusiveEventDefault ⟨"GS Reset"⟩]⟩⟩

/-- Document c1File encodes to. -/
def c1FileDoc : XmlJs :=
  ⟨some [("version", .str "1.0"), ("encoding", .str "Shift_JIS")],
    [.elem "ModuleData"
      [("Name", .str "Demo"), ("Folder", .str "Dir"), ("Priority", .num 5)]
      [.elem "RhythmTrackDefault" [("Gate", .num 10)] [],
        .elem "ExclusiveEventDefault" [("Data", .str "GS Reset")] []]]⟩

/-- File whose every entity passes validation but whose
ExclusiveEventDefault Data is the numeric-looking string "123". -/
def c1BadFile : File :=
  ⟨⟨⟨"Counter", none, none, none, none, none⟩, [.exclusiveEventDefault ⟨"123"⟩]⟩⟩

/-- Document c1BadFile encodes to. -/
def c1BadDoc : XmlJs :=
  ⟨some [("version", .str "1.0"), ("encoding", .str "Shift_JIS")],
    [.elem "ModuleData" [("Name", .str "Counter")]
      [.elem "ExclusiveEventDefault" [("Data", .str "123")] []]]⟩

/-- Module data whose tags object was populated defaultData first,
instrumentList second (as after decoding an input with that child
order). -/
def c2Md : ModuleData :=
  ⟨⟨"M", none, none, none, none, none⟩, [.defaultData ⟨[]⟩, .instrumentList ⟨[]⟩]⟩

/-- Value with a min bound, no max bound, and an entry below the
min. -/
def c4Val : Value := ⟨none, some 5, none, none, none, none, none, some [⟨"x", 3⟩]⟩

/-- Macro list of the consistency-checker scenario: CCMs with ids
1, 1, 3, 4, 5, 9. -/
def c7Md : ModuleData :=
  ⟨⟨"M", none, none, none, none, none⟩,
    [.controlChangeMacroList ⟨[.ccm ⟨1, "a", none, none⟩ [], .ccm ⟨1, "b", none, none⟩ [],
      .ccm ⟨3, "c", none, none⟩ [], .ccm ⟨4, "d", none, none⟩ [],
      .ccm ⟨5, "e", none, none⟩ [], .ccm ⟨9, "f", none, none⟩ []]⟩]⟩

/-- Document whose declaration carries the encoding label UTF-8 and
whose root element would itself fail to decode (its Name attribute is
missing). -/
def c9Doc : XmlJs :=
  ⟨some [("version", .str "1.0"), ("encoding", .str "UTF-8")], [.elem "ModuleData" [] []]⟩

/-- Macro list holding a single folder with id -1, the initial value of
the duplicate scan's previous-identifier tracker. -/
def c10Md : ModuleData :=
  ⟨⟨"M", none, none, none, none, none⟩,
    [.controlChangeMacroList ⟨[.folder ⟨"F", some (-1)⟩ []]⟩]⟩

/-! End of the definitions.  Everything below is a theorem. -/

/-! Basic facts about the Except monad, attribute lists and the
collaborator round trip. -/

theorem exceptBind_ok {ε α β : Type} (x : Except ε α) (f : α → Except ε β) (b : β) :
    (x >>= f) = .ok b ↔ ∃ a, x = .ok a ∧ f a = .ok b := by
  cases x <;> simp [Bind.bind, Except.bind]

@[simp] theorem exceptBind_ok_left {ε α β : Type} (a : α) (f : α → Except ε β) :
    (Except.ok a >>= f : Except ε β) = f a := rfl

@[simp] theorem exceptBind_err_left {ε α β : Type} (e : ε) (f : α → Except ε β) :
    (Except.error e >>= f : Except ε β) = Except.error e := rfl

theorem exceptMap_ok {ε α β : Type} (g : α → β) (x : Except ε α) (b : β) :
    (g <$> x) = Except.ok b ↔ ∃ a, x = .ok a ∧ g a = b := by
  cases x with
  | error e => simp [Functor.map, Except.map]
  | ok a => simp [Functor.map, Except.map, eq_comm]

@[simp] theorem alookup_nil (k : String) : alookup k [] = none := rfl

theorem alookup_cons (k k2 : String) (v : AttrValue) (r : List (String × AttrValue)) :
    alookup k ((k2, v) :: r) = if k = k2 then some v else alookup k r := rfl

@[simp] theorem alookup_append (k : String) (l1 l2 : List (String × AttrValue)) :
    alookup k (l1 ++ l2) =
      (match alookup k l1 with | some v => some v | none => alookup k l2) := by
  induction l1 with
  | nil => simp
  | cons h t ih =>
    obtain ⟨k2, v⟩ := h
    by_cases hk : k = k2 <;> simp [alookup_cons, hk, ih]

@[simp] theorem alookup_optAttr (k k2 : String) (v : Option AttrValue) :
    alookup k (optAttr k2 v) = if k = k2 then v else none := by
  cases v with
  | none => simp [optAttr]
  | some a => by_cases hk : k = k2 <;> simp [optAttr, alookup_cons, hk]

@[simp] theorem rtAttrs_nil : rtAttrs [] = [] := rfl

@[simp] theorem rtAttrs_append (l1 l2 : List (String × AttrValue)) :
    rtAttrs (l1 ++ l2) = rtAttrs l1 ++ rtAttrs l2 := by
  simp [rtAttrs]

@[simp] theorem rtAttrs_optAttr (k : String) (v : Option AttrValue) :
    rtAttrs (optAttr k v) = optAttr k (v.map rtVal) := by
  cases v <;> simp [optAttr, rtAttrs]

@[simp] theorem rtVal_num (q : ℚ) : rtVal (.num q) = .num q := rfl

theorem rtVal_str_of_not_numeric {s : String} (h : looksNumeric s = false) :
    rtVal (.str s) = .str s := by
  simp [rtVal, h]

@[simp] theorem map_rtVal_num (v : Option ℚ) :
    (v.map AttrValue.num).map rtVal = v.map AttrValue.num := by
  cases v <;> simp

theorem map_rtVal_str {v : Option String} (h : strOkOpt v = true) :
    (v.map AttrValue.str).map rtVal = v.map AttrValue.str := by
  cases v with
  | none => rfl
  | some s =>
    simp only [strOkOpt, Bool.not_eq_true'] at h
    simp [rtVal_str_of_not_numeric h]

theorem sync_toStr_not_numeric (s : Sync) : looksNumeric s.toStr = false := by
  cases s <;> decide

theorem pcMode_toStr_not_numeric (m : PCMode) : looksNumeric m.toStr = false := by
  cases m <;> decide

theorem trackMode_toStr_not_numeric (m : TrackMode) : looksNumeric m.toStr = false := by
  cases m <;> decide

theorem valueType_toStr_not_numeric (t : ValueType) : looksNumeric t.toStr = false := by
  cases t <;> decide

@[simp] theorem option_match_collapse (o : Option AttrValue) :
    (match o with | some v => some v | none => none) = o := by
  cases o <;> rfl

@[simp] theorem map_comp_rtVal_num (v : Option ℚ) :
    v.map (rtVal ∘ AttrValue.num) = v.map AttrValue.num := by
  cases v <;> simp [rtVal]

theorem map_comp_rtVal_str {v : Option String} (h : strOkOpt v = true) :
    v.map (rtVal ∘ AttrValue.str) = v.map AttrValue.str := by
  cases v with
  | none => rfl
  | some s =>
    simp only [strOkOpt, Bool.not_eq_true'] at h
    simp [rtVal_str_of_not_numeric h]

@[simp] theorem map_comp_rtVal_sync (v : Option Sync) :
    v.map (rtVal ∘ fun s => AttrValue.str s.toStr) = v.map (fun s => AttrValue.str s.toStr) := by
  cases v with
  | none => rfl
  | some s => simp [rtVal_str_of_not_numeric (sync_toStr_not_numeric s)]

@[simp] theorem map_comp_rtVal_pcMode (v : Option PCMode) :
    v.map (rtVal ∘ fun m => AttrValue.str m.toStr) = v.map (fun m => AttrValue.str m.toStr) := by
  cases v with
  | none => rfl
  | some m => simp [rtVal_str_of_not_numeric (pcMode_toStr_not_numeric m)]

@[simp] theorem map_comp_rtVal_trackMode (v : Option TrackMode) :
    v.map (rtVal ∘ fun m => AttrValue.str m.toStr) = v.map (fun m => AttrValue.str m.toStr) := by
  cases v with
  | none => rfl
  | some m => simp [rtVal_str_of_not_numeric (trackMode_toStr_not_numeric m)]

@[simp] theorem map_comp_rtVal_valueType (v : Option ValueType) :
    v.map (rtVal ∘ fun t => AttrValue.str t.toStr) = v.map (fun t => AttrValue.str t.toStr) := by
  cases v with
  | none => rfl
  | some t => simp [rtVal_str_of_not_numeric (valueType_toStr_not_numeric t)]

@[simp] theorem isElemNamed_elem_self (nm : String) (a : List (String × AttrValue))
    (c : List XNode) : isElemNamed nm (.elem nm a c) = true := by
  simp [isElemNamed]

theorem mapM_nil_E {α β : Type} (f : α → Except String β) : List.mapM f [] = .ok [] := rfl

@[simp] theorem rtChildren_nil : rtChildren [] = [] := rfl

theorem rtChildren_cons (x : XNode) (xs : List XNode) :
    rtChildren (x :: xs) =
      (match rtNode x with | some y => y :: rtChildren xs | none => rtChildren xs) := by
  rw [rtChildren]

@[simp] theorem rtNode_elem (n : String) (a : List (String × AttrValue)) (c : List XNode) :
    rtNode (.elem n a c) = some (.elem n (rtAttrs a) (rtChildren c)) := by
  rw [rtNode]

@[simp] theorem rtChildren_elem_cons (n : String) (a : List (String × AttrValue))
    (c : List XNode) (xs : List XNode) :
    rtChildren (.elem n a c :: xs) = .elem n (rtAttrs a) (rtChildren c) :: rtChildren xs := by
  rw [rtChildren_cons, rtNode_elem]

@[simp] theorem rtChildren_text_empty_cons (xs : List XNode) :
    rtChildren (.text "" :: xs) = rtChildren xs := by
  rw [rtChildren_cons]
  simp [rtNode]

/-! Evaluation of the decode helpers on the shapes the encoders emit
after the collaborator round trip. -/

@[simp] theorem getNum_num (q : ℚ) (msg : String) : getNum (some (.num q)) msg = .ok q := rfl

@[simp] theorem getStringy_str (s : String) (msg : String) :
    getStringy (some (.str s)) msg = .ok s := rfl

@[simp] theorem optNum_map (v : Option ℚ) (msg : String) :
    optNum (v.map AttrValue.num) msg = .ok v := by
  cases v <;> rfl

@[simp] theorem optStr_map (v : Option String) (msg : String) :
    optStr (v.map AttrValue.str) msg = .ok v := by
  cases v <;> rfl

@[simp] theorem optStringy_map_str (v : Option String) :
    optStringy (v.map AttrValue.str) = v := by
  cases v <;> rfl

@[simp] theorem optStringy_none : optStringy none = none := rfl

@[simp] theorem getStr_str (s : String) (msg : String) : getStr (some (.str s)) msg = .ok s := rfl

@[simp] theorem sync_ofStr_toStr (s : Sync) : Sync.ofStr s.toStr = some s := by
  cases s <;> rfl

@[simp] theorem pcMode_ofStr_toStr (m : PCMode) : PCMode.ofStr m.toStr = some m := by
  cases m <;> rfl

@[simp] theorem trackMode_ofStr_toStr (m : TrackMode) : TrackMode.ofStr m.toStr = some m := by
  cases m <;> rfl

@[simp] theorem valueType_ofStr_toStr (t : ValueType) : ValueType.ofStr t.toStr = some t := by
  cases t <;> rfl

@[simp] theorem map_rtVal_sync (v : Option Sync) :
    ((v.map (fun s => AttrValue.str s.toStr)).map rtVal) =
      v.map (fun s => AttrValue.str s.toStr) := by
  cases v with
  | none => rfl
  | some s => simp [rtVal_str_of_not_numeric (sync_toStr_not_numeric s)]

@[simp] theorem map_rtVal_pcMode (v : Option PCMode) :
    ((v.map (fun m => AttrValue.str m.toStr)).map rtVal) =
      v.map (fun m => AttrValue.str m.toStr) := by
  cases v with
  | none => rfl
  | some m => simp [rtVal_str_of_not_numeric (pcMode_toStr_not_numeric m)]

@[simp] theorem map_rtVal_trackMode (v : Option TrackMode) :
    ((v.map (fun m => AttrValue.str m.toStr)).map rtVal) =
      v.map (fun m => AttrValue.str m.toStr) := by
  cases v with
  | none => rfl
  | some m => simp [rtVal_str_of_not_numeric (trackMode_toStr_not_numeric m)]

@[simp] theorem map_rtVal_valueType (v : Option ValueType) :
    ((v.map (fun t => AttrValue.str t.toStr)).map rtVal) =
      v.map (fun t => AttrValue.str t.toStr) := by
  cases v with
  | none => rfl
  | some t => simp [rtVal_str_of_not_numeric (valueType_toStr_not_numeric t)]

@[simp] theorem optEnum_sync_map (v : Option Sync) (msg : String) :
    optEnum Sync.ofStr (v.map (fun s => AttrValue.str s.toStr)) msg = .ok v := by
  cases v with
  | none => rfl
  | some s => simp [optEnum]

@[simp] theorem optEnum_pcMode_map (v : Option PCMode) (msg : String) :
    optEnum PCMode.ofStr (v.map (fun m => AttrValue.str m.toStr)) msg = .ok v := by
  cases v with
  | none => rfl
  | some m => simp [optEnum]

@[simp] theorem optEnum_trackMode_map (v : Option TrackMode) (msg : String) :
    optEnum TrackMode.ofStr (v.map (fun m => AttrValue.str m.toStr)) msg = .ok v := by
  cases v with
  | none => rfl
  | some m => simp [optEnum]

@[simp] theorem optEnum_valueType_map (v : Option ValueType) (msg : String) :
    optEnum ValueType.ofStr (v.map (fun t => AttrValue.str t.toStr)) msg = .ok v := by
  cases v with
  | none => rfl
  | some t => simp [optEnum]

/-! Correctness of the decimal renderer against the decimal parser:
the string toFixed(3) produces is numeric-looking and its numeric value
is the quantised tempo.  This is the exact property the round trip of a
Tempo element rests on. -/

theorem natDigitsRev_eq_digits (fuel n : Nat) (h : n ≤ fuel) :
    natDigitsRev fuel n = Nat.digits 10 n := by
  induction fuel generalizing n with
  | zero =>
    have hn : n = 0 := Nat.le_zero.mp h
    subst hn
    simp [natDigitsRev]
  | succ fuel ih =>
    by_cases hn : n = 0
    · simp [natDigitsRev, hn]
    · rw [natDigitsRev, if_neg hn,
        Nat.digits_def' (by norm_num : (1 : ℕ) < 10) (Nat.pos_of_ne_zero hn)]
      have hlt : n / 10 ≤ fuel := by
        have := Nat.div_lt_self (Nat.pos_of_ne_zero hn) (by norm_num : 1 < 10)
        omega
      rw [ih (n / 10) hlt]

theorem digitVal_digitChar {d : Nat} (h : d < 10) : digitVal (digitChar d) = d := by
  interval_cases d <;> decide

theorem isDigit_digitChar {d : Nat} (h : d < 10) : (digitChar d).isDigit = true := by
  interval_cases d <;> decide

theorem digitChar_ne_minus {d : Nat} (h : d < 10) : digitChar d ≠ '-' := by
  interval_cases d <;> decide

theorem natDigitsRev_lt (fuel n : Nat) : ∀ d ∈ natDigitsRev fuel n, d < 10 := by
  induction fuel generalizing n with
  | zero => simp [natDigitsRev]
  | succ fuel ih =>
    intro d hd
    rw [natDigitsRev] at hd
    by_cases hn : n = 0
    · simp [hn] at hd
    · rw [if_neg hn] at hd
      rcases List.mem_cons.mp hd with h1 | h2
      · omega
      · exact ih (n / 10) d h2

theorem foldl_digit_shift (cs : List Char) (a : Nat) :
    cs.foldl (fun a c => 10 * a + digitVal c) a =
      a * 10 ^ cs.length + cs.foldl (fun a c => 10 * a + digitVal c) 0 := by
  induction cs generalizing a with
  | nil => simp
  | cons c cs ih =>
    simp only [List.foldl_cons, List.length_cons]
    rw [ih (10 * a + digitVal c), ih (10 * 0 + digitVal c)]
    ring

theorem parseNatL_cons (c : Char) (cs : List Char) :
    parseNatL (c :: cs) = digitVal c * 10 ^ cs.length + parseNatL cs := by
  simp only [parseNatL, List.foldl_cons]
  rw [foldl_digit_shift cs (10 * 0 + digitVal c)]
  ring_nf

theorem foldl_digitChar (l : List Nat) (h : ∀ d ∈ l, d < 10) (a : Nat) :
    (l.map digitChar).foldl (fun a c => 10 * a + digitVal c) a =
      l.foldl (fun a d => 10 * a + d) a := by
  induction l generalizing a with
  | nil => simp
  | cons d l ih =>
    simp only [List.map_cons, List.foldl_cons]
    rw [digitVal_digitChar (h d (List.mem_cons_self d l))]
    exact ih (fun x hx => h x (List.mem_cons_of_mem d hx)) _

theorem parseNatL_digits (n : Nat) :
    parseNatL ((natDigitsRev n n).reverse.map digitChar) = n := by
  have hall : ∀ d ∈ (natDigitsRev n n).reverse, d < 10 := by
    intro d hd
    exact natDigitsRev_lt n n d (List.mem_reverse.mp hd)
  rw [parseNatL, foldl_digitChar _ hall 0, List.foldl_reverse]
  have hfun : (fun (d : ℕ) (a : ℕ) => 10 * a + d) = (fun (x y : ℕ) => x + 10 * y) := by
    funext d a
    omega
  rw [hfun]
  have := Nat.ofDigits_eq_foldr (10 : ℕ) (natDigitsRev n n)
  simp only [Nat.cast_id] at this
  rw [← this, natDigitsRev_eq_digits n n le_rfl, Nat.ofDigits_digits]

theorem natToStr_data (n : Nat) :
    (natToStr n).data = if n = 0 then ['0'] else (natDigitsRev n n).reverse.map digitChar := by
  by_cases hn : n = 0
  · simp [natToStr, hn]
  · simp [natToStr, hn]

theorem parseNatL_natToStr (n : Nat) : parseNatL (natToStr n).data = n := by
  rw [natToStr_data]
  by_cases hn : n = 0
  · simp [hn]
    decide
  · rw [if_neg hn]
    exact parseNatL_digits n

theorem natToStr_all_digits (n : Nat) : ∀ c ∈ (natToStr n).data, c.isDigit = true := by
  rw [natToStr_data]
  by_cases hn : n = 0
  · simp [hn]
  · rw [if_neg hn]
    intro c hc
    obtain ⟨d, hd, hcd⟩ := List.mem_map.mp hc
    subst hcd
    exact isDigit_digitChar (natDigitsRev_lt n n d (List.mem_reverse.mp hd))

theorem natToStr_data_ne_nil (n : Nat) : (natToStr n).data ≠ [] := by
  rw [natToStr_data]
  by_cases hn : n = 0
  · simp [hn]
  · rw [if_neg hn]
    intro hcontra
    have := natDigitsRev_eq_digits n n le_rfl
    have h2 : Nat.digits 10 n ≠ [] := Nat.digits_ne_nil_iff_ne_zero.mpr hn
    simp only [List.map_eq_nil_iff, List.reverse_eq_nil_iff] at hcontra
    rw [this] at hcontra
    exact h2 hcontra

theorem padDigits_length (k r : Nat) : (padDigits k r).length = k := by
  simp [padDigits]

theorem padDigits_all_digits (k r : Nat) : ∀ c ∈ padDigits k r, c.isDigit = true := by
  intro c hc
  obtain ⟨i, _, hcd⟩ := List.mem_map.mp hc
  subst hcd
  exact isDigit_digitChar (Nat.mod_lt _ (by norm_num))

theorem padDigits_succ (k r : Nat) :
    padDigits (k + 1) r = digitChar (r / 10 ^ k % 10) :: padDigits k r := by
  simp [padDigits, List.range_succ]

theorem parseNatL_padDigits (k r : Nat) : parseNatL (padDigits k r) = r % 10 ^ k := by
  induction k with
  | zero => simp [padDigits, parseNatL, Nat.mod_one]
  | succ k ih =>
    rw [padDigits_succ, parseNatL_cons, padDigits_length, ih,
      digitVal_digitChar (Nat.mod_lt _ (by norm_num)), Nat.mod_pow_succ]
    ring

theorem takeWhile_all_append {p : Char → Bool} (l r : List Char)
    (hl : ∀ c ∈ l, p c = true) (x : Char) (hx : p x = false) :
    (l ++ x :: r).takeWhile p = l ∧ (l ++ x :: r).dropWhile p = x :: r := by
  induction l with
  | nil => simp [List.takeWhile, List.dropWhile, hx]
  | cons c cs ih =>
    have hc : p c = true := hl c (List.mem_cons_self c cs)
    have ihr := ih (fun y hy => hl y (List.mem_cons_of_mem c hy))
    simp [List.takeWhile, List.dropWhile, hc, ihr.1, ihr.2]

theorem numericCore_structure (l frac : List Char) (hl : ∀ c ∈ l, c.isDigit = true)
    (hln : l ≠ []) (hf : ∀ c ∈ frac, c.isDigit = true) (hfn : frac ≠ []) :
    numericCore (l ++ '.' :: frac) = true ∧
      parseCore (l ++ '.' :: frac) =
        (parseNatL l : ℚ) + (parseNatL frac : ℚ) / (10 : ℚ) ^ frac.length := by
  obtain ⟨htw, hdw⟩ := takeWhile_all_append l frac hl '.' (by decide)
  constructor
  · simp only [numericCore, htw, hdw, fracOk]
    simp [List.isEmpty_iff, hln, hfn, List.all_eq_true]
    exact hf
  · simp only [parseCore, htw, hdw]

theorem toFixed3Str_spec (q : ℚ) :
    looksNumeric (toFixed3Str q) = true ∧ strToNum (toFixed3Str q) = quant3 q := by
  set m := quantNat3 q with hm
  have hfrac_digits := padDigits_all_digits 3 (m % 1000)
  have hfrac_ne : padDigits 3 (m % 1000) ≠ [] := by
    intro hcon
    have := padDigits_length 3 (m % 1000)
    rw [hcon] at this
    simp at this
  obtain ⟨hcore_num, hcore_val⟩ := numericCore_structure (natToStr (m / 1000)).data
    (padDigits 3 (m % 1000)) (natToStr_all_digits _) (natToStr_data_ne_nil _)
    hfrac_digits hfrac_ne
  have hparse_frac : parseNatL (padDigits 3 (m % 1000)) = m % 1000 := by
    rw [parseNatL_padDigits]
    exact Nat.mod_mod_of_dvd m (by norm_num)
  have hval : (parseNatL (natToStr (m / 1000)).data : ℚ) +
      (parseNatL (padDigits 3 (m % 1000)) : ℚ) /
        (10 : ℚ) ^ (padDigits 3 (m % 1000)).length = (m : ℚ) / 1000 := by
    rw [parseNatL_natToStr, hparse_frac, padDigits_length]
    have hdm : (1000 * (m / 1000) + m % 1000 : ℕ) = m := Nat.div_add_mod m 1000
    have hdq : (1000 : ℚ) * ((m / 1000 : ℕ) : ℚ) + ((m % 1000 : ℕ) : ℚ) = (m : ℚ) := by
      exact_mod_cast congrArg (fun x : ℕ => (x : ℚ)) hdm
    rw [show ((10 : ℚ) ^ (3 : ℕ)) = 1000 by norm_num]
    linarith [hdq]
  have hdot : (".").data = ['.'] := rfl
  have hmk : (String.mk (padDigits 3 (m % 1000))).data = padDigits 3 (m % 1000) := rfl
  by_cases hq : q < 0
  · have hstr : (toFixed3Str q).data =
        '-' :: ((natToStr (m / 1000)).data ++ '.' :: padDigits 3 (m % 1000)) := by
      simp only [toFixed3Str, if_pos hq, ← hm]
      rw [String.data_append, String.data_append, String.data_append, hdot, hmk,
        List.append_assoc, List.append_assoc]
      rfl
    refine ⟨?_, ?_⟩
    · rw [looksNumeric, hstr, looksNumericL]
      simp [hcore_num]
    · rw [strToNum, hstr, strToNumL]
      rw [if_pos rfl, hcore_val, hval, quant3, if_pos hq]
      ring
  · obtain ⟨c, cs, hcc⟩ := List.exists_cons_of_ne_nil (natToStr_data_ne_nil (m / 1000))
    have hcd : c.isDigit = true := by
      apply natToStr_all_digits
      rw [hcc]
      exact List.mem_cons_self c cs
    have hcnm : c ≠ '-' := by
      intro hcon
      rw [hcon] at hcd
      simp at hcd
    have hstr : (toFixed3Str q).data =
        (natToStr (m / 1000)).data ++ '.' :: padDigits 3 (m % 1000) := by
      simp only [toFixed3Str, if_neg hq, ← hm]
      rw [String.data_append, String.data_append, String.data_append, hdot, hmk,
        List.append_assoc]
      rfl
    refine ⟨?_, ?_⟩
    · rw [looksNumeric, hstr, hcc, List.cons_append, looksNumericL]
      rw [if_neg hcnm, ← List.cons_append, ← hcc, hcore_num]
    · rw [strToNum, hstr, hcc, List.cons_append, strToNumL]
      rw [if_neg hcnm, ← List.cons_append, ← hcc, hcore_val, hval, quant3, if_neg hq]
      ring

theorem rtVal_toFixed3Str (q : ℚ) :
    rtVal (.str (toFixed3Str q)) = .num (quant3 q) := by
  obtain ⟨h1, h2⟩ := toFixed3Str_spec q
  simp [rtVal, h1, h2]

/-! Round trip of each entity: encoding, the collaborator round trip
and decoding reproduce the entity (up to normalize where tempo
quantisation or the Value entry list are involved).  Each lemma also
names the element the encoder produced, which the container lemmas use
to get through the name filters and dispatches of the decoders. -/

theorem RhythmTrackDefault_rt (v : RhythmTrackDefault) (x : XNode)
    (he : RhythmTrackDefault.toXMLElement v = .ok x) :
    ∃ a c, x = .elem "RhythmTrackDefault" a c ∧
      RhythmTrackDefault.fromXMLElement
        (.elem "RhythmTrackDefault" (rtAttrs a) (rtChildren c)) = .ok v := by
  simp only [RhythmTrackDefault.toXMLElement, Except.ok.injEq] at he
  subst he
  refine ⟨_, _, rfl, ?_⟩
  simp [RhythmTrackDefault.fromXMLElement]

theorem ExclusiveEventDefault_rt (v : ExclusiveEventDefault)
    (hw : looksNumeric v.data = false) (x : XNode)
    (he : ExclusiveEventDefault.toXMLElement v = .ok x) :
    ∃ a c, x = .elem "ExclusiveEventDefault" a c ∧
      ExclusiveEventDefault.fromXMLElement
        (.elem "ExclusiveEventDefault" (rtAttrs a) (rtChildren c)) = .ok v := by
  simp only [ExclusiveEventDefault.toXMLElement, Except.ok.injEq] at he
  subst he
  refine ⟨_, _, rfl, ?_⟩
  simp [ExclusiveEventDefault.fromXMLElement, rtVal_str_of_not_numeric hw]

theorem ProgramChangeEventPropertyDlg_rt (v : ProgramChangeEventPropertyDlg) (x : XNode)
    (he : ProgramChangeEventPropertyDlg.toXMLElement v = .ok x) :
    ∃ a c, x = .elem "ProgramChangeEventPropertyDlg" a c ∧
      ProgramChangeEventPropertyDlg.fromXMLElement
        (.elem "ProgramChangeEventPropertyDlg" (rtAttrs a) (rtChildren c)) = .ok v := by
  simp only [ProgramChangeEventPropertyDlg.toXMLElement, Except.ok.injEq] at he
  subst he
  refine ⟨_, _, rfl, ?_⟩
  simp [ProgramChangeEventPropertyDlg.fromXMLElement]

theorem ControlChangeEventDefault_rt (v : ControlChangeEventDefault) (x : XNode)
    (he : ControlChangeEventDefault.toXMLElement v = .ok x) :
    ∃ a c, x = .elem "ControlChangeEventDefault" a c ∧
      ControlChangeEventDefault.fromXMLElement
        (.elem "ControlChangeEventDefault" (rtAttrs a) (rtChildren c)) = .ok v := by
  simp only [ControlChangeEventDefault.toXMLElement, Except.ok.injEq] at he
  subst he
  refine ⟨_, _, rfl, ?_⟩
  simp [ControlChangeEventDefault.fromXMLElement]

theorem Tone_rt (t : Tone) (hw : Tone.wf t = true) (x : XNode)
    (he : Tone.toXMLElement t = .ok x) :
    ∃ a c, x = .elem "Tone" a c ∧
      Tone.fromXMLElement (.elem "Tone" (rtAttrs a) (rtChildren c)) = .ok t := by
  unfold Tone.toXMLElement at he
  obtain ⟨u, hchk, hx⟩ := (exceptBind_ok _ _ _).mp he
  simp only [Except.ok.injEq] at hx
  subst hx
  refine ⟨_, _, rfl, ?_⟩
  simp only [Tone.wf, Bool.not_eq_true'] at hw
  simp [Tone.fromXMLElement, rtVal_str_of_not_numeric hw]

theorem Bank_rt (b : Bank) (hw : Bank.wf b = true) (x : XNode)
    (he : Bank.toXMLElement b = .ok x) :
    ∃ a c, x = .elem "Bank" a c ∧
      Bank.fromXMLElement (.elem "Bank" (rtAttrs a) (rtChildren c)) = .ok b := by
  unfold Bank.toXMLElement at he
  obtain ⟨u, hchk, hx⟩ := (exceptBind_ok _ _ _).mp he
  simp only [Except.ok.injEq] at hx
  subst hx
  refine ⟨_, _, rfl, ?_⟩
  simp only [Bank.wf, Bool.not_eq_true'] at hw
  simp [Bank.fromXMLElement, bankFromAttrs, rtVal_str_of_not_numeric hw]

theorem Entry_rt (e : Entry) (hw : Entry.wf e = true) (x : XNode)
    (he : Entry.toXMLElement e = .ok x) :
    ∃ a c, x = .elem "Entry" a c ∧
      Entry.fromXMLElement (.elem "Entry" (rtAttrs a) (rtChildren c)) = .ok e := by
  simp only [Entry.toXMLElement, Except.ok.injEq] at he
  subst he
  refine ⟨_, _, rfl, ?_⟩
  simp only [Entry.wf, Bool.not_eq_true'] at hw
  simp [Entry.fromXMLElement, rtVal_str_of_not_numeric hw]

theorem tones_rt (ts : List Tone) (hw : ts.all Tone.wf = true) (xs : List XNode)
    (he : ts.mapM Tone.toXMLElement = .ok xs) :
    ((rtChildren xs).filter (isElemNamed "Tone")).mapM Tone.fromXMLElement = .ok ts := by
  induction ts generalizing xs with
  | nil =>
    rw [mapM_nil_E] at he
    simp only [Except.ok.injEq] at he
    subst he
    rfl
  | cons t rest ih =>
    simp only [List.all_cons, Bool.and_eq_true] at hw
    rw [List.mapM_cons] at he
    obtain ⟨x, hx, he2⟩ := (exceptBind_ok _ _ _).mp he
    obtain ⟨ys, hys, he3⟩ := (exceptBind_ok _ _ _).mp he2
    simp only [pure, Except.pure, Except.ok.injEq] at he3
    subst he3
    obtain ⟨a, c, hxe, hdec⟩ := Tone_rt t hw.1 x hx
    subst hxe
    have hfil : (rtChildren (XNode.elem "Tone" a c :: ys)).filter (isElemNamed "Tone") =
        XNode.elem "Tone" (rtAttrs a) (rtChildren c) ::
          (rtChildren ys).filter (isElemNamed "Tone") := by
      simp
    rw [hfil, List.mapM_cons, hdec]
    have ih2 := ih hw.2 ys hys
    unfold List.mapM at ih2
    simp [ih2, pure, Except.pure]

theorem banks_rt (bs : List Bank) (hw : bs.all Bank.wf = true) (xs : List XNode)
    (he : bs.mapM Bank.toXMLElement = .ok xs) :
    ((rtChildren xs).filter (isElemNamed "Bank")).mapM Bank.fromXMLElement = .ok bs ∧
      ((rtChildren xs).filter (isElemNamed "Bank")).length = bs.length := by
  induction bs generalizing xs with
  | nil =>
    rw [mapM_nil_E] at he
    simp only [Except.ok.injEq] at he
    subst he
    exact ⟨rfl, rfl⟩
  | cons b rest ih =>
    simp only [List.all_cons, Bool.and_eq_true] at hw
    rw [List.mapM_cons] at he
    obtain ⟨x, hx, he2⟩ := (exceptBind_ok _ _ _).mp he
    obtain ⟨ys, hys, he3⟩ := (exceptBind_ok _ _ _).mp he2
    simp only [pure, Except.pure, Except.ok.injEq] at he3
    subst he3
    obtain ⟨a, c, hxe, hdec⟩ := Bank_rt b hw.1 x hx
    subst hxe
    have hfil : (rtChildren (XNode.elem "Bank" a c :: ys)).filter (isElemNamed "Bank") =
        XNode.elem "Bank" (rtAttrs a) (rtChildren c) ::
          (rtChildren ys).filter (isElemNamed "Bank") := by
      simp
    obtain ⟨ih1, ih2⟩ := ih hw.2 ys hys
    rw [hfil, List.mapM_cons, hdec]
    unfold List.mapM at ih1
    refine ⟨by simp [ih1, pure, Except.pure], by simp [ih2]⟩

theorem DrumBank_rt (b : DrumBank) (hw : DrumBank.wf b = true) (x : XNode)
    (he : DrumBank.toXMLElement b = .ok x) :
    ∃ a c, x = .elem "Bank" a c ∧
      DrumBank.fromXMLElement (.elem "Bank" (rtAttrs a) (rtChildren c)) = .ok b := by
  unfold DrumBank.toXMLElement at he
  obtain ⟨u, hchk, he2⟩ := (exceptBind_ok _ _ _).mp he
  obtain ⟨ts, hts, he3⟩ := (exceptBind_ok _ _ _).mp he2
  simp only [Except.ok.injEq] at he3
  subst he3
  refine ⟨_, _, rfl, ?_⟩
  simp only [DrumBank.wf, Bool.and_eq_true, Bool.not_eq_true'] at hw
  have htone := tones_rt b.tones hw.2 ts hts
  unfold List.mapM at htone
  simp [DrumBank.fromXMLElement, bankFromAttrs, rtVal_str_of_not_numeric hw.1, htone,
    pure, Except.pure]

theorem drumBanks_rt (bs : List DrumBank) (hw : bs.all DrumBank.wf = true) (xs : List XNode)
    (he : bs.mapM DrumBank.toXMLElement = .ok xs) :
    ((rtChildren xs).filter (isElemNamed "Bank")).mapM DrumBank.fromXMLElement = .ok bs ∧
      ((rtChildren xs).filter (isElemNamed "Bank")).length = bs.length := by
  induction bs generalizing xs with
  | nil =>
    rw [mapM_nil_E] at he
    simp only [Except.ok.injEq] at he
    subst he
    exact ⟨rfl, rfl⟩
  | cons b rest ih =>
    simp only [List.all_cons, Bool.and_eq_true] at hw
    rw [List.mapM_cons] at he
    obtain ⟨x, hx, he2⟩ := (exceptBind_ok _ _ _).mp he
    obtain ⟨ys, hys, he3⟩ := (exceptBind_ok _ _ _).mp he2
    simp only [pure, Except.pure, Except.ok.injEq] at he3
    subst he3
    obtain ⟨a, c, hxe, hdec⟩ := DrumBank_rt b hw.1 x hx
    subst hxe
    have hfil : (rtChildren (XNode.elem "Bank" a c :: ys)).filter (isElemNamed "Bank") =
        XNode.elem "Bank" (rtAttrs a) (rtChildren c) ::
          (rtChildren ys).filter (isElemNamed "Bank") := by
      simp
    obtain ⟨ih1, ih2⟩ := ih hw.2 ys hys
    rw [hfil, List.mapM_cons, hdec]
    unfold List.mapM at ih1
    refine ⟨by simp [ih1, pure, Except.pure], by simp [ih2]⟩

theorem InstrumentPC_rt (p : InstrumentPC) (hw : InstrumentPC.wf p = true) (x : XNode)
    (he : InstrumentPC.toXMLElement p = .ok x) :
    ∃ a c, x = .elem "PC" a c ∧
      InstrumentPC.fromXMLElement (.elem "PC" (rtAttrs a) (rtChildren c)) = .ok p := by
  unfold InstrumentPC.toXMLElement at he
  obtain ⟨u, hchk, he2⟩ := (exceptBind_ok _ _ _).mp he
  obtain ⟨bs, hbs, he3⟩ := (exceptBind_ok _ _ _).mp he2
  simp only [Except.ok.injEq] at he3
  subst he3
  refine ⟨_, _, rfl, ?_⟩
  simp only [InstrumentPC.wf, Bool.and_eq_true, Bool.not_eq_true',
    Bool.not_eq_true] at hw
  obtain ⟨⟨hname, hne⟩, hall⟩ := hw
  obtain ⟨hdec, hlen⟩ := banks_rt p.banks hall bs hbs
  have hbne : 0 < p.banks.length := by
    cases hbk : p.banks with
    | nil => rw [hbk] at hne; simp at hne
    | cons _ _ => simp [hbk]
  have hflen : 0 < ((rtChildren bs).filter (isElemNamed "Bank")).length := by
    rw [hlen]
    exact hbne
  have hisEmpty : ((rtChildren bs).filter (isElemNamed "Bank")).isEmpty = false := by
    cases hff : (rtChildren bs).filter (isElemNamed "Bank") with
    | nil => rw [hff] at hflen; simp at hflen
    | cons _ _ => rfl
  unfold List.mapM at hdec
  simp [InstrumentPC.fromXMLElement, pcFromBase, rtVal_str_of_not_numeric hname,
    hisEmpty, hdec, pure, Except.pure]

theorem DrumPC_rt (p : DrumPC) (hw : DrumPC.wf p = true) (x : XNode)
    (he : DrumPC.toXMLElement p = .ok x) :
    ∃ a c, x = .elem "PC" a c ∧
      DrumPC.fromXMLElement (.elem "PC" (rtAttrs a) (rtChildren c)) = .ok p := by
  unfold DrumPC.toXMLElement at he
  obtain ⟨u, hchk, he2⟩ := (exceptBind_ok _ _ _).mp he
  obtain ⟨bs, hbs, he3⟩ := (exceptBind_ok _ _ _).mp he2
  simp only [Except.ok.injEq] at he3
  subst he3
  refine ⟨_, _, rfl, ?_⟩
  simp only [DrumPC.wf, Bool.and_eq_true, Bool.not_eq_true',
    Bool.not_eq_true] at hw
  obtain ⟨⟨hname, hne⟩, hall⟩ := hw
  obtain ⟨hdec, hlen⟩ := drumBanks_rt p.banks hall bs hbs
  have hbne : 0 < p.banks.length := by
    cases hbk : p.banks with
    | nil => rw [hbk] at hne; simp at hne
    | cons _ _ => simp [hbk]
  have hflen : 0 < ((rtChildren bs).filter (isElemNamed "Bank")).length := by
    rw [hlen]
    exact hbne
  have hisEmpty : ((rtChildren bs).filter (isElemNamed "Bank")).isEmpty = false := by
    cases hff : (rtChildren bs).filter (isElemNamed "Bank") with
    | nil => rw [hff] at hflen; simp at hflen
    | cons _ _ => rfl
  unfold List.mapM at hdec
  simp [DrumPC.fromXMLElement, pcFromBase, rtVal_str_of_not_numeric hname,
    hisEmpty, hdec, pure, Except.pure]

theorem instrPCs_rt (ps : List InstrumentPC) (hw : ps.all InstrumentPC.wf = true)
    (xs : List XNode) (he : ps.mapM InstrumentPC.toXMLElement = .ok xs) :
    ((rtChildren xs).filter (isElemNamed "PC")).mapM InstrumentPC.fromXMLElement = .ok ps := by
  induction ps generalizing xs with
  | nil =>
    rw [mapM_nil_E] at he
    simp only [Except.ok.injEq] at he
    subst he
    rfl
  | cons p rest ih =>
    simp only [List.all_cons, Bool.and_eq_true] at hw
    rw [List.mapM_cons] at he
    obtain ⟨x, hx, he2⟩ := (exceptBind_ok _ _ _).mp he
    obtain ⟨ys, hys, he3⟩ := (exceptBind_ok _ _ _).mp he2
    simp only [pure, Except.pure, Except.ok.injEq] at he3
    subst he3
    obtain ⟨a, c, hxe, hdec⟩ := InstrumentPC_rt p hw.1 x hx
    subst hxe
    have hfil : (rtChildren (XNode.elem "PC" a c :: ys)).filter (isElemNamed "PC") =
        XNode.elem "PC" (rtAttrs a) (rtChildren c) ::
          (rtChildren ys).filter (isElemNamed "PC") := by
      simp
    rw [hfil, List.mapM_cons, hdec]
    have ih2 := ih hw.2 ys hys
    unfold List.mapM at ih2
    simp [ih2, pure, Except.pure]

theorem drumPCs_rt (ps : List DrumPC) (hw : ps.all DrumPC.wf = true)
    (xs : List XNode) (he : ps.mapM DrumPC.toXMLElement = .ok xs) :
    ((rtChildren xs).filter (isElemNamed "PC")).mapM DrumPC.fromXMLElement = .ok ps := by
  induction ps generalizing xs with
  | nil =>
    rw [mapM_nil_E] at he
    simp only [Except.ok.injEq] at he
    subst he
    rfl
  | cons p rest ih =>
    simp only [List.all_cons, Bool.and_eq_true] at hw
    rw [List.mapM_cons] at he
    obtain ⟨x, hx, he2⟩ := (exceptBind_ok _ _ _).mp he
    obtain ⟨ys, hys, he3⟩ := (exceptBind_ok _ _ _).mp he2
    simp only [pure, Except.pure, Except.ok.injEq] at he3
    subst he3
    obtain ⟨a, c, hxe, hdec⟩ := DrumPC_rt p hw.1 x hx
    subst hxe
    have hfil : (rtChildren (XNode.elem "PC" a c :: ys)).filter (isElemNamed "PC") =
        XNode.elem "PC" (rtAttrs a) (rtChildren c) ::
          (rtChildren ys).filter (isElemNamed "PC") := by
      simp
    rw [hfil, List.mapM_cons, hdec]
    have ih2 := ih hw.2 ys hys
    unfold List.mapM at ih2
    simp [ih2, pure, Except.pure]

theorem InstrumentMap_rt (m : InstrumentMap) (hw : InstrumentMap.wf m = true) (x : XNode)
    (he : InstrumentMap.toXMLElement m = .ok x) :
    ∃ a c, x = .elem "Map" a c ∧
      InstrumentMap.fromXMLElement (.elem "Map" (rtAttrs a) (rtChildren c)) = .ok m := by
  unfold InstrumentMap.toXMLElement at he
  obtain ⟨ps, hps, he2⟩ := (exceptBind_ok _ _ _).mp he
  simp only [Except.ok.injEq] at he2
  subst he2
  refine ⟨_, _, rfl, ?_⟩
  simp only [InstrumentMap.wf, Bool.and_eq_true, Bool.not_eq_true'] at hw
  have hdec := instrPCs_rt m.pcs hw.2 ps hps
  unfold List.mapM at hdec
  simp [InstrumentMap.fromXMLElement, mapFromBase, rtVal_str_of_not_numeric hw.1, hdec,
    pure, Except.pure]

theorem DrumMap_rt (m : DrumMap) (hw : DrumMap.wf m = true) (x : XNode)
    (he : DrumMap.toXMLElement m = .ok x) :
    ∃ a c, x = .elem "Map" a c ∧
      DrumMap.fromXMLElement (.elem "Map" (rtAttrs a) (rtChildren c)) = .ok m := by
  unfold DrumMap.toXMLElement at he
  obtain ⟨ps, hps, he2⟩ := (exceptBind_ok _ _ _).mp he
  simp only [Except.ok.injEq] at he2
  subst he2
  refine ⟨_, _, rfl, ?_⟩
  simp only [DrumMap.wf, Bool.and_eq_true, Bool.not_eq_true'] at hw
  have hdec := drumPCs_rt m.pcs hw.2 ps hps
  unfold List.mapM at hdec
  simp [DrumMap.fromXMLElement, mapFromBase, rtVal_str_of_not_numeric hw.1, hdec,
    pure, Except.pure]

theorem instrMaps_rt (ms : List InstrumentMap) (hw : ms.all InstrumentMap.wf = true)
    (xs : List XNode) (he : ms.mapM InstrumentMap.toXMLElement = .ok xs) :
    ((rtChildren xs).filter (isElemNamed "Map")).mapM InstrumentMap.fromXMLElement = .ok ms := by
  induction ms generalizing xs with
  | nil =>
    rw [mapM_nil_E] at he
    simp only [Except.ok.injEq] at he
    subst he
    rfl
  | cons m rest ih =>
    simp only [List.all_cons, Bool.and_eq_true] at hw
    rw [List.mapM_cons] at he
    obtain ⟨x, hx, he2⟩ := (exceptBind_ok _ _ _).mp he
    obtain ⟨ys, hys, he3⟩ := (exceptBind_ok _ _ _).mp he2
    simp only [pure, Except.pure, Except.ok.injEq] at he3
    subst he3
    obtain ⟨a, c, hxe, hdec⟩ := InstrumentMap_rt m hw.1 x hx
    subst hxe
    have hfil : (rtChildren (XNode.elem "Map" a c :: ys)).filter (isElemNamed "Map") =
        XNode.elem "Map" (rtAttrs a) (rtChildren c) ::
          (rtChildren ys).filter (isElemNamed "Map") := by
      simp
    rw [hfil, List.mapM_cons, hdec]
    have ih2 := ih hw.2 ys hys
    unfold List.mapM at ih2
    simp [ih2, pure, Except.pure]

theorem drumMaps_rt (ms : List DrumMap) (hw : ms.all DrumMap.wf = true)
    (xs : List XNode) (he : ms.mapM DrumMap.toXMLElement = .ok xs) :
    ((rtChildren xs).filter (isElemNamed "Map")).mapM DrumMap.fromXMLElement = .ok ms := by
  induction ms generalizing xs with
  | nil =>
    rw [mapM_nil_E] at he
    simp only [Except.ok.injEq] at he
    subst he
    rfl
  | cons m rest ih =>
    simp only [List.all_cons, Bool.and_eq_true] at hw
    rw [List.mapM_cons] at he
    obtain ⟨x, hx, he2⟩ := (exceptBind_ok _ _ _).mp he
    obtain ⟨ys, hys, he3⟩ := (exceptBind_ok _ _ _).mp he2
    simp only [pure, Except.pure, Except.ok.injEq] at he3
    subst he3
    obtain ⟨a, c, hxe, hdec⟩ := DrumMap_rt m hw.1 x hx
    subst hxe
    have hfil : (rtChildren (XNode.elem "Map" a c :: ys)).filter (isElemNamed "Map") =
        XNode.elem "Map" (rtAttrs a) (rtChildren c) ::
          (rtChildren ys).filter (isElemNamed "Map") := by
      simp
    rw [hfil, List.mapM_cons, hdec]
    have ih2 := ih hw.2 ys hys
    unfold List.mapM at ih2
    simp [ih2, pure, Except.pure]

theorem InstrumentList_rt (l : InstrumentList) (hw : InstrumentList.wf l = true) (x : XNode)
    (he : InstrumentList.toXMLElement l = .ok x) :
    ∃ a c, x = .elem "InstrumentList" a c ∧
      InstrumentList.fromXMLElement (.elem "InstrumentList" (rtAttrs a) (rtChildren c)) =
        .ok l := by
  unfold InstrumentList.toXMLElement at he
  obtain ⟨ms, hms, he2⟩ := (exceptBind_ok _ _ _).mp he
  simp only [Except.ok.injEq] at he2
  subst he2
  refine ⟨_, _, rfl, ?_⟩
  have hdec := instrMaps_rt l.maps hw ms hms
  unfold List.mapM at hdec
  simp [InstrumentList.fromXMLElement, hdec, pure, Except.pure]

theorem DrumSetList_rt (l : DrumSetList) (hw : DrumSetList.wf l = true) (x : XNode)
    (he : DrumSetList.toXMLElement l = .ok x) :
    ∃ a c, x = .elem "DrumSetList" a c ∧
      DrumSetList.fromXMLElement (.elem "DrumSetList" (rtAttrs a) (rtChildren c)) = .ok l := by
  unfold DrumSetList.toXMLElement at he
  obtain ⟨ms, hms, he2⟩ := (exceptBind_ok _ _ _).mp he
  simp only [Except.ok.injEq] at he2
  subst he2
  refine ⟨_, _, rfl, ?_⟩
  have hdec := drumMaps_rt l.maps hw ms hms
  unfold List.mapM at hdec
  simp [DrumSetList.fromXMLElement, hdec, pure, Except.pure]

theorem entries_rt (es : List Entry) (hw : es.all Entry.wf = true) (xs : List XNode)
    (he : es.mapM Entry.toXMLElement = .ok xs) :
    ((rtChildren xs).filter (fun e => match e with
      | XNode.elem _ _ _ => true
      | XNode.text _ => false)).mapM Entry.fromXMLElement = .ok es := by
  induction es generalizing xs with
  | nil =>
    rw [mapM_nil_E] at he
    simp only [Except.ok.injEq] at he
    subst he
    rfl
  | cons e rest ih =>
    simp only [List.all_cons, Bool.and_eq_true] at hw
    rw [List.mapM_cons] at he
    obtain ⟨x, hx, he2⟩ := (exceptBind_ok _ _ _).mp he
    obtain ⟨ys, hys, he3⟩ := (exceptBind_ok _ _ _).mp he2
    simp only [pure, Except.pure, Except.ok.injEq] at he3
    subst he3
    obtain ⟨a, c, hxe, hdec⟩ := Entry_rt e hw.1 x hx
    subst hxe
    have hfil : (rtChildren (XNode.elem "Entry" a c :: ys)).filter (fun e => match e with
        | XNode.elem _ _ _ => true
        | XNode.text _ => false) =
        XNode.elem "Entry" (rtAttrs a) (rtChildren c) ::
          (rtChildren ys).filter (fun e => match e with
            | XNode.elem _ _ _ => true
            | XNode.text _ => false) := by
      simp
    rw [hfil, List.mapM_cons, hdec]
    have ih2 := ih hw.2 ys hys
    unfold List.mapM at ih2
    simp [ih2, pure, Except.pure]

theorem valueNamed_rt (nm : String) (v : Value) (hw : Value.wf v = true) (x : XNode)
    (he : valueToXMLNamed nm v = .ok x) :
    ∃ a c, x = .elem nm a c ∧
      Value.fromXMLElement (.elem nm (rtAttrs a) (rtChildren c)) = .ok v.normalize := by
  unfold valueToXMLNamed at he
  obtain ⟨u, hchk, he2⟩ := (exceptBind_ok _ _ _).mp he
  obtain ⟨es, hes, he3⟩ := (exceptBind_ok _ _ _).mp he2
  simp only [Except.ok.injEq] at he3
  subst he3
  refine ⟨_, _, rfl, ?_⟩
  simp only [Value.wf, Bool.and_eq_true] at hw
  cases htags : v.tags with
  | none =>
    rw [htags] at hes
    simp only [pure, Except.pure, Except.ok.injEq] at hes
    subst hes
    simp [Value.fromXMLElement, Value.normalize, htags, map_comp_rtVal_str hw.1,
      map_rtVal_str hw.1, pure, Except.pure]
    rfl
  | some l =>
    rw [htags] at hes
    have hwl : l.all Entry.wf = true := by
      have := hw.2
      rw [htags] at this
      simpa using this
    have hdec := entries_rt l hwl es hes
    unfold List.mapM at hdec
    simp [Value.fromXMLElement, Value.normalize, htags, map_comp_rtVal_str hw.1,
      map_rtVal_str hw.1, hdec, pure, Except.pure]

theorem Table_rt (t : Table) (hw : Table.wf t = true) (x : XNode)
    (he : Table.toXMLElement t = .ok x) :
    ∃ a c, x = .elem "Table" a c ∧
      Table.fromXMLElement (.elem "Table" (rtAttrs a) (rtChildren c)) = .ok t := by
  unfold Table.toXMLElement at he
  obtain ⟨u, hchk, he2⟩ := (exceptBind_ok _ _ _).mp he
  obtain ⟨es, hes, he3⟩ := (exceptBind_ok _ _ _).mp he2
  simp only [Except.ok.injEq] at he3
  subst he3
  refine ⟨_, _, rfl, ?_⟩
  have hdec := entries_rt t.tags hw es hes
  unfold List.mapM at hdec
  simp [Table.fromXMLElement, hdec, pure, Except.pure]

theorem firstText_rt (s : String) : firstText (rtChildren [XNode.text s]) = s := by
  by_cases hs : s = ""
  · subst hs
    rw [rtChildren_cons]
    simp [rtNode, firstText]
  · rw [rtChildren_cons]
    simp [rtNode, hs, firstText]

theorem CCMFolderLink_rt (l : CCMFolderLink) (hw : CCMFolderLink.wf l = true) (x : XNode)
    (he : CCMFolderLink.toXMLElement l = .ok x) :
    ∃ a c, x = .elem "FolderLink" a c ∧
      CCMFolderLink.fromXMLElement (.elem "FolderLink" (rtAttrs a) (rtChildren c)) = .ok l := by
  simp only [CCMFolderLink.toXMLElement, Except.ok.injEq] at he
  subst he
  refine ⟨_, _, rfl, ?_⟩
  simp only [CCMFolderLink.wf, Bool.not_eq_true'] at hw
  simp [CCMFolderLink.fromXMLElement, rtVal_str_of_not_numeric hw]

theorem CCMLink_rt (l : CCMLink) (x : XNode) (he : CCMLink.toXMLElement l = .ok x) :
    ∃ a c, x = .elem "CCMLink" a c ∧
      CCMLink.fromXMLElement (.elem "CCMLink" (rtAttrs a) (rtChildren c)) = .ok l := by
  simp only [CCMLink.toXMLElement, Except.ok.injEq] at he
  subst he
  refine ⟨_, _, rfl, ?_⟩
  simp [CCMLink.fromXMLElement]

theorem Memo_rt (m : Memo) (x : XNode) (he : Memo.toXMLElement m = .ok x) :
    ∃ a c, x = .elem "Memo" a c ∧
      Memo.fromXMLElement (.elem "Memo" (rtAttrs a) (rtChildren c)) = .ok m := by
  simp only [Memo.toXMLElement, Except.ok.injEq] at he
  subst he
  refine ⟨_, _, rfl, ?_⟩
  simp [Memo.fromXMLElement, firstText_rt]

theorem CC_rt (c : CC) (x : XNode) (he : CC.toXMLElement c = .ok x) :
    ∃ a ch, x = .elem "CC" a ch ∧
      CC.fromXMLElement (.elem "CC" (rtAttrs a) (rtChildren ch)) = .ok c := by
  simp only [CC.toXMLElement, Except.ok.injEq] at he
  subst he
  refine ⟨_, _, rfl, ?_⟩
  simp [CC.fromXMLElement]

theorem TemplatePC_rt (p : TemplatePC) (x : XNode) (he : TemplatePC.toXMLElement p = .ok x) :
    ∃ a c, x = .elem "PC" a c ∧
      TemplatePC.fromXMLElement (.elem "PC" (rtAttrs a) (rtChildren c)) = .ok p := by
  unfold TemplatePC.toXMLElement at he
  obtain ⟨u, hchk, hx⟩ := (exceptBind_ok _ _ _).mp he
  simp only [Except.ok.injEq] at hx
  subst hx
  refine ⟨_, _, rfl, ?_⟩
  simp [TemplatePC.fromXMLElement]

theorem Comment_rt (c : Comment) (hw : Comment.wf c = true) (x : XNode)
    (he : Comment.toXMLElement c = .ok x) :
    ∃ a ch, x = .elem "Comment" a ch ∧
      Comment.fromXMLElement (.elem "Comment" (rtAttrs a) (rtChildren ch)) = .ok c := by
  simp only [Comment.toXMLElement, Except.ok.injEq] at he
  subst he
  refine ⟨_, _, rfl, ?_⟩
  simp only [Comment.wf] at hw
  simp [Comment.fromXMLElement, map_comp_rtVal_str hw, map_rtVal_str hw]

theorem Mark_rt (m : Mark) (hw : Mark.wf m = true) (x : XNode)
    (he : Mark.toXMLElement m = .ok x) :
    ∃ a c, x = .elem "Mark" a c ∧
      Mark.fromXMLElement (.elem "Mark" (rtAttrs a) (rtChildren c)) = .ok m := by
  unfold Mark.toXMLElement at he
  obtain ⟨u, hchk, hx⟩ := (exceptBind_ok _ _ _).mp he
  simp only [Except.ok.injEq] at hx
  subst hx
  refine ⟨_, _, rfl, ?_⟩
  simp only [Mark.wf] at hw
  simp [Mark.fromXMLElement, map_comp_rtVal_str hw, map_rtVal_str hw]

theorem DefaultDataTrackMark_rt (m : DefaultDataTrackMark)
    (hw : strOkOpt m.name = true) (x : XNode)
    (he : DefaultDataTrackMark.toXMLElement m = .ok x) :
    ∃ a c, x = .elem "Mark" a c ∧
      DefaultDataTrackMark.fromXMLElement (.elem "Mark" (rtAttrs a) (rtChildren c)) = .ok m := by
  simp only [DefaultDataTrackMark.toXMLElement, Except.ok.injEq] at he
  subst he
  refine ⟨_, _, rfl, ?_⟩
  simp [DefaultDataTrackMark.fromXMLElement, map_comp_rtVal_str hw, map_rtVal_str hw]

theorem Tempo_rt (t : Tempo) (x : XNode) (he : Tempo.toXMLElement t = .ok x) :
    ∃ a c, x = .elem "Tempo" a c ∧
      Tempo.fromXMLElement (.elem "Tempo" (rtAttrs a) (rtChildren c)) =
        .ok { t with tempo := quant3 t.tempo } := by
  simp only [Tempo.toXMLElement, Except.ok.injEq] at he
  subst he
  refine ⟨_, _, rfl, ?_⟩
  simp [Tempo.fromXMLElement, rtVal_toFixed3Str]

theorem TimeSignature_rt (t : TimeSignature) (hw : looksNumeric t.timeSignature = false)
    (x : XNode) (he : TimeSignature.toXMLElement t = .ok x) :
    ∃ a c, x = .elem "TimeSignature" a c ∧
      TimeSignature.fromXMLElement (.elem "TimeSignature" (rtAttrs a) (rtChildren c)) =
        .ok t := by
  unfold TimeSignature.toXMLElement at he
  obtain ⟨u, hchk, hx⟩ := (exceptBind_ok _ _ _).mp he
  simp only [Except.ok.injEq] at hx
  subst hx
  refine ⟨_, _, rfl, ?_⟩
  simp [TimeSignature.fromXMLElement, rtVal_str_of_not_numeric hw]

theorem KeySignature_rt (k : KeySignature) (hw : looksNumeric k.keySignature = false)
    (x : XNode) (he : KeySignature.toXMLElement k = .ok x) :
    ∃ a c, x = .elem "KeySignature" a c ∧
      KeySignature.fromXMLElement (.elem "KeySignature" (rtAttrs a) (rtChildren c)) =
        .ok k := by
  simp only [KeySignature.toXMLElement, Except.ok.injEq] at he
  subst he
  refine ⟨_, _, rfl, ?_⟩
  simp [KeySignature.fromXMLElement, rtVal_str_of_not_numeric hw]

theorem DefaultDataCC_rt (c : DefaultDataCC) (x : XNode)
    (he : DefaultDataCC.toXMLElement c = .ok x) :
    ∃ a ch, x = .elem "CC" a ch ∧
      DefaultDataCC.fromXMLElement (.elem "CC" (rtAttrs a) (rtChildren ch)) = .ok c := by
  simp only [DefaultDataCC.toXMLElement, Except.ok.injEq] at he
  subst he
  refine ⟨_, _, rfl, ?_⟩
  simp [DefaultDataCC.fromXMLElement]

theorem DefaultDataPC_rt (p : DefaultDataPC) (x : XNode)
    (he : DefaultDataPC.toXMLElement p = .ok x) :
    ∃ a c, x = .elem "PC" a c ∧
      DefaultDataPC.fromXMLElement (.elem "PC" (rtAttrs a) (rtChildren c)) = .ok p := by
  unfold DefaultDataPC.toXMLElement at he
  obtain ⟨u, hchk, hx⟩ := (exceptBind_ok _ _ _).mp he
  simp only [Except.ok.injEq] at hx
  subst hx
  refine ⟨_, _, rfl, ?_⟩
  simp [DefaultDataPC.fromXMLElement]

theorem DefaultDataComment_rt (c : DefaultDataComment) (hw : strOkOpt c.text = true)
    (x : XNode) (he : DefaultDataComment.toXMLElement c = .ok x) :
    ∃ a ch, x = .elem "Comment" a ch ∧
      DefaultDataComment.fromXMLElement (.elem "Comment" (rtAttrs a) (rtChildren ch)) =
        .ok c := by
  simp only [DefaultDataComment.toXMLElement, Except.ok.injEq] at he
  subst he
  refine ⟨_, _, rfl, ?_⟩
  simp [DefaultDataComment.fromXMLElement, map_comp_rtVal_str hw, map_rtVal_str hw]

theorem DefaultDataTemplate_rt (t : DefaultDataTemplate) (x : XNode)
    (he : DefaultDataTemplate.toXMLElement t = .ok x) :
    ∃ a c, x = .elem "Template" a c ∧
      DefaultDataTemplate.fromXMLElement (.elem "Template" (rtAttrs a) (rtChildren c)) =
        .ok t := by
  simp only [DefaultDataTemplate.toXMLElement, Except.ok.injEq] at he
  subst he
  refine ⟨_, _, rfl, ?_⟩
  simp [DefaultDataTemplate.fromXMLElement]

theorem EOT_rt (e : EOT) (x : XNode) (he : EOT.toXMLElement e = .ok x) :
    ∃ a c, x = .elem "EOT" a c ∧
      EOT.fromXMLElement (.elem "EOT" (rtAttrs a) (rtChildren c)) = .ok e := by
  simp only [EOT.toXMLElement, Except.ok.injEq] at he
  subst he
  refine ⟨_, _, rfl, ?_⟩
  simp [EOT.fromXMLElement]

theorem trackEvents_rt (evs : List TrackEvent) (hw : evs.all TrackEvent.wf = true)
    (xs : List XNode) (he : evs.mapM TrackEvent.toXMLElement = .ok xs) :
    trackEvents (rtChildren xs) = .ok (evs.map TrackEvent.normalize) := by
  induction evs generalizing xs with
  | nil =>
    rw [mapM_nil_E] at he
    simp only [Except.ok.injEq] at he
    subst he
    rfl
  | cons ev rest ih =>
    simp only [List.all_cons, Bool.and_eq_true] at hw
    rw [List.mapM_cons] at he
    obtain ⟨x, hx, he2⟩ := (exceptBind_ok _ _ _).mp he
    obtain ⟨ys, hys, he3⟩ := (exceptBind_ok _ _ _).mp he2
    simp only [pure, Except.pure, Except.ok.injEq] at he3
    subst he3
    have ih2 := ih hw.2 ys hys
    cases ev with
    | mark m =>
      have hwm : strOkOpt m.name = true := by simpa [TrackEvent.wf] using hw.1
      obtain ⟨a, c, hxe, hdec⟩ := DefaultDataTrackMark_rt m hwm x hx
      subst hxe
      simp [trackEvents, hdec, ih2, TrackEvent.normalize, pure, Except.pure]
    | tempo t =>
      obtain ⟨a, c, hxe, hdec⟩ := Tempo_rt t x hx
      subst hxe
      simp [trackEvents, hdec, ih2, TrackEvent.normalize, pure, Except.pure]
    | timeSignature t =>
      have hwt : looksNumeric t.timeSignature = false := by
        simpa [TrackEvent.wf, Bool.not_eq_true'] using hw.1
      obtain ⟨a, c, hxe, hdec⟩ := TimeSignature_rt t hwt x hx
      subst hxe
      simp [trackEvents, hdec, ih2, TrackEvent.normalize, pure, Except.pure]
    | keySignature k =>
      have hwk : looksNumeric k.keySignature = false := by
        simpa [TrackEvent.wf, Bool.not_eq_true'] using hw.1
      obtain ⟨a, c, hxe, hdec⟩ := KeySignature_rt k hwk x hx
      subst hxe
      simp [trackEvents, hdec, ih2, TrackEvent.normalize, pure, Except.pure]
    | cc c =>
      obtain ⟨a, ch, hxe, hdec⟩ := DefaultDataCC_rt c x hx
      subst hxe
      simp [trackEvents, hdec, ih2, TrackEvent.normalize, pure, Except.pure]
    | pc p =>
      obtain ⟨a, c, hxe, hdec⟩ := DefaultDataPC_rt p x hx
      subst hxe
      simp [trackEvents, hdec, ih2, TrackEvent.normalize, pure, Except.pure]
    | comment c =>
      have hwc : strOkOpt c.text = true := by simpa [TrackEvent.wf] using hw.1
      obtain ⟨a, ch, hxe, hdec⟩ := DefaultDataComment_rt c hwc x hx
      subst hxe
      simp [trackEvents, hdec, ih2, TrackEvent.normalize, pure, Except.pure]
    | template t =>
      obtain ⟨a, c, hxe, hdec⟩ := DefaultDataTemplate_rt t x hx
      subst hxe
      simp [trackEvents, hdec, ih2, TrackEvent.normalize, pure, Except.pure]
    | eot e =>
      obtain ⟨a, c, hxe, hdec⟩ := EOT_rt e x hx
      subst hxe
      simp [trackEvents, hdec, ih2, TrackEvent.normalize, pure, Except.pure]

theorem Track_rt (t : Track) (hw : Track.wf t = true) (x : XNode)
    (he : Track.toXMLElement t = .ok x) :
    ∃ a c, x = .elem "Track" a c ∧
      Track.fromXMLElement (.elem "Track" (rtAttrs a) (rtChildren c)) = .ok t.normalize := by
  unfold Track.toXMLElement at he
  obtain ⟨u, hchk, he2⟩ := (exceptBind_ok _ _ _).mp he
  obtain ⟨es, hes, he3⟩ := (exceptBind_ok _ _ _).mp he2
  simp only [Except.ok.injEq] at he3
  subst he3
  refine ⟨_, _, rfl, ?_⟩
  simp only [Track.wf, Bool.and_eq_true] at hw
  have hdec := trackEvents_rt t.tags hw.2 es hes
  simp [Track.fromXMLElement, Track.normalize, map_comp_rtVal_str hw.1, map_rtVal_str hw.1,
    hdec, pure, Except.pure]

theorem defaultDataTags_rt (ds : List DefaultDataTag) (hw : ds.all DefaultDataTag.wf = true)
    (xs : List XNode) (he : ds.mapM DefaultDataTag.toXMLElement = .ok xs) :
    defaultDataTags (rtChildren xs) = .ok (ds.map DefaultDataTag.normalize) := by
  induction ds generalizing xs with
  | nil =>
    rw [mapM_nil_E] at he
    simp only [Except.ok.injEq] at he
    subst he
    rfl
  | cons d rest ih =>
    simp only [List.all_cons, Bool.and_eq_true] at hw
    rw [List.mapM_cons] at he
    obtain ⟨x, hx, he2⟩ := (exceptBind_ok _ _ _).mp he
    obtain ⟨ys, hys, he3⟩ := (exceptBind_ok _ _ _).mp he2
    simp only [pure, Except.pure, Except.ok.injEq] at he3
    subst he3
    have ih2 := ih hw.2 ys hys
    cases d with
    | mark m =>
      have hwm : Mark.wf m = true := by simpa [DefaultDataTag.wf] using hw.1
      obtain ⟨a, c, hxe, hdec⟩ := Mark_rt m hwm x hx
      subst hxe
      simp [defaultDataTags, hdec, ih2, DefaultDataTag.normalize, pure, Except.pure]
    | track t =>
      have hwt : Track.wf t = true := by simpa [DefaultDataTag.wf] using hw.1
      obtain ⟨a, c, hxe, hdec⟩ := Track_rt t hwt x hx
      subst hxe
      simp [defaultDataTags, hdec, ih2, DefaultDataTag.normalize, pure, Except.pure]

theorem DefaultData_rt (d : DefaultData) (hw : DefaultData.wf d = true) (x : XNode)
    (he : DefaultData.toXMLElement d = .ok x) :
    ∃ a c, x = .elem "DefaultData" a c ∧
      DefaultData.fromXMLElement (.elem "DefaultData" (rtAttrs a) (rtChildren c)) =
        .ok ⟨d.tags.map DefaultDataTag.normalize⟩ := by
  unfold DefaultData.toXMLElement at he
  obtain ⟨ds, hds, he2⟩ := (exceptBind_ok _ _ _).mp he
  simp only [Except.ok.injEq] at he2
  subst he2
  refine ⟨_, _, rfl, ?_⟩
  have hdec := defaultDataTags_rt d.tags hw ds hds
  simp [DefaultData.fromXMLElement, hdec, pure, Except.pure]

theorem ccmSub_key_normalize (t : CCMSub) : t.normalize.key = t.key := by
  cases t <;> rfl

theorem upsertSub_append (acc : List CCMSub) (t : CCMSub)
    (h : ∀ u ∈ acc, u.key ≠ t.key) : upsertSub acc t = acc ++ [t] := by
  induction acc with
  | nil => rfl
  | cons u rest ih =>
    rw [upsertSub]
    rw [if_neg (h u (List.mem_cons_self u rest))]
    simp [ih (fun v hv => h v (List.mem_cons_of_mem u hv))]

theorem ccmSubs_rt (subs : List CCMSub) (hw : subs.all CCMSub.wf = true)
    (hnd : (subs.map CCMSub.key).Nodup) (xs : List XNode)
    (he : ccmSubsToXML subs = .ok xs) (acc : List CCMSub)
    (hacc : ∀ u ∈ acc, ∀ t ∈ subs, u.key ≠ t.key) :
    ccmSubsFrom (rtChildren xs) acc = .ok (acc ++ subs.map CCMSub.normalize) := by
  induction subs generalizing xs acc with
  | nil =>
    rw [ccmSubsToXML] at he
    simp only [Except.ok.injEq] at he
    subst he
    simp [ccmSubsFrom]
  | cons t rest ih =>
    simp only [List.all_cons, Bool.and_eq_true] at hw
    rw [ccmSubsToXML] at he
    obtain ⟨x, hx, he2⟩ := (exceptBind_ok _ _ _).mp he
    obtain ⟨ys, hys, he3⟩ := (exceptBind_ok _ _ _).mp he2
    simp only [Except.ok.injEq] at he3
    subst he3
    simp only [List.map_cons, List.nodup_cons, List.mem_map] at hnd
    have hknd : t.key ∉ rest.map CCMSub.key := by
      intro hmem
      obtain ⟨u, hu, hku⟩ := List.mem_map.mp hmem
      exact hnd.1 ⟨u, hu, hku⟩
    have hacc2 : ∀ u ∈ acc ++ [t.normalize], ∀ r ∈ rest, u.key ≠ r.key := by
      intro u hu r hr
      rcases List.mem_append.mp hu with h1 | h2
      · exact hacc u h1 r (List.mem_cons_of_mem t hr)
      · simp only [List.mem_singleton] at h2
        subst h2
        rw [ccmSub_key_normalize]
        intro hcon
        exact hknd (hcon ▸ List.mem_map_of_mem CCMSub.key hr)
    have hups : upsertSub acc t.normalize = acc ++ [t.normalize] := by
      apply upsertSub_append
      intro u hu
      rw [ccmSub_key_normalize]
      exact hacc u hu t (List.mem_cons_self t rest)
    cases t with
    | value v =>
      obtain ⟨a, c, hxe, hdec⟩ := valueNamed_rt "Value" v (by simpa [CCMSub.wf] using hw.1) x hx
      subst hxe
      have ihr := ih hw.2 hnd.2 ys hys _ hacc2
      simp only [CCMSub.normalize] at hups ihr
      simp [ccmSubsFrom, hdec, hups, ihr, CCMSub.normalize]
    | gate v =>
      obtain ⟨a, c, hxe, hdec⟩ := valueNamed_rt "Gate" v (by simpa [CCMSub.wf] using hw.1) x hx
      subst hxe
      have ihr := ih hw.2 hnd.2 ys hys _ hacc2
      simp only [CCMSub.normalize] at hups ihr
      simp [ccmSubsFrom, hdec, hups, ihr, CCMSub.normalize]
    | data d =>
      rw [show CCMSub.toXMLElement (.data d) = Data.toXMLElement d from rfl] at hx
      simp only [Data.toXMLElement, Except.ok.injEq] at hx
      subst hx
      have ihr := ih hw.2 hnd.2 ys hys _ hacc2
      simp only [CCMSub.normalize] at hups ihr
      simp [ccmSubsFrom, firstText_rt, hups, ihr, CCMSub.normalize]
    | memo m =>
      rw [show CCMSub.toXMLElement (.memo m) = .ok (.elem "Memo" [] [.text m]) from rfl] at hx
      simp only [Except.ok.injEq] at hx
      subst hx
      have ihr := ih hw.2 hnd.2 ys hys _ hacc2
      simp only [CCMSub.normalize] at hups ihr
      simp [ccmSubsFrom, firstText_rt, hups, ihr, CCMSub.normalize]

theorem CCM_rt (p : CCMParam) (subs : List CCMSub)
    (hw : CCMTag.wf (.ccm p subs) = true) (x : XNode)
    (he : CCMTag.toXMLElement (.ccm p subs) = .ok x) :
    ∃ a c, x = .elem "CCM" a c ∧
      CCM.fromXMLElement (.elem "CCM" (rtAttrs a) (rtChildren c)) =
        .ok (.ccm p (subs.map CCMSub.normalize)) := by
  rw [CCMTag.toXMLElement] at he
  obtain ⟨u, hchk, he2⟩ := (exceptBind_ok _ _ _).mp he
  obtain ⟨cs, hcs, he3⟩ := (exceptBind_ok _ _ _).mp he2
  simp only [Except.ok.injEq] at he3
  subst he3
  refine ⟨_, _, rfl, ?_⟩
  rw [CCMTag.wf] at hw
  simp only [CCMParam.wf, Bool.and_eq_true, Bool.not_eq_true', decide_eq_true_eq] at hw
  obtain ⟨⟨⟨hname, hcolor⟩, hall⟩, hnd⟩ := hw
  have hdec := ccmSubs_rt subs hall hnd cs hcs [] (by simp)
  simp only [List.nil_append] at hdec
  simp [CCM.fromXMLElement, rtVal_str_of_not_numeric hname, map_comp_rtVal_str hcolor,
    map_rtVal_str hcolor, hdec, pure, Except.pure]

theorem ccmFolderTags_rt : ∀ (ts : List CCMTag), ccmTagsWf ts = true →
    ∀ xs, ccmTagsToXML ts = .ok xs →
    ccmFolderTags (rtChildren xs) = .ok (ccmTagsNormalize ts)
  | [], hw, xs, he => by
    rw [ccmTagsToXML] at he
    simp only [Except.ok.injEq] at he
    subst he
    rfl
  | .folder p tags :: rest, hw, xs, he => by
    rw [ccmTagsToXML] at he
    obtain ⟨x, hx, he2⟩ := (exceptBind_ok _ _ _).mp he
    obtain ⟨ys, hys, he3⟩ := (exceptBind_ok _ _ _).mp he2
    simp only [Except.ok.injEq] at he3
    subst he3
    rw [ccmTagsWf] at hw
    simp only [Bool.and_eq_true] at hw
    rw [CCMTag.wf] at hw
    simp only [Bool.and_eq_true, Bool.not_eq_true'] at hw
    obtain ⟨⟨hname, htags⟩, hrest⟩ := hw
    rw [CCMTag.toXMLElement] at hx
    obtain ⟨ch, hch, hx2⟩ := (exceptBind_ok _ _ _).mp hx
    simp only [Except.ok.injEq] at hx2
    subst hx2
    have hsub := ccmFolderTags_rt tags htags ch hch
    have hrec := ccmFolderTags_rt rest hrest ys hys
    simp [ccmFolderTags, CCMFolder.fromXMLElement, rtVal_str_of_not_numeric hname,
      hsub, hrec, ccmTagsNormalize, CCMTag.normalize, pure, Except.pure]
  | .folderLink l :: rest, hw, xs, he => by
    rw [ccmTagsToXML] at he
    obtain ⟨x, hx, he2⟩ := (exceptBind_ok _ _ _).mp he
    obtain ⟨ys, hys, he3⟩ := (exceptBind_ok _ _ _).mp he2
    simp only [Except.ok.injEq] at he3
    subst he3
    rw [ccmTagsWf] at hw
    simp only [Bool.and_eq_true] at hw
    obtain ⟨hl, hrest⟩ := hw
    rw [show CCMTag.wf (.folderLink l) = l.wf from rfl] at hl
    obtain ⟨a, c, hxe, hdec⟩ := CCMFolderLink_rt l hl x hx
    subst hxe
    have hrec := ccmFolderTags_rt rest hrest ys hys
    simp [ccmFolderTags, hdec, hrec, ccmTagsNormalize, CCMTag.normalize, pure, Except.pure]
  | .ccm p subs :: rest, hw, xs, he => by
    rw [ccmTagsToXML] at he
    obtain ⟨x, hx, he2⟩ := (exceptBind_ok _ _ _).mp he
    obtain ⟨ys, hys, he3⟩ := (exceptBind_ok _ _ _).mp he2
    simp only [Except.ok.injEq] at he3
    subst he3
    rw [ccmTagsWf] at hw
    simp only [Bool.and_eq_true] at hw
    obtain ⟨hc, hrest⟩ := hw
    obtain ⟨a, c, hxe, hdec⟩ := CCM_rt p subs hc x hx
    subst hxe
    have hrec := ccmFolderTags_rt rest hrest ys hys
    simp [ccmFolderTags, hdec, hrec, ccmTagsNormalize, CCMTag.normalize, pure, Except.pure]
  | .ccmLink l :: rest, hw, xs, he => by
    rw [ccmTagsToXML] at he
    obtain ⟨x, hx, he2⟩ := (exceptBind_ok _ _ _).mp he
    obtain ⟨ys, hys, he3⟩ := (exceptBind_ok _ _ _).mp he2
    simp only [Except.ok.injEq] at he3
    subst he3
    rw [ccmTagsWf] at hw
    simp only [Bool.and_eq_true] at hw
    obtain ⟨hl, hrest⟩ := hw
    obtain ⟨a, c, hxe, hdec⟩ := CCMLink_rt l x hx
    subst hxe
    have hrec := ccmFolderTags_rt rest hrest ys hys
    simp [ccmFolderTags, hdec, hrec, ccmTagsNormalize, CCMTag.normalize, pure, Except.pure]
  | .table t :: rest, hw, xs, he => by
    rw [ccmTagsToXML] at he
    obtain ⟨x, hx, he2⟩ := (exceptBind_ok _ _ _).mp he
    obtain ⟨ys, hys, he3⟩ := (exceptBind_ok _ _ _).mp he2
    simp only [Except.ok.injEq] at he3
    subst he3
    rw [ccmTagsWf] at hw
    simp only [Bool.and_eq_true] at hw
    obtain ⟨ht, hrest⟩ := hw
    rw [show CCMTag.wf (.table t) = t.wf from rfl] at ht
    rw [show CCMTag.toXMLElement (.table t) = Table.toXMLElement t from rfl] at hx
    obtain ⟨a, c, hxe, hdec⟩ := Table_rt t ht x hx
    subst hxe
    have hrec := ccmFolderTags_rt rest hrest ys hys
    simp [ccmFolderTags, hdec, hrec, ccmTagsNormalize, CCMTag.normalize, pure, Except.pure]
  | .memo m :: rest, hw, xs, he => by
    rw [ccmTagsToXML] at he
    obtain ⟨x, hx, he2⟩ := (exceptBind_ok _ _ _).mp he
    obtain ⟨ys, hys, he3⟩ := (exceptBind_ok _ _ _).mp he2
    simp only [Except.ok.injEq] at he3
    subst he3
    rw [ccmTagsWf] at hw
    simp only [Bool.and_eq_true] at hw
    obtain ⟨hm, hrest⟩ := hw
    rw [show CCMTag.toXMLElement (.memo m) = .ok (.elem "Memo" [] [.text m]) from rfl] at hx
    simp only [Except.ok.injEq] at hx
    subst hx
    have hrec := ccmFolderTags_rt rest hrest ys hys
    simp [ccmFolderTags, firstText_rt, hrec, ccmTagsNormalize, CCMTag.normalize,
      pure, Except.pure]
termination_by ts => sizeOf ts

theorem ccmListTags_rt (ts : List CCMTag) (hw : ccmTagsWf ts = true)
    (hnm : ts.all (fun t => !isCCMTagMemo t) = true) (xs : List XNode)
    (he : ccmTagsToXML ts = .ok xs) :
    ccmListTags (rtChildren xs) = .ok (ccmTagsNormalize ts) := by
  induction ts generalizing xs with
  | nil =>
    rw [ccmTagsToXML] at he
    simp only [Except.ok.injEq] at he
    subst he
    rfl
  | cons t rest ih =>
    rw [ccmTagsToXML] at he
    obtain ⟨x, hx, he2⟩ := (exceptBind_ok _ _ _).mp he
    obtain ⟨ys, hys, he3⟩ := (exceptBind_ok _ _ _).mp he2
    simp only [Except.ok.injEq] at he3
    subst he3
    rw [ccmTagsWf] at hw
    simp only [Bool.and_eq_true] at hw
    simp only [List.all_cons, Bool.and_eq_true] at hnm
    have hrec := ih hw.2 hnm.2 ys hys
    cases t with
    | folder p tags =>
      rw [CCMTag.wf] at hw
      have hw1 := hw.1
      simp only [Bool.and_eq_true, Bool.not_eq_true'] at hw1
      obtain ⟨hname, htags⟩ := hw1
      have hx2 := hw.2
      rw [CCMTag.toXMLElement] at hx
      obtain ⟨ch, hch, hxe⟩ := (exceptBind_ok _ _ _).mp hx
      simp only [Except.ok.injEq] at hxe
      subst hxe
      have hsub := ccmFolderTags_rt tags htags ch hch
      simp [ccmListTags, CCMFolder.fromXMLElement, rtVal_str_of_not_numeric hname,
        hsub, hrec, ccmTagsNormalize, CCMTag.normalize, pure, Except.pure]
    | folderLink l =>
      have hl := hw.1
      rw [show CCMTag.wf (.folderLink l) = l.wf from rfl] at hl
      obtain ⟨a, c, hxe, hdec⟩ := CCMFolderLink_rt l hl x hx
      subst hxe
      simp [ccmListTags, hdec, hrec, ccmTagsNormalize, CCMTag.normalize, pure, Except.pure]
    | ccm p subs =>
      obtain ⟨a, c, hxe, hdec⟩ := CCM_rt p subs hw.1 x hx
      subst hxe
      simp [ccmListTags, hdec, hrec, ccmTagsNormalize, CCMTag.normalize, pure, Except.pure]
    | ccmLink l =>
      obtain ⟨a, c, hxe, hdec⟩ := CCMLink_rt l x hx
      subst hxe
      simp [ccmListTags, hdec, hrec, ccmTagsNormalize, CCMTag.normalize, pure, Except.pure]
    | table t =>
      have ht := hw.1
      rw [show CCMTag.wf (.table t) = t.wf from rfl] at ht
      rw [show CCMTag.toXMLElement (.table t) = Table.toXMLElement t from rfl] at hx
      obtain ⟨a, c, hxe, hdec⟩ := Table_rt t ht x hx
      subst hxe
      simp [ccmListTags, hdec, hrec, ccmTagsNormalize, CCMTag.normalize, pure, Except.pure]
    | memo m =>
      simp [isCCMTagMemo] at hnm

theorem ControlChangeMacroList_rt (l : ControlChangeMacroList)
    (hw : ControlChangeMacroList.wf l = true) (x : XNode)
    (he : ControlChangeMacroList.toXMLElement l = .ok x) :
    ∃ a c, x = .elem "ControlChangeMacroList" a c ∧
      ControlChangeMacroList.fromXMLElement
        (.elem "ControlChangeMacroList" (rtAttrs a) (rtChildren c)) =
          .ok ⟨ccmTagsNormalize l.tags⟩ := by
  unfold ControlChangeMacroList.toXMLElement at he
  obtain ⟨ts, hts, he2⟩ := (exceptBind_ok _ _ _).mp he
  simp only [Except.ok.injEq] at he2
  subst he2
  refine ⟨_, _, rfl, ?_⟩
  simp only [ControlChangeMacroList.wf, Bool.and_eq_true] at hw
  have hdec := ccmListTags_rt l.tags hw.1 hw.2 ts hts
  simp [ControlChangeMacroList.fromXMLElement, hdec, pure, Except.pure]

theorem tmplChildren_rt (cs : List TmplChild) (hw : cs.all TmplChild.wf = true)
    (xs : List XNode) (he : cs.mapM TmplChild.toXMLElement = .ok xs) :
    templateChildren (rtChildren xs) = .ok cs := by
  induction cs generalizing xs with
  | nil =>
    rw [mapM_nil_E] at he
    simp only [Except.ok.injEq] at he
    subst he
    rfl
  | cons c rest ih =>
    simp only [List.all_cons, Bool.and_eq_true] at hw
    rw [List.mapM_cons] at he
    obtain ⟨x, hx, he2⟩ := (exceptBind_ok _ _ _).mp he
    obtain ⟨ys, hys, he3⟩ := (exceptBind_ok _ _ _).mp he2
    simp only [pure, Except.pure, Except.ok.injEq] at he3
    subst he3
    have hrec := ih hw.2 ys hys
    cases c with
    | memo m =>
      obtain ⟨a, ch, hxe, hdec⟩ := Memo_rt m x hx
      subst hxe
      simp [templateChildren, hdec, hrec, pure, Except.pure]
    | cc v =>
      obtain ⟨a, ch, hxe, hdec⟩ := CC_rt v x hx
      subst hxe
      simp [templateChildren, hdec, hrec, pure, Except.pure]
    | pc p =>
      obtain ⟨a, ch, hxe, hdec⟩ := TemplatePC_rt p x hx
      subst hxe
      simp [templateChildren, hdec, hrec, pure, Except.pure]
    | comment v =>
      have hwc : TmplChild.wf (.comment v) = true := hw.1
      rw [show TmplChild.wf (.comment v) = v.wf from rfl] at hwc
      obtain ⟨a, ch, hxe, hdec⟩ := Comment_rt v hwc x hx
      subst hxe
      simp [templateChildren, hdec, hrec, pure, Except.pure]

theorem Template_rt (p : TemplateParam) (tags : List TmplChild)
    (hw : TemplateTag.wf (.template p tags) = true) (x : XNode)
    (he : Template.toXMLElementCore p tags = .ok x) :
    ∃ a c, x = .elem "Template" a c ∧
      Template.fromXMLElement (.elem "Template" (rtAttrs a) (rtChildren c)) =
        .ok (.template p tags) := by
  unfold Template.toXMLElementCore at he
  obtain ⟨u, hchk, he2⟩ := (exceptBind_ok _ _ _).mp he
  obtain ⟨cs, hcs, he3⟩ := (exceptBind_ok _ _ _).mp he2
  simp only [Except.ok.injEq] at he3
  subst he3
  refine ⟨_, _, rfl, ?_⟩
  rw [TemplateTag.wf] at hw
  simp only [TemplateParam.wf, Bool.and_eq_true, Bool.not_eq_true'] at hw
  obtain ⟨hname, hall⟩ := hw
  have hdec := tmplChildren_rt tags hall cs hcs
  simp [Template.fromXMLElement, rtVal_str_of_not_numeric hname, hdec, pure, Except.pure]

theorem templateFolderTags_rt : ∀ (ts : List TemplateTag), templateTagsWf ts = true →
    ∀ xs, templateTagsToXML ts = .ok xs →
    templateFolderTags (rtChildren xs) = .ok ts
  | [], hw, xs, he => by
    rw [templateTagsToXML] at he
    simp only [Except.ok.injEq] at he
    subst he
    rfl
  | .folder name tags :: rest, hw, xs, he => by
    rw [templateTagsToXML] at he
    obtain ⟨x, hx, he2⟩ := (exceptBind_ok _ _ _).mp he
    obtain ⟨ys, hys, he3⟩ := (exceptBind_ok _ _ _).mp he2
    simp only [Except.ok.injEq] at he3
    subst he3
    rw [templateTagsWf] at hw
    simp only [Bool.and_eq_true] at hw
    have hw1 := hw.1
    rw [TemplateTag.wf] at hw1
    simp only [Bool.and_eq_true, Bool.not_eq_true'] at hw1
    obtain ⟨hname, htags⟩ := hw1
    rw [TemplateTag.toXMLElement] at hx
    obtain ⟨ch, hch, hx2⟩ := (exceptBind_ok _ _ _).mp hx
    simp only [Except.ok.injEq] at hx2
    subst hx2
    have hsub := templateFolderTags_rt tags htags ch hch
    have hrec := templateFolderTags_rt rest hw.2 ys hys
    simp [templateFolderTags, TemplateFolder.fromXMLElement,
      rtVal_str_of_not_numeric hname, hsub, hrec, pure, Except.pure]
  | .template p tags :: rest, hw, xs, he => by
    rw [templateTagsToXML] at he
    obtain ⟨x, hx, he2⟩ := (exceptBind_ok _ _ _).mp he
    obtain ⟨ys, hys, he3⟩ := (exceptBind_ok _ _ _).mp he2
    simp only [Except.ok.injEq] at he3
    subst he3
    rw [templateTagsWf] at hw
    simp only [Bool.and_eq_true] at hw
    rw [show TemplateTag.toXMLElement (.template p tags) =
      Template.toXMLElementCore p tags from rfl] at hx
    obtain ⟨a, c, hxe, hdec⟩ := Template_rt p tags hw.1 x hx
    subst hxe
    have hrec := templateFolderTags_rt rest hw.2 ys hys
    simp [templateFolderTags, hdec, hrec, pure, Except.pure]
termination_by ts => sizeOf ts

theorem templateListTags_rt (ts : List TemplateTag) (hw : templateTagsWf ts = true)
    (xs : List XNode) (he : templateTagsToXML ts = .ok xs) :
    templateListTags (rtChildren xs) = .ok ts := by
  induction ts generalizing xs with
  | nil =>
    rw [templateTagsToXML] at he
    simp only [Except.ok.injEq] at he
    subst he
    rfl
  | cons t rest ih =>
    rw [templateTagsToXML] at he
    obtain ⟨x, hx, he2⟩ := (exceptBind_ok _ _ _).mp he
    obtain ⟨ys, hys, he3⟩ := (exceptBind_ok _ _ _).mp he2
    simp only [Except.ok.injEq] at he3
    subst he3
    rw [templateTagsWf] at hw
    simp only [Bool.and_eq_true] at hw
    have hrec := ih hw.2 ys hys
    cases t with
    | folder name tags =>
      have hw1 := hw.1
      rw [TemplateTag.wf] at hw1
      simp only [Bool.and_eq_true, Bool.not_eq_true'] at hw1
      obtain ⟨hname, htags⟩ := hw1
      rw [TemplateTag.toXMLElement] at hx
      obtain ⟨ch, hch, hx2⟩ := (exceptBind_ok _ _ _).mp hx
      simp only [Except.ok.injEq] at hx2
      subst hx2
      have hsub := templateFolderTags_rt tags htags ch hch
      simp [templateListTags, TemplateFolder.fromXMLElement,
        rtVal_str_of_not_numeric hname, hsub, hrec, pure, Except.pure]
    | template p tags =>
      rw [show TemplateTag.toXMLElement (.template p tags) =
        Template.toXMLElementCore p tags from rfl] at hx
      obtain ⟨a, c, hxe, hdec⟩ := Template_rt p tags hw.1 x hx
      subst hxe
      simp [templateListTags, hdec, hrec, pure, Except.pure]

theorem TemplateList_rt (l : TemplateList) (hw : TemplateList.wf l = true) (x : XNode)
    (he : TemplateList.toXMLElement l = .ok x) :
    ∃ a c, x = .elem "TemplateList" a c ∧
      TemplateList.fromXMLElement (.elem "TemplateList" (rtAttrs a) (rtChildren c)) =
        .ok l := by
  unfold TemplateList.toXMLElement at he
  obtain ⟨ts, hts, he2⟩ := (exceptBind_ok _ _ _).mp he
  simp only [Except.ok.injEq] at he2
  subst he2
  refine ⟨_, _, rfl, ?_⟩
  have hdec := templateListTags_rt l.tags hw ts hts
  simp [TemplateList.fromXMLElement, hdec, pure, Except.pure]

theorem moduleTag_key_normalize (t : ModuleTag) : t.normalize.key = t.key := by
  cases t <;> rfl

theorem upsertModule_append (acc : List ModuleTag) (t : ModuleTag)
    (h : ∀ u ∈ acc, u.key ≠ t.key) : upsertModule acc t = acc ++ [t] := by
  induction acc with
  | nil => rfl
  | cons u rest ih =>
    rw [upsertModule]
    rw [if_neg (h u (List.mem_cons_self u rest))]
    simp [ih (fun v hv => h v (List.mem_cons_of_mem u hv))]

theorem moduleTags_rt (tags : List ModuleTag) (hw : tags.all ModuleTag.wf = true)
    (hnd : (tags.map ModuleTag.key).Nodup) (xs : List XNode)
    (he : tags.mapM ModuleTag.toXMLElement = .ok xs) (acc : List ModuleTag)
    (hacc : ∀ u ∈ acc, ∀ t ∈ tags, u.key ≠ t.key) :
    moduleTags (rtChildren xs) acc = .ok (acc ++ tags.map ModuleTag.normalize) := by
  induction tags generalizing xs acc with
  | nil =>
    rw [mapM_nil_E] at he
    simp only [Except.ok.injEq] at he
    subst he
    simp [moduleTags]
  | cons t rest ih =>
    simp only [List.all_cons, Bool.and_eq_true] at hw
    rw [List.mapM_cons] at he
    obtain ⟨x, hx, he2⟩ := (exceptBind_ok _ _ _).mp he
    obtain ⟨ys, hys, he3⟩ := (exceptBind_ok _ _ _).mp he2
    simp only [pure, Except.pure, Except.ok.injEq] at he3
    subst he3
    simp only [List.map_cons, List.nodup_cons, List.mem_map] at hnd
    have hknd : t.key ∉ rest.map ModuleTag.key := by
      intro hmem
      obtain ⟨u, hu, hku⟩ := List.mem_map.mp hmem
      exact hnd.1 ⟨u, hu, hku⟩
    have hacc2 : ∀ u ∈ acc ++ [t.normalize], ∀ r ∈ rest, u.key ≠ r.key := by
      intro u hu r hr
      rcases List.mem_append.mp hu with h1 | h2
      · exact hacc u h1 r (List.mem_cons_of_mem t hr)
      · simp only [List.mem_singleton] at h2
        subst h2
        rw [moduleTag_key_normalize]
        intro hcon
        exact hknd (hcon ▸ List.mem_map_of_mem ModuleTag.key hr)
    have hups : upsertModule acc t.normalize = acc ++ [t.normalize] := by
      apply upsertModule_append
      intro u hu
      rw [moduleTag_key_normalize]
      exact hacc u hu t (List.mem_cons_self t rest)
    cases t with
    | rhythmTrackDefault v =>
      obtain ⟨a, c, hxe, hdec⟩ := RhythmTrackDefault_rt v x hx
      subst hxe
      have ihr := ih hw.2 hnd.2 ys hys _ hacc2
      simp only [ModuleTag.normalize] at hups ihr
      simp [moduleTags, hdec, hups, ihr, ModuleTag.normalize]
    | exclusiveEventDefault v =>
      have hwv : looksNumeric v.data = false := by
        simpa [ModuleTag.wf, Bool.not_eq_true'] using hw.1
      obtain ⟨a, c, hxe, hdec⟩ := ExclusiveEventDefault_rt v hwv x hx
      subst hxe
      have ihr := ih hw.2 hnd.2 ys hys _ hacc2
      simp only [ModuleTag.normalize] at hups ihr
      simp [moduleTags, hdec, hups, ihr, ModuleTag.normalize]
    | programChangeEventPropertyDlg v =>
      obtain ⟨a, c, hxe, hdec⟩ := ProgramChangeEventPropertyDlg_rt v x hx
      subst hxe
      have ihr := ih hw.2 hnd.2 ys hys _ hacc2
      simp only [ModuleTag.normalize] at hups ihr
      simp [moduleTags, hdec, hups, ihr, ModuleTag.normalize]
    | controlChangeEventDefault v =>
      obtain ⟨a, c, hxe, hdec⟩ := ControlChangeEventDefault_rt v x hx
      subst hxe
      have ihr := ih hw.2 hnd.2 ys hys _ hacc2
      simp only [ModuleTag.normalize] at hups ihr
      simp [moduleTags, hdec, hups, ihr, ModuleTag.normalize]
    | instrumentList v =>
      have hwv : InstrumentList.wf v = true := by simpa [ModuleTag.wf] using hw.1
      obtain ⟨a, c, hxe, hdec⟩ := InstrumentList_rt v hwv x hx
      subst hxe
      have ihr := ih hw.2 hnd.2 ys hys _ hacc2
      simp only [ModuleTag.normalize] at hups ihr
      simp [moduleTags, hdec, hups, ihr, ModuleTag.normalize]
    | drumSetList v =>
      have hwv : DrumSetList.wf v = true := by simpa [ModuleTag.wf] using hw.1
      obtain ⟨a, c, hxe, hdec⟩ := DrumSetList_rt v hwv x hx
      subst hxe
      have ihr := ih hw.2 hnd.2 ys hys _ hacc2
      simp only [ModuleTag.normalize] at hups ihr
      simp [moduleTags, hdec, hups, ihr, ModuleTag.normalize]
    | controlChangeMacroList v =>
      have hwv : ControlChangeMacroList.wf v = true := by simpa [ModuleTag.wf] using hw.1
      obtain ⟨a, c, hxe, hdec⟩ := ControlChangeMacroList_rt v hwv x hx
      subst hxe
      have ihr := ih hw.2 hnd.2 ys hys _ hacc2
      simp only [ModuleTag.normalize] at hups ihr
      simp [moduleTags, hdec, hups, ihr, ModuleTag.normalize]
    | templateList v =>
      have hwv : TemplateList.wf v = true := by simpa [ModuleTag.wf] using hw.1
      obtain ⟨a, c, hxe, hdec⟩ := TemplateList_rt v hwv x hx
      subst hxe
      have ihr := ih hw.2 hnd.2 ys hys _ hacc2
      simp only [ModuleTag.normalize] at hups ihr
      simp [moduleTags, hdec, hups, ihr, ModuleTag.normalize]
    | defaultData v =>
      have hwv : DefaultData.wf v = true := by simpa [ModuleTag.wf] using hw.1
      obtain ⟨a, c, hxe, hdec⟩ := DefaultData_rt v hwv x hx
      subst hxe
      have ihr := ih hw.2 hnd.2 ys hys _ hacc2
      simp only [ModuleTag.normalize] at hups ihr
      simp [moduleTags, hdec, hups, ihr, ModuleTag.normalize]

theorem ModuleData_rt (m : ModuleData) (hw : ModuleData.wf m = true) (x : XNode)
    (he : ModuleData.toXMLElement m = .ok x) :
    ∃ a c, x = .elem "ModuleData" a c ∧
      ModuleData.fromXMLElement (.elem "ModuleData" (rtAttrs a) (rtChildren c)) =
        .ok m.normalize := by
  unfold ModuleData.toXMLElement at he
  obtain ⟨cs, hcs, he2⟩ := (exceptBind_ok _ _ _).mp he
  simp only [Except.ok.injEq] at he2
  subst he2
  refine ⟨_, _, rfl, ?_⟩
  simp only [ModuleData.wf, ModuleDataParam.wf, Bool.and_eq_true, Bool.not_eq_true',
    decide_eq_true_eq] at hw
  obtain ⟨⟨⟨⟨⟨⟨hname, hfolder⟩, hcreator⟩, hversion⟩, hwebsite⟩, hall⟩, hnd⟩ := hw
  have hdec := moduleTags_rt m.tags hall hnd cs hcs [] (by simp)
  simp only [List.nil_append] at hdec
  simp [ModuleData.fromXMLElement, ModuleData.normalize, rtVal_str_of_not_numeric hname,
    map_comp_rtVal_str hfolder, map_rtVal_str hfolder, map_comp_rtVal_str hcreator,
    map_rtVal_str hcreator, map_comp_rtVal_str hversion, map_rtVal_str hversion,
    map_comp_rtVal_str hwebsite, map_rtVal_str hwebsite, hdec, pure, Except.pure]

theorem rtVal_shift_jis : rtVal (.str "Shift_JIS") = .str "Shift_JIS" := by
  have h : looksNumeric "Shift_JIS" = false := by decide
  simp [rtVal, h]

/-- Helper for the round-trip claim: encode-then-decode through the
collaborator at document level. -/
theorem File_rt (f : File) (x : XmlJs) (hw : File.wf f = true)
    (he : File.toXML f = .ok x) : File.fromXML (rtDoc x) = .ok (File.normalize f) := by
  unfold File.toXML at he
  obtain ⟨el, hel, he2⟩ := (exceptBind_ok _ _ _).mp he
  simp only [Except.ok.injEq] at he2
  subst he2
  rw [show File.wf f = ModuleData.wf f.moduleData from rfl] at hw
  obtain ⟨a, c, hxe, hdec⟩ := ModuleData_rt f.moduleData hw el hel
  subst hxe
  simp only [rtAttrs] at hdec
  simp [rtDoc, rtAttrs, rtVal_shift_jis, File.fromXML, File.normalize, hdec,
    pure, Except.pure, alookup]

/-- C1 (counterexample): the file c1BadFile passes every validation
(its encode succeeds, and encode validates first and fails closed), yet
decoding the text produced by encoding it does not reconstruct the
tree: the collaborator coerces the numeric-looking string attribute
Data="123" to the number 123, and ExclusiveEventDefault.fromXMLElement
then fails its typeof check.  No Tempo is involved, so the claimed
tempo-quantisation exception cannot account for the failure, and the
claim as stated is false. -/
theorem spec_c1_counterexample :
    File.toXML c1BadFile = .ok c1BadDoc ∧
      File.fromXML (rtDoc c1BadDoc) =
        .error "Invalid XML: Not found ExclusiveEventDefault Data" :=
  ⟨rfl, rfl⟩

/-- C1 (amended): for every document tree constructible in the source's
types (wf: unique tags-object keys, nonempty bank lists, and no
string-valued attribute that is numeric-looking, the condition the
counterexample violates), if encoding succeeds (every entity passed
validation) then decoding the encoded document reconstructs the tree up
to normalize: Tempo values re-quantised to three decimals, and absent
Value/Gate entry lists decoded as present-but-empty. -/
theorem spec_c1_round_trip (f : File) (x : XmlJs) (hw : File.wf f = true)
    (he : File.toXML f = .ok x) : File.fromXML (rtDoc x) = .ok (File.normalize f) :=
  File_rt f x hw he

/-- Witness for C1 (amended) at the concrete file c1File. -/
theorem spec_c1_round_trip_witness :
    File.fromXML (rtDoc c1FileDoc) = .ok (File.normalize c1File) :=
  spec_c1_round_trip c1File c1FileDoc (by decide) rfl

theorem moduleTag_toXML_name (t : ModuleTag) (x : XNode)
    (he : ModuleTag.toXMLElement t = .ok x) : XNode.nodeName x = ModuleTag.elemName t := by
  cases t with
  | rhythmTrackDefault v =>
    simp only [ModuleTag.toXMLElement, RhythmTrackDefault.toXMLElement,
      Except.ok.injEq] at he
    subst he
    rfl
  | exclusiveEventDefault v =>
    simp only [ModuleTag.toXMLElement, ExclusiveEventDefault.toXMLElement,
      Except.ok.injEq] at he
    subst he
    rfl
  | programChangeEventPropertyDlg v =>
    simp only [ModuleTag.toXMLElement, ProgramChangeEventPropertyDlg.toXMLElement,
      Except.ok.injEq] at he
    subst he
    rfl
  | controlChangeEventDefault v =>
    simp only [ModuleTag.toXMLElement, ControlChangeEventDefault.toXMLElement,
      Except.ok.injEq] at he
    subst he
    rfl
  | instrumentList v =>
    rw [show ModuleTag.toXMLElement (.instrumentList v) =
      InstrumentList.toXMLElement v from rfl] at he
    unfold InstrumentList.toXMLElement at he
    obtain ⟨ms, hms, he2⟩ := (exceptBind_ok _ _ _).mp he
    simp only [Except.ok.injEq] at he2
    subst he2
    rfl
  | drumSetList v =>
    rw [show ModuleTag.toXMLElement (.drumSetList v) =
      DrumSetList.toXMLElement v from rfl] at he
    unfold DrumSetList.toXMLElement at he
    obtain ⟨ms, hms, he2⟩ := (exceptBind_ok _ _ _).mp he
    simp only [Except.ok.injEq] at he2
    subst he2
    rfl
  | controlChangeMacroList v =>
    rw [show ModuleTag.toXMLElement (.controlChangeMacroList v) =
      ControlChangeMacroList.toXMLElement v from rfl] at he
    unfold ControlChangeMacroList.toXMLElement at he
    obtain ⟨ts, hts, he2⟩ := (exceptBind_ok _ _ _).mp he
    simp only [Except.ok.injEq] at he2
    subst he2
    rfl
  | templateList v =>
    rw [show ModuleTag.toXMLElement (.templateList v) =
      TemplateList.toXMLElement v from rfl] at he
    unfold TemplateList.toXMLElement at he
    obtain ⟨ts, hts, he2⟩ := (exceptBind_ok _ _ _).mp he
    simp only [Except.ok.injEq] at he2
    subst he2
    rfl
  | defaultData v =>
    rw [show ModuleTag.toXMLElement (.defaultData v) =
      DefaultData.toXMLElement v from rfl] at he
    unfold DefaultData.toXMLElement at he
    obtain ⟨ds, hds, he2⟩ := (exceptBind_ok _ _ _).mp he
    simp only [Except.ok.injEq] at he2
    subst he2
    rfl

theorem moduleTags_toXML_names (tags : List ModuleTag) (xs : List XNode)
    (he : tags.mapM ModuleTag.toXMLElement = .ok xs) :
    xs.map XNode.nodeName = tags.map ModuleTag.elemName := by
  induction tags generalizing xs with
  | nil =>
    rw [mapM_nil_E] at he
    simp only [Except.ok.injEq] at he
    subst he
    rfl
  | cons t rest ih =>
    rw [List.mapM_cons] at he
    obtain ⟨x, hx, he2⟩ := (exceptBind_ok _ _ _).mp he
    obtain ⟨ys, hys, he3⟩ := (exceptBind_ok _ _ _).mp he2
    simp only [pure, Except.pure, Except.ok.injEq] at he3
    subst he3
    simp [moduleTag_toXML_name t x hx, ih ys hys]

/-- C2 (counterexample): a ModuleData whose tags object was populated
defaultData first and instrumentList second (exactly what
ModuleData.fromXMLElement produces for an input with that child order)
encodes its children as DefaultData before InstrumentList —
Object.values iterates the tags object in key insertion order — while
the fixed field-declaration order for these two sub-trees is
InstrumentList before DefaultData.  The claim as stated is false. -/
theorem spec_c2_counterexample :
    ModuleData.toXMLElement c2Md = .ok (.elem "ModuleData" [("Name", .str "M")]
      [.elem "DefaultData" [] [], .elem "InstrumentList" [] []]) ∧
      ["DefaultData", "InstrumentList"] ≠ ["InstrumentList", "DefaultData"] :=
  ⟨rfl, by decide⟩

/-- C2 (amended): ModuleData.toXMLElement emits the present sub-trees
in the key insertion order of the tags object (for a decoded document,
the order in which their elements first arrived), not in the fixed
field-declaration order. -/
theorem spec_c2_encode_order (m : ModuleData) (x : XNode)
    (he : ModuleData.toXMLElement m = .ok x) :
    ∃ a cs, x = .elem "ModuleData" a cs ∧
      cs.map XNode.nodeName = m.tags.map ModuleTag.elemName := by
  unfold ModuleData.toXMLElement at he
  obtain ⟨cs, hcs, he2⟩ := (exceptBind_ok _ _ _).mp he
  simp only [Except.ok.injEq] at he2
  subst he2
  exact ⟨_, _, rfl, moduleTags_toXML_names m.tags cs hcs⟩

/-- Witness for C2 (amended) at the concrete module data c2Md. -/
theorem spec_c2_encode_order_witness :
    ∃ a cs, (.elem "ModuleData" [("Name", .str "M")]
        [.elem "DefaultData" [] [], .elem "InstrumentList" [] []] : XNode) = .elem "ModuleData" a cs ∧
      cs.map XNode.nodeName = c2Md.tags.map ModuleTag.elemName :=
  spec_c2_encode_order c2Md _ rfl

theorem moduleTags_unknown_cons (n : String) (a : List (String × AttrValue))
    (c : List XNode) (xs : List XNode) (acc : List ModuleTag)
    (hn : n ∉ (["RhythmTrackDefault", "ExclusiveEventDefault",
      "ProgramChangeEventPropertyDlg", "ControlChangeEventDefault", "InstrumentList",
      "DrumSetList", "ControlChangeMacroList", "TemplateList", "DefaultData"] :
        List String)) :
    moduleTags (.elem n a c :: xs) acc = moduleTags xs acc := by
  rw [moduleTags] <;> simp_all

theorem moduleTags_append (l rest : List XNode) (acc : List ModuleTag) :
    moduleTags (l ++ rest) acc =
      (moduleTags l acc) >>= fun a2 => moduleTags rest a2 := by
  induction l generalizing acc with
  | nil => simp [moduleTags]
  | cons x xs ih =>
    cases x with
    | text s =>
      simp only [List.cons_append, moduleTags]
      exact ih acc
    | elem n a c =>
      by_cases h1 : n = "RhythmTrackDefault"
      · subst h1; simp [moduleTags, ih, bind_assoc]
      by_cases h2 : n = "ExclusiveEventDefault"
      · subst h2; simp [moduleTags, ih, bind_assoc]
      by_cases h3 : n = "ProgramChangeEventPropertyDlg"
      · subst h3; simp [moduleTags, ih, bind_assoc]
      by_cases h4 : n = "ControlChangeEventDefault"
      · subst h4; simp [moduleTags, ih, bind_assoc]
      by_cases h5 : n = "InstrumentList"
      · subst h5; simp [moduleTags, ih, bind_assoc]
      by_cases h6 : n = "DrumSetList"
      · subst h6; simp [moduleTags, ih, bind_assoc]
      by_cases h7 : n = "ControlChangeMacroList"
      · subst h7; simp [moduleTags, ih, bind_assoc]
      by_cases h8 : n = "TemplateList"
      · subst h8; simp [moduleTags, ih, bind_assoc]
      by_cases h9 : n = "DefaultData"
      · subst h9; simp [moduleTags, ih, bind_assoc]
      · simp only [List.cons_append]
        rw [moduleTags, moduleTags] <;> first | exact ih acc | simp_all

/-- C3 (counterexample): Value.fromXMLElement decodes every element
child as an Entry, whatever its name, so a Value holding one unknown
child element Foo fails to decode, while the same Value without it
succeeds — the unknown child is not skipped and decode does not behave
as if it were absent. -/
theorem spec_c3_counterexample :
    Value.fromXMLElement (.elem "Value" [] [.elem "Foo" [] []]) =
        .error "Invalid XML: Not found Entry Label" ∧
      Value.fromXMLElement (.elem "Value" [] []) =
        .ok ⟨none, none, none, none, none, none, none, some []⟩ :=
  ⟨rfl, rfl⟩

/-- C3 (amended): the name-dispatching decoders do skip unknown child
names — for the aggregate root, inserting a child element with an
unrecognised name anywhere leaves ModuleData.fromXMLElement's result
unchanged — but the Value/Gate and Table decoders instead decode every
element child as an Entry, so an unknown child there is mis-decoded or
fails (the counterexample). -/
theorem spec_c3_unknown_child_skip (mdn n : String)
    (mda a : List (String × AttrValue)) (c : List XNode) (pre post : List XNode)
    (hn : n ∉ (["RhythmTrackDefault", "ExclusiveEventDefault",
      "ProgramChangeEventPropertyDlg", "ControlChangeEventDefault", "InstrumentList",
      "DrumSetList", "ControlChangeMacroList", "TemplateList", "DefaultData"] :
        List String)) :
    ModuleData.fromXMLElement (.elem mdn mda (pre ++ .elem n a c :: post)) =
      ModuleData.fromXMLElement (.elem mdn mda (pre ++ post)) := by
  have hmt : ∀ acc, moduleTags (pre ++ .elem n a c :: post) acc =
      moduleTags (pre ++ post) acc := by
    intro acc
    rw [moduleTags_append, moduleTags_append]
    simp only [moduleTags_unknown_cons n a c post _ hn]
  simp only [ModuleData.fromXMLElement]
  simp only [hmt]

/-- Witness for C3 (amended): an unknown child named Mystery inside a
ModuleData element changes nothing. -/
theorem spec_c3_unknown_child_skip_witness :
    ModuleData.fromXMLElement (.elem "ModuleData" [("Name", .str "W")]
        ([] ++ .elem "Mystery" [] [] :: [.elem "RhythmTrackDefault" [("Gate", .num 1)] []])) =
      ModuleData.fromXMLElement (.elem "ModuleData" [("Name", .str "W")]
        ([] ++ [.elem "RhythmTrackDefault" [("Gate", .num 1)] []])) :=
  spec_c3_unknown_child_skip "ModuleData" "Mystery" [("Name", .str "W")] [] []
    [] [.elem "RhythmTrackDefault" [("Gate", .num 1)] []] (by decide)

theorem entryViolates_eq_false (mn mx : Option ℚ) (v : ℚ) :
    entryViolates mn mx v = false ↔
      (∀ m, mn = some m → m ≤ v) ∧ (∀ m, mx = some m → v ≤ m) := by
  cases mn <;> cases mx <;> simp [entryViolates, not_lt]

theorem valueEntriesCheck_ok (mn mx : Option ℚ) (l : List Entry) :
    valueEntriesCheck mn mx l = .ok () ↔
      ∀ e ∈ l, entryViolates mn mx e.value = false := by
  induction l with
  | nil => simp [valueEntriesCheck]
  | cons e r ih =>
    rw [valueEntriesCheck]
    by_cases h : entryViolates mn mx e.value
    · rw [if_pos h]
      constructor
      · intro hc
        exact absurd hc (by simp)
      · intro hall
        have hf := hall e (List.mem_cons_self e r)
        rw [hf] at h
        exact absurd h (by simp)
    · rw [if_neg h, ih]
      simp only [Bool.not_eq_true] at h
      simp [List.forall_mem_cons, h]

/-- C4 (counterexample): a Value with min present, max absent and an
entry below min fails validation — an absent bound does not disable the
other bound's constraint — with the absent bound rendered as the text
undefined in the error message. -/
theorem spec_c4_counterexample :
    Value.check c4Val =
        .error "Entry Value must be between 5 and undefined. Received 3" ∧
      c4Val.max = none :=
  ⟨rfl, rfl⟩

/-- C4 (amended): Value/Gate validation tests each bound independently:
it succeeds exactly when every entry value is at least min whenever min
is present, and at most max whenever max is present — a single present
bound is still enforced on its own, rather than both bounds being
required before any constraint applies. -/
theorem spec_c4_bounds (v : Value) :
    Value.check v = .ok () ↔
      ∀ e ∈ v.tags.getD [], (∀ m, v.min = some m → m ≤ e.value) ∧
        (∀ m, v.max = some m → e.value ≤ m) := by
  obtain ⟨d, mn, mx, off, nm, ty, tid, tags⟩ := v
  cases tags with
  | none => simp [Value.check]
  | some l =>
    simp only [Value.check, Option.getD_some]
    rw [valueEntriesCheck_ok]
    constructor
    · intro hall e he
      exact (entryViolates_eq_false mn mx e.value).mp (hall e he)
    · intro hall e he
      exact (entryViolates_eq_false mn mx e.value).mpr (hall e he)

/-- C5: encoding validates first and fails closed — if validation of an
InstrumentPC or a Tone raises an error, toXMLElement raises that same
error and never produces an element — while decode never validates: a
Tone element with Key 200 decodes fine even though the decoded Tone
fails validation. -/
theorem spec_c5_validate_first :
    (∀ (p : InstrumentPC) (e : String), InstrumentPC.check p = .error e →
        InstrumentPC.toXMLElement p = .error e) ∧
      (∀ (t : Tone) (e : String), Tone.check t = .error e →
        Tone.toXMLElement t = .error e) ∧
      Tone.fromXMLElement (.elem "Tone" [("Name", .str "t"), ("Key", .num 200)] []) =
        .ok ⟨"t", 200⟩ ∧
      Tone.check ⟨"t", 200⟩ =
        .error "Key must be between 0 and 127. Received: 200" := by
  refine ⟨?_, ?_, rfl, rfl⟩
  · intro p e he
    unfold InstrumentPC.toXMLElement
    rw [he]
    rfl
  · intro t e he
    unfold Tone.toXMLElement
    rw [he]
    rfl

/-- Witness for C5: a concrete InstrumentPC with program number 0 fails
validation, and its encoding raises that same error. -/
theorem spec_c5_validate_first_witness :
    InstrumentPC.toXMLElement ⟨"p", 0, []⟩ =
      .error "PC must be between 1 and 128. Received: 0,p" :=
  spec_c5_validate_first.1 ⟨"p", 0, []⟩
    "PC must be between 1 and 128. Received: 0,p" rfl

/-- C6: the numeric range validators at their boundaries: program
number 0 and 129 fail, 1 and 128 pass; bank lsb 256 and msb -1 fail,
lsb 0 with msb 255 passes; tone key 128 fails, 0 and 127 pass — each
failure with its exact message. -/
theorem spec_c6_boundaries :
    InstrumentPC.check ⟨"n", 0, []⟩ =
        .error "PC must be between 1 and 128. Received: 0,n" ∧
      InstrumentPC.check ⟨"n", 129, []⟩ =
        .error "PC must be between 1 and 128. Received: 129,n" ∧
      InstrumentPC.check ⟨"n", 1, []⟩ = .ok () ∧
      InstrumentPC.check ⟨"n", 128, []⟩ = .ok () ∧
      Bank.check ⟨"b", some 256, none⟩ =
        .error "LSB must be between 0 and 255. Received: 256" ∧
      Bank.check ⟨"b", none, some (-1)⟩ =
        .error "MSB must be between 0 and 255. Received: -1" ∧
      Bank.check ⟨"b", some 0, some 255⟩ = .ok () ∧
      Tone.check ⟨"t", 128⟩ =
        .error "Key must be between 0 and 127. Received: 128" ∧
      Tone.check ⟨"t", 0⟩ = .ok () ∧
      Tone.check ⟨"t", 127⟩ = .ok () :=
  ⟨rfl, rfl, rfl, rfl, rfl, rfl, rfl, rfl, rfl, rfl⟩

/-- C7 (counterexample): on the macro list with CCM ids [1,1,3,4,5,9]
the checker does log one duplicate-id error and one range report, but
the report's range content is "1 3-5 9 " — the source appends a space
after every range, so the content is not the claimed "1 3-5 9". -/
theorem spec_c7_counterexample :
    ModuleData.checkLogs c7Md = [.error "Duplicate CCM tag ID: 1",
        .info "Used Ids (CCM): 1 3-5 9 "] ∧
      (LogMsg.info "Used Ids (CCM): 1 3-5 9") ∉ ModuleData.checkLogs c7Md := by
  have h : ModuleData.checkLogs c7Md = [.error "Duplicate CCM tag ID: 1",
      .info "Used Ids (CCM): 1 3-5 9 "] := by
    norm_num [c7Md, ModuleData.checkLogs, findControlChangeMacroList, flatList, flatFn,
      sortTags, insertSorted, idLe, CCMTag.tagId, checkDuplicate, checkDuplicateGo,
      outputUsedId, buildRanges, buildRangesF, scanRange, CCMTag.typeName,
      isCCMTagCCM, isCCMTagFolder, isCCMTagTable, numToStr, intToStr, natToStr,
      natDigitsRev, digitChar] <;> decide
  refine ⟨h, ?_⟩
  rw [h]
  decide

/-- C7 (amended): on the macro list with CCM ids [1,1,3,4,5,9] the
checker logs exactly one duplicate-id error, for the second occurrence
of id 1, and exactly one info-level range report for the CCM kind whose
compressed-range content is the three ranges 1, 3-5 and 9, each
followed by one space. -/
theorem spec_c7_scenario :
    ModuleData.checkLogs c7Md = [.error "Duplicate CCM tag ID: 1",
      .info ("Used Ids (CCM): " ++ "1 " ++ "3-5 " ++ "9 ")] := by
  norm_num [c7Md, ModuleData.checkLogs, findControlChangeMacroList, flatList, flatFn,
    sortTags, insertSorted, idLe, CCMTag.tagId, checkDuplicate, checkDuplicateGo,
    outputUsedId, buildRanges, buildRangesF, scanRange, CCMTag.typeName,
    isCCMTagCCM, isCCMTagFolder, isCCMTagTable, numToStr, intToStr, natToStr,
    natDigitsRev, digitChar] <;> decide

theorem checkDuplicateGo_all_none (l : List CCMTag) (prev : ℚ)
    (h : ∀ t ∈ l, CCMTag.tagId t = none) : checkDuplicateGo prev l = [] := by
  induction l generalizing prev with
  | nil => rfl
  | cons t r ih =>
    rw [checkDuplicateGo, h t (List.mem_cons_self t r)]
    exact ih prev (fun u hu => h u (List.mem_cons_of_mem t hu))

/-- C8: duplicate detection is adjacency-only on the sorted list: an id
occurring three times yields two errors, one per adjacent equal pair,
and a list of tags that all lack an id (which the sort puts last)
yields no duplicate report at all. -/
theorem spec_c8_adjacent :
    checkDuplicate [CCMTag.ccm ⟨7, "a", none, none⟩ [], CCMTag.ccm ⟨7, "b", none, none⟩ [],
        CCMTag.ccm ⟨7, "c", none, none⟩ []] =
      [.error "Duplicate CCM tag ID: 7", .error "Duplicate CCM tag ID: 7"] ∧
      ∀ l : List CCMTag, (∀ t ∈ l, CCMTag.tagId t = none) → checkDuplicate l = [] := by
  refine ⟨rfl, ?_⟩
  intro l h
  exact checkDuplicateGo_all_none l (-1) h

/-- Witness for C8: two id-less folders are never reported as
duplicates of each other. -/
theorem spec_c8_adjacent_witness :
    checkDuplicate [CCMTag.folder ⟨"A", none⟩ [], CCMTag.folder ⟨"B", none⟩ []] = [] :=
  spec_c8_adjacent.2 [CCMTag.folder ⟨"A", none⟩ [], CCMTag.folder ⟨"B", none⟩ []]
    (by decide)

/-- C9: whenever the parsed declaration carries an encoding label other
than Shift_JIS, File.fromXML fails with the bad-encoding error whatever
the document's elements hold — the encoding test runs before any
sub-tree decode, so no ModuleData is ever constructed. -/
theorem spec_c9_encoding_first (d : XmlJs) (attrs : List (String × AttrValue))
    (hd : d.declaration = some attrs)
    (he : alookup "encoding" attrs ≠ some (.str "Shift_JIS")) :
    File.fromXML d = .error "Invalid encoding" := by
  rw [File.fromXML, hd]
  exact if_pos he

/-- Witness for C9: a document labelled UTF-8, whose root element would
itself fail to decode for a missing Name, still fails with the
bad-encoding error. -/
theorem spec_c9_encoding_first_witness :
    File.fromXML c9Doc = .error "Invalid encoding" :=
  spec_c9_encoding_first c9Doc [("version", .str "1.0"), ("encoding", .str "UTF-8")]
    rfl (by decide)

/-- C10: the duplicate scan's previous-identifier tracker starts at -1,
so a macro list whose sorted folder list begins with a folder of id -1
— which passes validation, as folder validation enforces no id range,
and so encodes fine — is reported as a duplicate even though id -1
occurs exactly once in the tree. -/
theorem spec_c10_initial_prev :
    ((flatList [CCMTag.folder ⟨"F", some (-1)⟩ []]).filter
        (fun t => decide (CCMTag.tagId t = some (-1)))).length = 1 ∧
      ModuleData.checkLogs c10Md = [.error "Duplicate Folder tag ID: -1",
        .info "Used Ids (Folder): -1 "] ∧
      (ModuleData.toXMLElement c10Md).isOk = true :=
  ⟨rfl, rfl, rfl⟩

end Domino
